import Mathlib

/-!
# BNHelper: the persistence layer (package `database`) and the chat handlers

A shallow embedding of `src/database/{aidb,chat,fileindex,db,config}.go` and of the
handlers `Chat` and `CreateSession` of `src/handlers/ollama.go`.

The Go code talks to SQLite through `database/sql`.  The state behind a connection is
modelled explicitly, and every SQL statement of the source is a function on that state:

* a table is the list of its rows in rowid order (a new row is appended);
* `INTEGER PRIMARY KEY AUTOINCREMENT`: a new row gets `seq + 1`, where `seq` is the
  table's entry in `sqlite_sequence` (the largest rowid generated for the table so far; an
  upsert generates one before it finds the conflict, so its `DO UPDATE` branch advances
  `seq` as well);
* a `UNIQUE` column makes a plain `INSERT` of an existing value fail, and selects the
  `DO UPDATE` branch of an upsert;
* `foreign_keys` is the connection's `PRAGMA foreign_keys` flag.  SQLite enforces
  `FOREIGN KEY ... ON DELETE CASCADE` only when it is on, and it is off on a fresh
  connection; `NewAIDB` opens the connection with the bare path and issues no pragma;
* `last_insert_rowid` is the connection's `sqlite3_last_insert_rowid()`: it is set by a
  successful `INSERT` of a row and left alone by every other statement, the `DO UPDATE`
  branch of an upsert included.  `Result.LastInsertId` reads it after the statement;
* `Result.RowsAffected` counts the rows an `UPDATE`/`DELETE` matched (changes made by
  triggers and foreign key actions are not counted);
* `CURRENT_TIMESTAMP` has a resolution of one second; the clock reading of a statement is
  an explicit argument `now : Time`, in whole seconds;
* `ORDER BY` is a stable sort of the rows in scan (rowid) order;
* the `AFTER UPDATE` triggers set `updated_at = CURRENT_TIMESTAMP` on the updated row.

The Go standard library (`encoding/json`, `crypto/sha256`), the file system and the
inference server are parameters (`Lib`, `FileSystem`, `Client`).
-/

namespace BNHelper

deriving instance DecidableEq for Except

/-- Seconds since the epoch: the resolution of SQLite's `CURRENT_TIMESTAMP`. -/
abbrev Time := Nat

/-- A Go `[]byte`. -/
abbrev Bytes := List UInt8

/-- The `sql.Result` of an `Exec`. -/
structure Result where
  LastInsertId : Nat
  RowsAffected : Nat
deriving DecidableEq, Repr

/-! ## chat.go: types -/

/-- Go `type ChatSession struct`; also a row of `chat_sessions`. -/
structure ChatSession where
  ID : Nat
  SessionID : String
  Model : String
  Title : String
  CreatedAt : Time
  UpdatedAt : Time
deriving DecidableEq, Repr

/-- Go `type ChatMessage struct`; also a row of `chat_messages`. -/
structure ChatMessage where
  ID : Nat
  SessionID : String
  Role : String
  Content : String
  CreatedAt : Time
deriving DecidableEq, Repr

/-! ## fileindex.go: types -/

/-- A row of `indexed_files`; `Embedding` is the BLOB column. -/
structure IndexedFileRow where
  ID : Nat
  FilePath : String
  Content : String
  Embedding : Bytes
  Model : String
  FileSize : Nat
  FileHash : String
  IndexedAt : Time
  UpdatedAt : Time
deriving DecidableEq, Repr

/-- A row of `file_chunks`; `Embedding` is the BLOB column. -/
structure FileChunkRow where
  ID : Nat
  FileID : Int
  ChunkIndex : Int
  Content : String
  Embedding : Bytes
  CreatedAt : Time
deriving DecidableEq, Repr

/-- Go `type IndexedFile struct`.  A Go `[]float64` is `Option (List F)`: `none` is the nil
slice, `some []` an empty non-nil slice. -/
structure IndexedFile (F : Type) where
  ID : Nat
  FilePath : String
  Content : String
  Embedding : Option (List F)
  Model : String
  FileSize : Nat
  FileHash : String
  IndexedAt : Time
  UpdatedAt : Time
deriving DecidableEq, Repr

/-- Go `type FileChunk struct`. -/
structure FileChunk (F : Type) where
  ID : Nat
  FileID : Int
  ChunkIndex : Int
  Content : String
  Embedding : Option (List F)
  CreatedAt : Time
deriving DecidableEq, Repr

/-! ## aidb.go -/

/-- Go `type AIDB struct { conn *sql.DB }`: the state of the SQLite database behind the one
connection (`SetMaxOpenConns(1)`), with the tables of the schema in `AIDB.initialize`. -/
structure AIDB where
  foreign_keys : Bool
  last_insert_rowid : Nat
  chat_sessions : List ChatSession
  chat_sessions_seq : Nat
  chat_messages : List ChatMessage
  chat_messages_seq : Nat
  indexed_files : List IndexedFileRow
  indexed_files_seq : Nat
  file_chunks : List FileChunkRow
  file_chunks_seq : Nat
deriving DecidableEq, Repr

/-- Go `NewAIDB` on a path with no database yet: `sql.Open("sqlite3", dbPath)` with no
`_foreign_keys` parameter and no `PRAGMA`, then the `CREATE TABLE IF NOT EXISTS` schema. -/
def NewAIDB : AIDB :=
  { foreign_keys := false
    last_insert_rowid := 0
    chat_sessions := []
    chat_sessions_seq := 0
    chat_messages := []
    chat_messages_seq := 0
    indexed_files := []
    indexed_files_seq := 0
    file_chunks := []
    file_chunks_seq := 0 }

/-- Clause `ORDER BY key ASC`: a stable sort of the scanned rows. -/
def orderByAsc {α : Type} (key : α → Int) (rows : List α) : List α :=
  rows.insertionSort (fun a b => key a ≤ key b)

/-- Clause `ORDER BY key DESC`: a stable sort of the scanned rows. -/
def orderByDesc {α : Type} (key : α → Int) (rows : List α) : List α :=
  rows.insertionSort (fun a b => key b ≤ key a)

/-! ## chat.go: the SQL statements -/

/-- Statement `INSERT INTO chat_sessions (session_id, model, title) VALUES (?, ?, ?)`;
`session_id` is `UNIQUE`, `created_at` and `updated_at` default to `CURRENT_TIMESTAMP`. -/
def AIDB.insertChatSession (db : AIDB) (now : Time) (session_id model title : String) :
    Except String (Result × AIDB) :=
  if db.chat_sessions.any (fun r => r.SessionID == session_id) then
    .error "UNIQUE constraint failed: chat_sessions.session_id"
  else
    let id := db.chat_sessions_seq + 1
    let row : ChatSession :=
      { ID := id, SessionID := session_id, Model := model, Title := title,
        CreatedAt := now, UpdatedAt := now }
    .ok ({ LastInsertId := id, RowsAffected := 1 },
         { db with chat_sessions := db.chat_sessions ++ [row]
                   chat_sessions_seq := id
                   last_insert_rowid := id })

/-- Statement `SELECT id, session_id, model, title, created_at, updated_at FROM chat_sessions
WHERE session_id = ?`, first row (`QueryRow`). -/
def AIDB.selectChatSession (db : AIDB) (session_id : String) : Option ChatSession :=
  db.chat_sessions.find? (fun r => r.SessionID == session_id)

/-- Statement `SELECT ... FROM chat_sessions ORDER BY updated_at DESC LIMIT ?`. -/
def AIDB.selectChatSessions (db : AIDB) (limit : Int) : List ChatSession :=
  (orderByDesc (fun r => (r.UpdatedAt : Int)) db.chat_sessions).take limit.toNat

/-- Statement `DELETE FROM chat_sessions WHERE session_id = ?`.  The messages that reference a
deleted session go with it (`ON DELETE CASCADE`) when foreign keys are enforced. -/
def AIDB.deleteChatSession (db : AIDB) (session_id : String) : Except String (Result × AIDB) :=
  let n := (db.chat_sessions.filter (fun r => r.SessionID == session_id)).length
  let sessions := db.chat_sessions.filter (fun r => !(r.SessionID == session_id))
  let messages :=
    if db.foreign_keys && n != 0 then
      db.chat_messages.filter (fun m => !(m.SessionID == session_id))
    else db.chat_messages
  .ok ({ LastInsertId := db.last_insert_rowid, RowsAffected := n },
       { db with chat_sessions := sessions, chat_messages := messages })

/-- Statement `INSERT INTO chat_messages (session_id, role, content) VALUES (?, ?, ?)`;
`session_id` references `chat_sessions(session_id)`, checked when foreign keys are
enforced. -/
def AIDB.insertChatMessage (db : AIDB) (now : Time) (session_id role content : String) :
    Except String (Result × AIDB) :=
  if db.foreign_keys && !(db.chat_sessions.any (fun r => r.SessionID == session_id)) then
    .error "FOREIGN KEY constraint failed"
  else
    let id := db.chat_messages_seq + 1
    let row : ChatMessage :=
      { ID := id, SessionID := session_id, Role := role, Content := content, CreatedAt := now }
    .ok ({ LastInsertId := id, RowsAffected := 1 },
         { db with chat_messages := db.chat_messages ++ [row]
                   chat_messages_seq := id
                   last_insert_rowid := id })

/-- Statement `UPDATE chat_sessions SET updated_at = CURRENT_TIMESTAMP WHERE session_id = ?`
(the trigger `update_chat_sessions_timestamp` then writes the same value again). -/
def AIDB.touchChatSession (db : AIDB) (now : Time) (session_id : String) :
    Except String (Result × AIDB) :=
  let n := (db.chat_sessions.filter (fun r => r.SessionID == session_id)).length
  .ok ({ LastInsertId := db.last_insert_rowid, RowsAffected := n },
       { db with chat_sessions := db.chat_sessions.map (fun r =>
           if r.SessionID == session_id then { r with UpdatedAt := now } else r) })

/-- Statement `SELECT id, session_id, role, content, created_at FROM chat_messages
WHERE session_id = ? ORDER BY created_at ASC`. -/
def AIDB.selectChatMessages (db : AIDB) (session_id : String) : List ChatMessage :=
  orderByAsc (fun m => (m.CreatedAt : Int))
    (db.chat_messages.filter (fun m => m.SessionID == session_id))

/-- Statement `UPDATE chat_sessions SET title = ? WHERE session_id = ?`; the `AFTER UPDATE` trigger
`update_chat_sessions_timestamp` sets `updated_at = CURRENT_TIMESTAMP` on each updated
row. -/
def AIDB.updateChatSessionTitle (db : AIDB) (now : Time) (title session_id : String) :
    Except String (Result × AIDB) :=
  let n := (db.chat_sessions.filter (fun r => r.SessionID == session_id)).length
  .ok ({ LastInsertId := db.last_insert_rowid, RowsAffected := n },
       { db with chat_sessions := db.chat_sessions.map (fun r =>
           if r.SessionID == session_id then { r with Title := title, UpdatedAt := now }
           else r) })

/-! ## chat.go: `ChatStore`

A method that writes returns its Go result together with the database after the call.
`uuid` is the value of `uuid.New().String()`; `now` is the clock reading of the call's
statement (`AddMessage` executes two statements and takes two readings). -/

/-- Go `func (cs *ChatStore) CreateSession(model, title string) (*ChatSession, error)`. -/
def ChatStore.CreateSession (db : AIDB) (now : Time) (uuid model title : String) :
    Except String ChatSession × AIDB :=
  let sessionID := uuid
  match db.insertChatSession now sessionID model title with
  | .error err => (.error ("failed to create chat session: " ++ err), db)
  | .ok (result, db1) =>
    let id := result.LastInsertId
    (.ok { ID := id, SessionID := sessionID, Model := model, Title := title,
           CreatedAt := now, UpdatedAt := now }, db1)

/-- Go `func (cs *ChatStore) GetSession(sessionID string) (*ChatSession, error)`. -/
def ChatStore.GetSession (db : AIDB) (sessionID : String) : Except String ChatSession :=
  match db.selectChatSession sessionID with
  | none => .error ("chat session not found: " ++ sessionID)
  | some session => .ok session

/-- Go `func (cs *ChatStore) ListSessions(limit int) ([]ChatSession, error)`. -/
def ChatStore.ListSessions (db : AIDB) (limit : Int) : Except String (List ChatSession) :=
  let limit := if limit ≤ 0 then 50 else limit
  .ok (db.selectChatSessions limit)

/-- Go `func (cs *ChatStore) DeleteSession(sessionID string) error`. -/
def ChatStore.DeleteSession (db : AIDB) (sessionID : String) : Except String Unit × AIDB :=
  match db.deleteChatSession sessionID with
  | .error err => (.error ("failed to delete chat session: " ++ err), db)
  | .ok (result, db1) =>
    let rowsAffected := result.RowsAffected
    if rowsAffected == 0 then
      (.error ("chat session not found: " ++ sessionID), db1)
    else
      (.ok (), db1)

/-- Go `func (cs *ChatStore) AddMessage(sessionID, role, content string) (*ChatMessage, error)`.
The result of the second `Exec` is dropped by the source. -/
def ChatStore.AddMessage (db : AIDB) (now now2 : Time) (sessionID role content : String) :
    Except String ChatMessage × AIDB :=
  match db.insertChatMessage now sessionID role content with
  | .error err => (.error ("failed to add chat message: " ++ err), db)
  | .ok (result, db1) =>
    let id := result.LastInsertId
    let db2 :=
      match db1.touchChatSession now2 sessionID with
      | .error _ => db1
      | .ok (_, d) => d
    (.ok { ID := id, SessionID := sessionID, Role := role, Content := content,
           CreatedAt := now2 }, db2)

/-- Go `func (cs *ChatStore) GetMessages(sessionID string) ([]ChatMessage, error)`. -/
def ChatStore.GetMessages (db : AIDB) (sessionID : String) : Except String (List ChatMessage) :=
  .ok (db.selectChatMessages sessionID)

/-- Go `func (cs *ChatStore) UpdateSessionTitle(sessionID, title string) error`. -/
def ChatStore.UpdateSessionTitle (db : AIDB) (now : Time) (sessionID title : String) :
    Except String Unit × AIDB :=
  match db.updateChatSessionTitle now title sessionID with
  | .error err => (.error ("failed to update session title: " ++ err), db)
  | .ok (result, db1) =>
    let rowsAffected := result.RowsAffected
    if rowsAffected == 0 then
      (.error ("chat session not found: " ++ sessionID), db1)
    else
      (.ok (), db1)

/-- The serialized form of an `encoding/json` value, as far as the struct tags of the
source decide it: the fields of an object in declaration order. -/
inductive JSONValue where
  | number (n : Int)
  | string (s : String)
  | time (t : Time)
deriving DecidableEq, Repr

/-- Go `json.Marshal` of a `ChatSession`, by its struct tags: `title` is `omitempty`. -/
def ChatSession.MarshalJSON (s : ChatSession) : List (String × JSONValue) :=
  [("id", .number s.ID), ("session_id", .string s.SessionID), ("model", .string s.Model)]
    ++ (if s.Title == "" then [] else [("title", .string s.Title)])
    ++ [("created_at", .time s.CreatedAt), ("updated_at", .time s.UpdatedAt)]

/-- One writing call on the chat store, with its clock readings. -/
inductive ChatCall where
  | CreateSession (now : Time) (uuid model title : String)
  | DeleteSession (sessionID : String)
  | AddMessage (now now2 : Time) (sessionID role content : String)
  | UpdateSessionTitle (now : Time) (sessionID title : String)
deriving DecidableEq, Repr

/-- The database after one call. -/
def ChatCall.apply (db : AIDB) : ChatCall → AIDB
  | .CreateSession now uuid model title => (ChatStore.CreateSession db now uuid model title).2
  | .DeleteSession sessionID => (ChatStore.DeleteSession db sessionID).2
  | .AddMessage now now2 sessionID role content =>
    (ChatStore.AddMessage db now now2 sessionID role content).2
  | .UpdateSessionTitle now sessionID title =>
    (ChatStore.UpdateSessionTitle db now sessionID title).2

/-- The database after a sequence of calls. -/
def ChatCall.run (db : AIDB) (calls : List ChatCall) : AIDB :=
  calls.foldl ChatCall.apply db

/-- The `(role, content)` pairs of the `AddMessage` calls on a session, in call order. -/
def ChatCall.added (sessionID : String) : List ChatCall → List (String × String)
  | [] => []
  | .AddMessage _ _ sid role content :: cs =>
    if sid == sessionID then (role, content) :: ChatCall.added sessionID cs
    else ChatCall.added sessionID cs
  | _ :: cs => ChatCall.added sessionID cs

/-- The clock readings of the `INSERT`s of the `AddMessage` calls on a session, in call
order. -/
def ChatCall.addedAt (sessionID : String) : List ChatCall → List Time
  | [] => []
  | .AddMessage now _ sid _ _ :: cs =>
    if sid == sessionID then now :: ChatCall.addedAt sessionID cs
    else ChatCall.addedAt sessionID cs
  | _ :: cs => ChatCall.addedAt sessionID cs

/-! ## The Go standard library and the file system -/

/-- The library functions the store calls, for a type `F` of `float64` values:
`json.Marshal` and `json.Unmarshal` at type `[]float64`, and `sha256` of a byte
sequence. -/
structure Lib (F : Type) where
  jsonMarshal : Option (List F) → Except String Bytes
  jsonUnmarshal : Bytes → Except String (Option (List F))
  sha256 : Bytes → Bytes

/-- The file system the store reads: `os.Stat(path)` followed by `Size()`, and `os.Open`
followed by `io.Copy` of the whole file. -/
structure FileSystem where
  Stat : String → Except String Nat
  ReadAll : String → Except String Bytes

/-- Go `func float64SliceToBytes(slice []float64) ([]byte, error)`. -/
def float64SliceToBytes {F : Type} (lib : Lib F) (slice : Option (List F)) :
    Except String Bytes :=
  lib.jsonMarshal slice

/-- Go `func bytesToFloat64Slice(data []byte) ([]float64, error)`. -/
def bytesToFloat64Slice {F : Type} (lib : Lib F) (data : Bytes) :
    Except String (Option (List F)) :=
  lib.jsonUnmarshal data

/-- One lowercase hexadecimal digit. -/
def hexDigit (n : Nat) : Char :=
  if n < 10 then Char.ofNat (48 + n) else Char.ofNat (87 + n)

/-- Go `hex.EncodeToString`. -/
def hex.EncodeToString (src : Bytes) : String :=
  String.mk (src.flatMap (fun b => [hexDigit (b.toNat / 16), hexDigit (b.toNat % 16)]))

/-- Go `func calculateFileHash(filePath string) (string, error)`. -/
def calculateFileHash {F : Type} (lib : Lib F) (fs : FileSystem) (filePath : String) :
    Except String String :=
  match fs.ReadAll filePath with
  | .error err => .error err
  | .ok bytes => .ok (hex.EncodeToString (lib.sha256 bytes))

/-! ## fileindex.go: the SQL statements -/

/-- Statement `INSERT INTO indexed_files (file_path, content, embedding, model, file_size,
file_hash) VALUES (?, ?, ?, ?, ?, ?) ON CONFLICT(file_path) DO UPDATE SET content =
excluded.content, embedding = excluded.embedding, model = excluded.model, file_size =
excluded.file_size, file_hash = excluded.file_hash, updated_at = CURRENT_TIMESTAMP`
(the trigger `update_indexed_files_timestamp` then writes `updated_at` again). -/
def AIDB.upsertIndexedFile (db : AIDB) (now : Time) (file_path content : String)
    (embedding : Bytes) (model : String) (file_size : Nat) (file_hash : String) :
    Except String (Result × AIDB) :=
  if db.indexed_files.any (fun r => r.FilePath == file_path) then
    .ok ({ LastInsertId := db.last_insert_rowid, RowsAffected := 1 },
         { db with
           indexed_files := db.indexed_files.map (fun r =>
             if r.FilePath == file_path then
               { r with Content := content, Embedding := embedding, Model := model,
                        FileSize := file_size, FileHash := file_hash, UpdatedAt := now }
             else r)
           indexed_files_seq := db.indexed_files_seq + 1 })
  else
    let id := db.indexed_files_seq + 1
    let row : IndexedFileRow :=
      { ID := id, FilePath := file_path, Content := content, Embedding := embedding,
        Model := model, FileSize := file_size, FileHash := file_hash,
        IndexedAt := now, UpdatedAt := now }
    .ok ({ LastInsertId := id, RowsAffected := 1 },
         { db with indexed_files := db.indexed_files ++ [row]
                   indexed_files_seq := id
                   last_insert_rowid := id })

/-- Statement `SELECT id, file_path, content, embedding, model, file_size, file_hash, indexed_at,
updated_at FROM indexed_files WHERE file_path = ?`, first row (`QueryRow`). -/
def AIDB.selectIndexedFile (db : AIDB) (file_path : String) : Option IndexedFileRow :=
  db.indexed_files.find? (fun r => r.FilePath == file_path)

/-- Statement `SELECT id, file_path, content, model, file_size, file_hash, indexed_at, updated_at
FROM indexed_files ORDER BY updated_at DESC LIMIT ?`. -/
def AIDB.selectIndexedFiles (db : AIDB) (limit : Int) : List IndexedFileRow :=
  (orderByDesc (fun r => (r.UpdatedAt : Int)) db.indexed_files).take limit.toNat

/-- Statement `DELETE FROM indexed_files WHERE file_path = ?`.  The chunks that reference a deleted
file go with it (`ON DELETE CASCADE`) when foreign keys are enforced. -/
def AIDB.deleteIndexedFile (db : AIDB) (file_path : String) : Except String (Result × AIDB) :=
  let deleted := db.indexed_files.filter (fun r => r.FilePath == file_path)
  let files := db.indexed_files.filter (fun r => !(r.FilePath == file_path))
  let chunks :=
    if db.foreign_keys then
      db.file_chunks.filter (fun c => !(deleted.any (fun r => (r.ID : Int) == c.FileID)))
    else db.file_chunks
  .ok ({ LastInsertId := db.last_insert_rowid, RowsAffected := deleted.length },
       { db with indexed_files := files, file_chunks := chunks })

/-- Statement `INSERT INTO file_chunks (file_id, chunk_index, content, embedding) VALUES (?, ?, ?,
?)`; `file_id` references `indexed_files(id)`, checked when foreign keys are enforced. -/
def AIDB.insertFileChunk (db : AIDB) (now : Time) (file_id chunk_index : Int)
    (content : String) (embedding : Bytes) : Except String (Result × AIDB) :=
  if db.foreign_keys && !(db.indexed_files.any (fun r => (r.ID : Int) == file_id)) then
    .error "FOREIGN KEY constraint failed"
  else
    let id := db.file_chunks_seq + 1
    let row : FileChunkRow :=
      { ID := id, FileID := file_id, ChunkIndex := chunk_index, Content := content,
        Embedding := embedding, CreatedAt := now }
    .ok ({ LastInsertId := id, RowsAffected := 1 },
         { db with file_chunks := db.file_chunks ++ [row]
                   file_chunks_seq := id
                   last_insert_rowid := id })

/-- Statement `SELECT id, file_id, chunk_index, content, embedding, created_at FROM file_chunks
WHERE file_id = ? ORDER BY chunk_index ASC`. -/
def AIDB.selectFileChunks (db : AIDB) (file_id : Int) : List FileChunkRow :=
  orderByAsc (fun c => c.ChunkIndex) (db.file_chunks.filter (fun c => c.FileID == file_id))

/-! ## fileindex.go: `FileIndexStore` -/

/-- Go `func (fis *FileIndexStore) IndexFile(filePath, content, model string, embedding
[]float64) (*IndexedFile, error)`. -/
def FileIndexStore.IndexFile {F : Type} (lib : Lib F) (fs : FileSystem) (db : AIDB)
    (now : Time) (filePath content model : String) (embedding : Option (List F)) :
    Except String (IndexedFile F) × AIDB :=
  match fs.Stat filePath with
  | .error err => (.error ("failed to stat file: " ++ err), db)
  | .ok fileSize =>
    match calculateFileHash lib fs filePath with
    | .error err => (.error ("failed to calculate file hash: " ++ err), db)
    | .ok fileHash =>
      match float64SliceToBytes lib embedding with
      | .error err => (.error ("failed to serialize embedding: " ++ err), db)
      | .ok embeddingBytes =>
        match db.upsertIndexedFile now filePath content embeddingBytes model fileSize
            fileHash with
        | .error err => (.error ("failed to index file: " ++ err), db)
        | .ok (result, db1) =>
          let id := result.LastInsertId
          (.ok { ID := id, FilePath := filePath, Content := content, Embedding := embedding,
                 Model := model, FileSize := fileSize, FileHash := fileHash,
                 IndexedAt := now, UpdatedAt := now }, db1)

/-- Go `func (fis *FileIndexStore) GetFile(filePath string) (*IndexedFile, error)`. -/
def FileIndexStore.GetFile {F : Type} (lib : Lib F) (db : AIDB) (filePath : String) :
    Except String (IndexedFile F) :=
  match db.selectIndexedFile filePath with
  | none => .error ("file not indexed: " ++ filePath)
  | some row =>
    let embeddingBytes := row.Embedding
    if embeddingBytes.length > 0 then
      match bytesToFloat64Slice lib embeddingBytes with
      | .error err => .error ("failed to deserialize embedding: " ++ err)
      | .ok embedding =>
        .ok { ID := row.ID, FilePath := row.FilePath, Content := row.Content,
              Embedding := embedding, Model := row.Model, FileSize := row.FileSize,
              FileHash := row.FileHash, IndexedAt := row.IndexedAt,
              UpdatedAt := row.UpdatedAt }
    else
      .ok { ID := row.ID, FilePath := row.FilePath, Content := row.Content,
            Embedding := none, Model := row.Model, FileSize := row.FileSize,
            FileHash := row.FileHash, IndexedAt := row.IndexedAt,
            UpdatedAt := row.UpdatedAt }

/-- Go `func (fis *FileIndexStore) ListFiles(limit int) ([]IndexedFile, error)`. -/
def FileIndexStore.ListFiles (F : Type) (db : AIDB) (limit : Int) :
    Except String (List (IndexedFile F)) :=
  let limit := if limit ≤ 0 then 100 else limit
  .ok ((db.selectIndexedFiles limit).map (fun row =>
    { ID := row.ID, FilePath := row.FilePath, Content := row.Content, Embedding := none,
      Model := row.Model, FileSize := row.FileSize, FileHash := row.FileHash,
      IndexedAt := row.IndexedAt, UpdatedAt := row.UpdatedAt }))

/-- Go `func (fis *FileIndexStore) DeleteFile(filePath string) error`. -/
def FileIndexStore.DeleteFile (db : AIDB) (filePath : String) : Except String Unit × AIDB :=
  match db.deleteIndexedFile filePath with
  | .error err => (.error ("failed to delete indexed file: " ++ err), db)
  | .ok (result, db1) =>
    let rowsAffected := result.RowsAffected
    if rowsAffected == 0 then
      (.error ("file not indexed: " ++ filePath), db1)
    else
      (.ok (), db1)

/-- Go `func (fis *FileIndexStore) AddChunk(fileID, chunkIndex int, content string,
embedding []float64) (*FileChunk, error)`. -/
def FileIndexStore.AddChunk {F : Type} (lib : Lib F) (db : AIDB) (now : Time)
    (fileID chunkIndex : Int) (content : String) (embedding : Option (List F)) :
    Except String (FileChunk F) × AIDB :=
  match float64SliceToBytes lib embedding with
  | .error err => (.error ("failed to serialize embedding: " ++ err), db)
  | .ok embeddingBytes =>
    match db.insertFileChunk now fileID chunkIndex content embeddingBytes with
    | .error err => (.error ("failed to add file chunk: " ++ err), db)
    | .ok (result, db1) =>
      let id := result.LastInsertId
      (.ok { ID := id, FileID := fileID, ChunkIndex := chunkIndex, Content := content,
             Embedding := embedding, CreatedAt := now }, db1)

/-- The loop body of `GetChunks`: scan one row and decode its embedding if present. -/
def FileIndexStore.scanChunk {F : Type} (lib : Lib F) (row : FileChunkRow) :
    Except String (FileChunk F) :=
  let embeddingBytes := row.Embedding
  if embeddingBytes.length > 0 then
    match bytesToFloat64Slice lib embeddingBytes with
    | .error err => .error ("failed to deserialize embedding: " ++ err)
    | .ok embedding =>
      .ok { ID := row.ID, FileID := row.FileID, ChunkIndex := row.ChunkIndex,
            Content := row.Content, Embedding := embedding, CreatedAt := row.CreatedAt }
  else
    .ok { ID := row.ID, FileID := row.FileID, ChunkIndex := row.ChunkIndex,
          Content := row.Content, Embedding := none, CreatedAt := row.CreatedAt }

/-- Go `func (fis *FileIndexStore) GetChunks(fileID int) ([]FileChunk, error)`. -/
def FileIndexStore.GetChunks {F : Type} (lib : Lib F) (db : AIDB) (fileID : Int) :
    Except String (List (FileChunk F)) :=
  (db.selectFileChunks fileID).mapM (FileIndexStore.scanChunk lib)

/-! ## db.go, config.go -/

/-- Go `type Configuration struct`; also a row of `configurations`. -/
structure Configuration where
  ID : Nat
  Key : String
  Value : String
  Description : String
  CreatedAt : Time
  UpdatedAt : Time
deriving DecidableEq, Repr

/-- Go `type DB struct { conn *sql.DB }`: the state of the configuration database. -/
structure DB where
  last_insert_rowid : Nat
  configurations : List Configuration
  configurations_seq : Nat
deriving DecidableEq, Repr

/-- Go `New` on a path with no database yet. -/
def New : DB :=
  { last_insert_rowid := 0, configurations := [], configurations_seq := 0 }

/-- Statement `INSERT INTO configurations (key, value, description) VALUES (?, ?, ?)
ON CONFLICT(key) DO UPDATE SET value = excluded.value, description =
excluded.description, updated_at = CURRENT_TIMESTAMP` (the trigger
`update_configurations_timestamp` then writes `updated_at` again). -/
def DB.upsertConfiguration (db : DB) (now : Time) (key value description : String) :
    Except String (Result × DB) :=
  if db.configurations.any (fun r => r.Key == key) then
    .ok ({ LastInsertId := db.last_insert_rowid, RowsAffected := 1 },
         { db with
           configurations := db.configurations.map (fun r =>
             if r.Key == key then
               { r with Value := value, Description := description, UpdatedAt := now }
             else r)
           configurations_seq := db.configurations_seq + 1 })
  else
    let id := db.configurations_seq + 1
    let row : Configuration :=
      { ID := id, Key := key, Value := value, Description := description,
        CreatedAt := now, UpdatedAt := now }
    .ok ({ LastInsertId := id, RowsAffected := 1 },
         { db with configurations := db.configurations ++ [row]
                   configurations_seq := id
                   last_insert_rowid := id })

/-- Statement `SELECT id, key, value, description, created_at, updated_at FROM configurations
WHERE key = ?`, first row (`QueryRow`). -/
def DB.selectConfiguration (db : DB) (key : String) : Option Configuration :=
  db.configurations.find? (fun r => r.Key == key)

/-- Statement `DELETE FROM configurations WHERE key = ?`. -/
def DB.deleteConfiguration (db : DB) (key : String) : Except String (Result × DB) :=
  let n := (db.configurations.filter (fun r => r.Key == key)).length
  .ok ({ LastInsertId := db.last_insert_rowid, RowsAffected := n },
       { db with configurations := db.configurations.filter (fun r => !(r.Key == key)) })

/-- Statement `SELECT COUNT(*) FROM configurations WHERE key = ?`. -/
def DB.countConfigurations (db : DB) (key : String) : Nat :=
  (db.configurations.filter (fun r => r.Key == key)).length

/-- Go `func (cs *ConfigStore) Set(key, value, description string) error`. -/
def ConfigStore.Set (db : DB) (now : Time) (key value description : String) :
    Except String Unit × DB :=
  match db.upsertConfiguration now key value description with
  | .error err => (.error ("failed to set configuration: " ++ err), db)
  | .ok (_, db1) => (.ok (), db1)

/-- Go `func (cs *ConfigStore) Get(key string) (*Configuration, error)`. -/
def ConfigStore.Get (db : DB) (key : String) : Except String Configuration :=
  match db.selectConfiguration key with
  | none => .error ("configuration not found: " ++ key)
  | some config => .ok config

/-- Go `func (cs *ConfigStore) Delete(key string) error`. -/
def ConfigStore.Delete (db : DB) (key : String) : Except String Unit × DB :=
  match db.deleteConfiguration key with
  | .error err => (.error ("failed to delete configuration: " ++ err), db)
  | .ok (result, db1) =>
    let rowsAffected := result.RowsAffected
    if rowsAffected == 0 then
      (.error ("configuration not found: " ++ key), db1)
    else
      (.ok (), db1)

/-- Go `func (cs *ConfigStore) Exists(key string) (bool, error)`. -/
def ConfigStore.Exists (db : DB) (key : String) : Except String Bool :=
  let count := db.countConfigurations key
  .ok (decide (count > 0))

/-- One `AddChunk` call, with the clock reading of its `INSERT`. -/
structure ChunkCall (F : Type) where
  now : Time
  fileID : Int
  chunkIndex : Int
  content : String
  embedding : Option (List F)

/-- The results of a sequence of `AddChunk` calls, in call order, and the database after
the last one. -/
def ChunkCall.run {F : Type} (lib : Lib F) :
    AIDB → List (ChunkCall F) → List (Except String (FileChunk F)) × AIDB
  | db, [] => ([], db)
  | db, c :: cs =>
    let r := FileIndexStore.AddChunk lib db c.now c.fileID c.chunkIndex c.content c.embedding
    let rest := ChunkCall.run lib r.2 cs
    (r.1 :: rest.1, rest.2)

/-! ## ollama/client.go -/

/-- Go `type Message struct` of package `ollama`. -/
structure Message where
  Role : String
  Content : String
deriving DecidableEq, Repr

/-- Go `type ChatResponse struct` of package `ollama`. -/
structure ChatResponse where
  Model : String
  CreatedAt : Time
  Message : Message
  Done : Bool
deriving DecidableEq, Repr

/-- The inference capability, `func (c *Client) Chat(ctx context.Context, model string,
messages []Message) (*ChatResponse, error)`: what the model server answers to a request,
an error when the request fails or its context is cancelled. -/
abbrev Client := String → List Message → Except String ChatResponse

/-! ## handlers/ollama.go

A handler reads the request, the configuration database and the AI database, and writes
a response.  `Outcome` records what a call did: the response written, the AI database
after it, and the calls it made to the inference capability (model and messages), in
order.  `now k` is the clock reading of the statement at site `k` of the handler: 0 for
the `INSERT` of `CreateSession`, 1 and 2 for the two statements of the `AddMessage` of
the system prompt, 3 and 4 for the user's message, 5 and 6 for the reply. -/

/-- Go `type ChatRequest struct` of package `handlers`. -/
structure ChatRequest where
  Model : String
  Message : String
  SessionID : String
deriving DecidableEq, Repr

/-- Go `type ChatSessionRequest struct`. -/
structure ChatSessionRequest where
  Model : String
  Title : String
deriving DecidableEq, Repr

/-- An HTTP request as a handler reads it: `r.Method`, and the body decoded by
`json.NewDecoder(r.Body).Decode(&req)`, `none` when decoding fails. -/
structure Request (α : Type) where
  Method : String
  Body : Option α
deriving DecidableEq, Repr

/-- What a handler writes: `writeSuccess(w, data)` (status 200) or `writeError(w, status,
message)`. -/
inductive Response (α : Type) where
  | success (data : α)
  | error (status : Nat) (message : String)
deriving DecidableEq, Repr

/-- The `data` of a successful `Chat`: the map with `session_id`, `message`, `model`. -/
structure ChatReply where
  session_id : String
  message : String
  model : String
deriving DecidableEq, Repr

/-- What one call of a handler did. -/
structure Outcome (α : Type) where
  response : Response α
  db : AIDB
  inference : List (String × List Message)
deriving DecidableEq, Repr

/-- Go `func (h *OllamaHandler) Chat(w http.ResponseWriter, r *http.Request)`.  The
results of the three `AddMessage` calls are dropped by the source. -/
def OllamaHandler.Chat (client : Client) (config : DB) (db : AIDB) (now : Nat → Time)
    (uuid : String) (r : Request ChatRequest) : Outcome ChatReply :=
  if r.Method != "POST" then
    { response := .error 405 "Method not allowed", db := db, inference := [] }
  else
    match r.Body with
    | none => { response := .error 400 "Invalid request body", db := db, inference := [] }
    | some req =>
      let model :=
        if req.Model == "" then
          match ConfigStore.Get config "ollama.default_model" with
          | .error _ => "qwen2.5:0.5b"
          | .ok c => c.Value
        else req.Model
      if req.Message == "" then
        { response := .error 400 "Message is required", db := db, inference := [] }
      else
        let systemPrompt :=
          match ConfigStore.Get config "ollama.system_prompt" with
          | .ok c =>
            if c.Value != "" then c.Value
            else "You are BlueNode Helper, an AI assistant for the BlueNode Server OS."
          | .error _ => "You are BlueNode Helper, an AI assistant for the BlueNode Server OS."
        let prepared : Except (Outcome ChatReply) (List Message × String × AIDB) :=
          if req.SessionID != "" then
            let sessionID := req.SessionID
            match ChatStore.GetMessages db sessionID with
            | .error err =>
              .error { response := .error 500 err, db := db, inference := [] }
            | .ok chatMessages =>
              let messages : List Message :=
                if chatMessages.length == 0 then [{ Role := "system", Content := systemPrompt }]
                else []
              .ok (messages ++ chatMessages.map (fun msg =>
                    { Role := msg.Role, Content := msg.Content }), sessionID, db)
          else
            match ChatStore.CreateSession db (now 0) uuid model "" with
            | (.error err, db1) =>
              .error { response := .error 500 err, db := db1, inference := [] }
            | (.ok session, db1) =>
              let sessionID := session.SessionID
              let messages : List Message := [{ Role := "system", Content := systemPrompt }]
              let db2 :=
                (ChatStore.AddMessage db1 (now 1) (now 2) sessionID "system" systemPrompt).2
              .ok (messages, sessionID, db2)
        match prepared with
        | .error outcome => outcome
        | .ok (messages, sessionID, db2) =>
          let messages := messages ++ [{ Role := "user", Content := req.Message }]
          let db3 := (ChatStore.AddMessage db2 (now 3) (now 4) sessionID "user" req.Message).2
          match client model messages with
          | .error err =>
            { response := .error 500 err, db := db3, inference := [(model, messages)] }
          | .ok resp =>
            let db4 :=
              (ChatStore.AddMessage db3 (now 5) (now 6) sessionID "assistant"
                resp.Message.Content).2
            { response := .success { session_id := sessionID, message := resp.Message.Content,
                                     model := resp.Model },
              db := db4, inference := [(model, messages)] }

/-- Go `func (h *OllamaHandler) CreateSession(w http.ResponseWriter, r *http.Request)`. -/
def OllamaHandler.CreateSession (config : DB) (db : AIDB) (now : Nat → Time)
    (uuid : String) (r : Request ChatSessionRequest) : Outcome ChatSession :=
  if r.Method != "POST" then
    { response := .error 405 "Method not allowed", db := db, inference := [] }
  else
    match r.Body with
    | none => { response := .error 400 "Invalid request body", db := db, inference := [] }
    | some req =>
      let model :=
        if req.Model == "" then
          match ConfigStore.Get config "ollama.default_model" with
          | .error _ => "qwen2.5:0.5b"
          | .ok c => c.Value
        else req.Model
      match ChatStore.CreateSession db (now 0) uuid model req.Title with
      | (.error err, db1) => { response := .error 500 err, db := db1, inference := [] }
      | (.ok session, db1) =>
        let systemPrompt :=
          match ConfigStore.Get config "ollama.system_prompt" with
          | .ok c =>
            if c.Value != "" then c.Value
            else "You are BlueNode Helper, an AI assistant for the BlueNode Server OS."
          | .error _ => "You are BlueNode Helper, an AI assistant for the BlueNode Server OS."
        let db2 :=
          (ChatStore.AddMessage db1 (now 1) (now 2) session.SessionID "system"
            systemPrompt).2
        { response := .success session, db := db2, inference := [] }

/-! ## Statements that fail

`Exec` and `Query` return an error when SQLite cannot run the statement (the database is
locked by another process, the disk is full, the connection is closed); the statement
then has no effect.  The definitions of this section are the store methods and the `Chat`
handler once more, on a connection where this can happen: `fault = some err` makes the
statement fail with `err`.  In the handler `fault k` is the fault of the statement at
site `k`, the sites being those of `now`, and 7 for the `SELECT` of `GetMessages`.
Without faults they are the definitions above (`Faulty_AddMessage_none`,
`Faulty_Chat_none`). -/

/-- What `conn.Exec` returns for a statement, on a connection where it fails with the
given error, if any. -/
def Faulty.Exec (fault : Option String) (statement : Except String (Result × AIDB)) :
    Except String (Result × AIDB) :=
  match fault with
  | some err => .error err
  | none => statement

/-- Go `func (cs *ChatStore) CreateSession(model, title string) (*ChatSession, error)`. -/
def Faulty.ChatStore.CreateSession (fault : Option String) (db : AIDB) (now : Time)
    (uuid model title : String) : Except String ChatSession × AIDB :=
  let sessionID := uuid
  match Faulty.Exec fault (db.insertChatSession now sessionID model title) with
  | .error err => (.error ("failed to create chat session: " ++ err), db)
  | .ok (result, db1) =>
    let id := result.LastInsertId
    (.ok { ID := id, SessionID := sessionID, Model := model, Title := title,
           CreatedAt := now, UpdatedAt := now }, db1)

/-- Go `func (cs *ChatStore) AddMessage(sessionID, role, content string) (*ChatMessage,
error)`.  The result of the second `Exec`, its error included, is dropped by the source. -/
def Faulty.ChatStore.AddMessage (fault fault2 : Option String) (db : AIDB) (now now2 : Time)
    (sessionID role content : String) : Except String ChatMessage × AIDB :=
  match Faulty.Exec fault (db.insertChatMessage now sessionID role content) with
  | .error err => (.error ("failed to add chat message: " ++ err), db)
  | .ok (result, db1) =>
    let id := result.LastInsertId
    let db2 :=
      match Faulty.Exec fault2 (db1.touchChatSession now2 sessionID) with
      | .error _ => db1
      | .ok (_, d) => d
    (.ok { ID := id, SessionID := sessionID, Role := role, Content := content,
           CreatedAt := now2 }, db2)

/-- Go `func (cs *ChatStore) GetMessages(sessionID string) ([]ChatMessage, error)`. -/
def Faulty.ChatStore.GetMessages (fault : Option String) (db : AIDB) (sessionID : String) :
    Except String (List ChatMessage) :=
  match fault with
  | some err => .error ("failed to get chat messages: " ++ err)
  | none => .ok (db.selectChatMessages sessionID)

/-- Go `func (h *OllamaHandler) Chat(w http.ResponseWriter, r *http.Request)`.  The
results of the three `AddMessage` calls, their errors included, are dropped by the
source. -/
def Faulty.OllamaHandler.Chat (fault : Nat → Option String) (client : Client) (config : DB)
    (db : AIDB) (now : Nat → Time) (uuid : String) (r : Request ChatRequest) :
    Outcome ChatReply :=
  if r.Method != "POST" then
    { response := .error 405 "Method not allowed", db := db, inference := [] }
  else
    match r.Body with
    | none => { response := .error 400 "Invalid request body", db := db, inference := [] }
    | some req =>
      let model :=
        if req.Model == "" then
          match ConfigStore.Get config "ollama.default_model" with
          | .error _ => "qwen2.5:0.5b"
          | .ok c => c.Value
        else req.Model
      if req.Message == "" then
        { response := .error 400 "Message is required", db := db, inference := [] }
      else
        let systemPrompt :=
          match ConfigStore.Get config "ollama.system_prompt" with
          | .ok c =>
            if c.Value != "" then c.Value
            else "You are BlueNode Helper, an AI assistant for the BlueNode Server OS."
          | .error _ => "You are BlueNode Helper, an AI assistant for the BlueNode Server OS."
        let prepared : Except (Outcome ChatReply) (List Message × String × AIDB) :=
          if req.SessionID != "" then
            let sessionID := req.SessionID
            match Faulty.ChatStore.GetMessages (fault 7) db sessionID with
            | .error err =>
              .error { response := .error 500 err, db := db, inference := [] }
            | .ok chatMessages =>
              let messages : List Message :=
                if chatMessages.length == 0 then [{ Role := "system", Content := systemPrompt }]
                else []
              .ok (messages ++ chatMessages.map (fun msg =>
                    { Role := msg.Role, Content := msg.Content }), sessionID, db)
          else
            match Faulty.ChatStore.CreateSession (fault 0) db (now 0) uuid model "" with
            | (.error err, db1) =>
              .error { response := .error 500 err, db := db1, inference := [] }
            | (.ok session, db1) =>
              let sessionID := session.SessionID
              let messages : List Message := [{ Role := "system", Content := systemPrompt }]
              let db2 :=
                (Faulty.ChatStore.AddMessage (fault 1) (fault 2) db1 (now 1) (now 2) sessionID
                  "system" systemPrompt).2
              .ok (messages, sessionID, db2)
        match prepared with
        | .error outcome => outcome
        | .ok (messages, sessionID, db2) =>
          let messages := messages ++ [{ Role := "user", Content := req.Message }]
          let db3 :=
            (Faulty.ChatStore.AddMessage (fault 3) (fault 4) db2 (now 3) (now 4) sessionID
              "user" req.Message).2
          match client model messages with
          | .error err =>
            { response := .error 500 err, db := db3, inference := [(model, messages)] }
          | .ok resp =>
            let db4 :=
              (Faulty.ChatStore.AddMessage (fault 5) (fault 6) db3 (now 5) (now 6) sessionID
                "assistant" resp.Message.Content).2
            { response := .success { session_id := sessionID, message := resp.Message.Content,
                                     model := resp.Model },
              db := db4, inference := [(model, messages)] }

/-- One turn of a conversation: the inference server, the configuration database and the
clock as they are when the turn is made, and the `model` and `message` of the request. -/
structure ChatTurn where
  client : Client
  config : DB
  now : Nat → Time
  model : String
  message : String

/-- The turns are `POST`ed to `Chat` one after the other, all with the session id
`sessionID`; `uuid` is the session id `Chat` would generate.  The result is the outcome of
each turn and the database after the last. -/
def ChatTurn.run (uuid sessionID : String) :
    AIDB → List ChatTurn → List (Outcome ChatReply) × AIDB
  | db, [] => ([], db)
  | db, t :: ts =>
    let out := OllamaHandler.Chat t.client t.config db t.now uuid
      { Method := "POST", Body := some { Model := t.model, Message := t.message,
                                          SessionID := sessionID } }
    let rest := ChatTurn.run uuid sessionID out.db ts
    (out :: rest.1, rest.2)

/-- A conversation: the first turn is `POST`ed to `Chat` without a session id, each later
one with the session id the first returned (none is sent when the first turn fails). -/
def ChatTurn.conversation (uuid : String) (db : AIDB) :
    List ChatTurn → List (Outcome ChatReply) × AIDB
  | [] => ([], db)
  | t :: ts =>
    let out := OllamaHandler.Chat t.client t.config db t.now uuid
      { Method := "POST", Body := some { Model := t.model, Message := t.message,
                                          SessionID := "" } }
    match out.response with
    | .success data =>
      let rest := ChatTurn.run uuid data.session_id out.db ts
      (out :: rest.1, rest.2)
    | .error _ _ => ([out], out.db)

/-! ## The specification's words -/

/-- The model a request resolves to, as the specification words it: the caller's model
when it is not empty, else the value of the configuration key `ollama.default_model` when
the key can be read, else the hardcoded fallback. -/
def Spec.resolveModel (config : DB) (requested : String) : String :=
  if requested ≠ "" then requested
  else
    match ConfigStore.Get config "ollama.default_model" with
    | .ok configuration => configuration.Value
    | .error _ => "qwen2.5:0.5b"

/-- The system prompt, as the specification words it: the value of the configuration key
`ollama.system_prompt` when the key is present and its value is not empty, else the
hardcoded fallback. -/
def Spec.resolveSystemPrompt (config : DB) : String :=
  match ConfigStore.Get config "ollama.system_prompt" with
  | .ok configuration =>
    if configuration.Value ≠ "" then configuration.Value
    else "You are BlueNode Helper, an AI assistant for the BlueNode Server OS."
  | .error _ => "You are BlueNode Helper, an AI assistant for the BlueNode Server OS."

/-- The history of a conversation, as the specification words it: the system prompt,
then for each turn the user's message and the assistant's reply. -/
def Spec.history (systemPrompt : String) (turns : List (String × String)) : List Message :=
  { Role := "system", Content := systemPrompt } ::
    turns.flatMap (fun t =>
      [{ Role := "user", Content := t.1 }, { Role := "assistant", Content := t.2 }])

/-- What the inference capability receives in each turn of a conversation, as the
specification words it: in the turn with message `u`, the history of the turns before it
followed by `u`. -/
def Spec.inputs (systemPrompt : String) (turns : List (String × String)) :
    List (List Message) :=
  List.zipWith
    (fun before t => Spec.history systemPrompt before ++ [{ Role := "user", Content := t.1 }])
    turns.inits turns

/-! ## Values for the scenarios

A file system and a library to run the scenarios of the specification on.  The theorems
hold for every `Lib` and `FileSystem`; these are the values their witnesses are evaluated
at. -/

/-- The bytes of an ASCII string. -/
def asciiBytes (s : String) : Bytes :=
  s.toList.map (fun c => c.toNat.toUInt8)

/-- The ASCII string of a byte sequence. -/
def asciiString (data : Bytes) : String :=
  String.mk (data.map (fun b => Char.ofNat b.toNat))

/-- The pieces of a byte sequence between commas (byte 44). -/
def splitCommas : Bytes → List Bytes
  | [] => [[]]
  | b :: rest =>
    match splitCommas rest with
    | [] => [[b]]
    | piece :: pieces => if b == 44 then [] :: piece :: pieces else (b :: piece) :: pieces

/-- A file system with one regular file, `/tmp/a.txt`, of the three bytes `abc`. -/
def scenarioFS : FileSystem where
  Stat p :=
    if p == "/tmp/a.txt" then .ok 3 else .error ("stat " ++ p ++ ": no such file or directory")
  ReadAll p :=
    if p == "/tmp/a.txt" then .ok [97, 98, 99]
    else .error ("open " ++ p ++ ": no such file or directory")

/-- A library for the scenarios.  A `float64` is written as the decimal literal that
`json.Marshal` prints for it (`0.1` is `"0.1"`), so that an array is marshalled to its
literals between brackets, and a nil slice to `null`; the digest is a stand-in (the
identity), no scenario depends on its value. -/
def scenarioLib : Lib String where
  jsonMarshal
    | none => .ok (asciiBytes "null")
    | some xs => .ok (asciiBytes ("[" ++ ",".intercalate xs ++ "]"))
  jsonUnmarshal data :=
    if data == asciiBytes "null" then .ok none
    else if data == asciiBytes "[]" then .ok (some [])
    else if data.head? == some 91 && data.getLast? == some 93 then
      .ok (some ((splitCommas (data.drop 1).dropLast).map asciiString))
    else .error "invalid character looking for beginning of value"
  sha256 bytes := bytes

/-- A client for the scenarios: it answers `hello` in the name of the model asked. -/
def scenarioClient : Client :=
  fun model _ =>
    .ok { Model := model, CreatedAt := 0, Message := { Role := "assistant", Content := "hello" },
          Done := true }


/-- A client for the scenarios whose model server is down: every call fails. -/
def scenarioDownClient : Client :=
  fun _ _ => .error "failed to send request: connection refused"

/-- A conversation for the scenarios: two turns, the configured system prompt changed in
between. -/
def scenarioTurns : List ChatTurn :=
  [{ client := scenarioClient, config := New, now := fun k => 100 + k, model := "m1",
     message := "hi" },
   { client := scenarioClient,
     config := (ConfigStore.Set New 150 "ollama.system_prompt" "Be brief." "").2,
     now := fun k => 200 + k, model := "m1", message := "more" }]

/-! ## Theorems -/


theorem CreateSession_eq (db : AIDB) (now : Time) (uuid model title : String) :
    ChatStore.CreateSession db now uuid model title =
      if db.chat_sessions.any (fun r => r.SessionID == uuid) then
        (.error ("failed to create chat session: "
          ++ "UNIQUE constraint failed: chat_sessions.session_id"), db)
      else
        (.ok { ID := db.chat_sessions_seq + 1, SessionID := uuid, Model := model,
               Title := title, CreatedAt := now, UpdatedAt := now },
         { db with
           chat_sessions := db.chat_sessions ++
             [{ ID := db.chat_sessions_seq + 1, SessionID := uuid, Model := model,
                Title := title, CreatedAt := now, UpdatedAt := now }]
           chat_sessions_seq := db.chat_sessions_seq + 1
           last_insert_rowid := db.chat_sessions_seq + 1 }) := by
  unfold ChatStore.CreateSession AIDB.insertChatSession
  by_cases h : (db.chat_sessions.any (fun r => r.SessionID == uuid)) = true <;> simp [h]

theorem AddMessage_eq (db : AIDB) (now now2 : Time) (sessionID role content : String)
    (hfk : db.foreign_keys = false) :
    ChatStore.AddMessage db now now2 sessionID role content =
      (.ok { ID := db.chat_messages_seq + 1, SessionID := sessionID, Role := role,
             Content := content, CreatedAt := now2 },
       { db with
         chat_messages := db.chat_messages ++
           [{ ID := db.chat_messages_seq + 1, SessionID := sessionID, Role := role,
              Content := content, CreatedAt := now }]
         chat_messages_seq := db.chat_messages_seq + 1
         last_insert_rowid := db.chat_messages_seq + 1
         chat_sessions := db.chat_sessions.map (fun r =>
           if r.SessionID == sessionID then { r with UpdatedAt := now2 } else r) }) := by
  simp [ChatStore.AddMessage, AIDB.insertChatMessage, AIDB.touchChatSession, hfk]

theorem DeleteSession_eq (db : AIDB) (sessionID : String) (hfk : db.foreign_keys = false) :
    ChatStore.DeleteSession db sessionID =
      (if (db.chat_sessions.filter (fun r => r.SessionID == sessionID)).length = 0 then
         .error ("chat session not found: " ++ sessionID)
       else .ok (),
       { db with chat_sessions :=
           db.chat_sessions.filter (fun r => !(r.SessionID == sessionID)) }) := by
  unfold ChatStore.DeleteSession AIDB.deleteChatSession
  by_cases h : (db.chat_sessions.filter (fun r => r.SessionID == sessionID)).length = 0
    <;> simp [h, hfk]

theorem UpdateSessionTitle_eq (db : AIDB) (now : Time) (sessionID title : String) :
    ChatStore.UpdateSessionTitle db now sessionID title =
      (if (db.chat_sessions.filter (fun r => r.SessionID == sessionID)).length = 0 then
         .error ("chat session not found: " ++ sessionID)
       else .ok (),
       { db with chat_sessions := db.chat_sessions.map (fun r =>
           if r.SessionID == sessionID then { r with Title := title, UpdatedAt := now }
           else r) }) := by
  unfold ChatStore.UpdateSessionTitle AIDB.updateChatSessionTitle
  by_cases h : (db.chat_sessions.filter (fun r => r.SessionID == sessionID)).length = 0
    <;> simp [h]

theorem apply_foreign_keys (db : AIDB) (c : ChatCall) (hfk : db.foreign_keys = false) :
    (ChatCall.apply db c).foreign_keys = false := by
  cases c with
  | CreateSession now uuid model title =>
    simp only [ChatCall.apply, CreateSession_eq]
    split <;> simp [hfk]
  | DeleteSession s => simp [ChatCall.apply, DeleteSession_eq, hfk]
  | AddMessage now now2 s role content => simp [ChatCall.apply, AddMessage_eq, hfk]
  | UpdateSessionTitle now s title => simp [ChatCall.apply, UpdateSessionTitle_eq, hfk]

theorem added_cons (sid : String) (c : ChatCall) (cs : List ChatCall) :
    ChatCall.added sid (c :: cs) = ChatCall.added sid [c] ++ ChatCall.added sid cs := by
  cases c <;> simp only [ChatCall.added, List.nil_append]
  split <;> simp

theorem addedAt_cons (sid : String) (c : ChatCall) (cs : List ChatCall) :
    ChatCall.addedAt sid (c :: cs) = ChatCall.addedAt sid [c] ++ ChatCall.addedAt sid cs := by
  cases c <;> simp only [ChatCall.addedAt, List.nil_append]
  split <;> simp

theorem apply_chat_messages (db : AIDB) (c : ChatCall) (sid : String)
    (hfk : db.foreign_keys = false) :
    ∃ rows, (ChatCall.apply db c).chat_messages.filter (fun m => m.SessionID == sid)
        = db.chat_messages.filter (fun m => m.SessionID == sid) ++ rows
      ∧ rows.map (fun m => (m.Role, m.Content)) = ChatCall.added sid [c]
      ∧ rows.map (fun m => m.CreatedAt) = ChatCall.addedAt sid [c] := by
  cases c with
  | CreateSession now uuid model title =>
    refine ⟨[], ?_, rfl, rfl⟩
    simp only [ChatCall.apply, CreateSession_eq]
    split <;> simp
  | DeleteSession s =>
    exact ⟨[], by simp [ChatCall.apply, DeleteSession_eq, hfk], rfl, rfl⟩
  | AddMessage now now2 s role content =>
    simp only [ChatCall.apply, AddMessage_eq, hfk, ChatCall.added, ChatCall.addedAt]
    by_cases h : s = sid
    · subst h
      exact ⟨[⟨db.chat_messages_seq + 1, s, role, content, now⟩], by simp, by simp, by simp⟩
    · exact ⟨[], by simp [h], by simp [h], by simp [h]⟩
  | UpdateSessionTitle now s title =>
    exact ⟨[], by simp [ChatCall.apply, UpdateSessionTitle_eq], rfl, rfl⟩

theorem run_chat_messages (sid : String) (calls : List ChatCall) :
    ∀ db : AIDB, db.foreign_keys = false →
    ∃ rows, (ChatCall.run db calls).chat_messages.filter (fun m => m.SessionID == sid)
        = db.chat_messages.filter (fun m => m.SessionID == sid) ++ rows
      ∧ rows.map (fun m => (m.Role, m.Content)) = ChatCall.added sid calls
      ∧ rows.map (fun m => m.CreatedAt) = ChatCall.addedAt sid calls := by
  induction calls with
  | nil => intro db _; exact ⟨[], by simp [ChatCall.run], rfl, rfl⟩
  | cons c cs ih =>
    intro db hfk
    obtain ⟨r1, h1, h2, h3⟩ := apply_chat_messages db c sid hfk
    obtain ⟨r2, k1, k2, k3⟩ := ih (ChatCall.apply db c) (apply_foreign_keys db c hfk)
    refine ⟨r1 ++ r2, ?_, ?_, ?_⟩
    · simp only [ChatCall.run, List.foldl_cons] at k1 ⊢
      rw [k1, h1, List.append_assoc]
    · rw [added_cons, List.map_append, h2, k2]
    · rw [addedAt_cons, List.map_append, h3, k3]

theorem orderByAsc_of_sorted {α : Type} (key : α → Int) (rows : List α)
    (h : (rows.map key).Pairwise (· ≤ ·)) : orderByAsc key rows = rows := by
  unfold orderByAsc
  apply List.Sorted.insertionSort_eq
  exact (List.pairwise_map.mp h)

/-- C2. Start from a database in which the session has no stored message (foreign keys
not enforced, as `NewAIDB` leaves them) and run any sequence of chat store calls.  If the
clock readings of the `AddMessage` inserts on the session do not decrease (equal readings
allowed: several messages within one second), `GetMessages` returns the `(role, content)`
pairs of exactly those `AddMessage` calls, in call order. -/
theorem GetMessages_call_order (db : AIDB) (sessionID : String) (calls : List ChatCall)
    (hfk : db.foreign_keys = false)
    (hnew : ∀ m ∈ db.chat_messages, m.SessionID ≠ sessionID)
    (hclock : (ChatCall.addedAt sessionID calls).Pairwise (· ≤ ·)) :
    (ChatStore.GetMessages (ChatCall.run db calls) sessionID).map
        (List.map (fun m => (m.Role, m.Content)))
      = .ok (ChatCall.added sessionID calls) := by
  obtain ⟨rows, h1, h2, h3⟩ := run_chat_messages sessionID calls db hfk
  have h0 : db.chat_messages.filter (fun m => m.SessionID == sessionID) = [] := by
    rw [List.filter_eq_nil_iff]
    intro m hm
    simpa using hnew m hm
  rw [h0, List.nil_append] at h1
  simp only [ChatStore.GetMessages, AIDB.selectChatMessages, h1, Except.map]
  rw [orderByAsc_of_sorted, h2]
  rw [← h3] at hclock
  rw [List.pairwise_map] at hclock ⊢
  exact hclock.imp (by intro a b hab; exact_mod_cast hab)


theorem GetMessages_call_order_witness :
    (ChatStore.GetMessages
        (ChatCall.run NewAIDB
          [ChatCall.CreateSession 100 "s1" "m1" "",
           ChatCall.AddMessage 100 100 "s1" "user" "hi",
           ChatCall.AddMessage 100 100 "s2" "user" "other",
           ChatCall.AddMessage 100 100 "s1" "assistant" "hello"]) "s1").map
        (List.map (fun m => (m.Role, m.Content)))
      = .ok [("user", "hi"), ("assistant", "hello")] :=
  GetMessages_call_order NewAIDB "s1"
    [ChatCall.CreateSession 100 "s1" "m1" "",
     ChatCall.AddMessage 100 100 "s1" "user" "hi",
     ChatCall.AddMessage 100 100 "s2" "user" "other",
     ChatCall.AddMessage 100 100 "s1" "assistant" "hello"]
    rfl (by simp [NewAIDB]) (by decide)

theorem find?_append_singleton_of_none {α : Type} (p : α → Bool) (l : List α) (x : α)
    (h : ∀ r ∈ l, p r = false) (hx : p x = true) : (l ++ [x]).find? p = some x := by
  induction l with
  | nil => simp [hx]
  | cons a t ih =>
    have ha : p a = false := h a (List.mem_cons_self _ _)
    simp only [List.cons_append, List.find?_cons, ha]
    exact ih (fun r hr => h r (List.mem_cons_of_mem _ hr))

theorem filter_not_eq_self {α : Type} (p : α → Bool) (l : List α)
    (h : ∀ r ∈ l, p r = false) : l.filter (fun r => !(p r)) = l := by
  rw [List.filter_eq_self]
  intro r hr
  simp [h r hr]

theorem map_ite_eq_self {α : Type} (p : α → Bool) (f : α → α) (l : List α)
    (h : ∀ r ∈ l, p r = false) : l.map (fun r => if p r then f r else r) = l := by
  induction l with
  | nil => rfl
  | cons a t ih =>
    have ha : p a = false := h a (List.mem_cons_self _ _)
    simp only [List.map_cons, ha, Bool.false_eq_true, ↓reduceIte]
    rw [ih (fun r hr => h r (List.mem_cons_of_mem _ hr))]

/-- C3. On a database opened by `NewAIDB`: create a session, add a message to it, delete
the session.  `DeleteSession` succeeds and `GetSession` then fails with not-found, but
`GetMessages` still returns the message: the `ON DELETE CASCADE` of the schema is not
enforced on a connection that never turns foreign keys on. -/
theorem DeleteSession_keeps_messages :
    ∃ s db1 m db2 db3,
      ChatStore.CreateSession NewAIDB 0 "s1" "m1" "" = (.ok s, db1)
      ∧ ChatStore.AddMessage db1 1 1 "s1" "user" "hi" = (.ok m, db2)
      ∧ ChatStore.DeleteSession db2 "s1" = (.ok (), db3)
      ∧ ChatStore.GetSession db3 "s1" = .error "chat session not found: s1"
      ∧ ChatStore.GetMessages db3 "s1"
          = .ok [{ ID := 1, SessionID := "s1", Role := "user", Content := "hi",
                   CreatedAt := 1 }] :=
  ⟨_, _, _, _, _, rfl, rfl, rfl, rfl, rfl⟩

/-- C4. If `CreateSession(model, title)` succeeds and returns `s`, then `s` carries the
model and the title, `GetSession(s.SessionID)` succeeds on the database after the call
and returns a session with the same session id, model and title; the same call with the
empty title succeeds too, and with the empty title the JSON object of the session (the
returned one and the stored one) has no `title` field. -/
theorem CreateSession_then_GetSession (db : AIDB) (now : Time) (uuid model title : String)
    (s : ChatSession) (db1 : AIDB)
    (h : ChatStore.CreateSession db now uuid model title = (.ok s, db1)) :
    s.Model = model ∧ s.Title = title
      ∧ (title = "" → "title" ∉ s.MarshalJSON.map Prod.fst)
      ∧ (∃ s0 db0, ChatStore.CreateSession db now uuid model "" = (.ok s0, db0))
      ∧ ∃ g, ChatStore.GetSession db1 s.SessionID = .ok g
          ∧ g.SessionID = s.SessionID ∧ g.Model = model ∧ g.Title = title
          ∧ (title = "" → "title" ∉ g.MarshalJSON.map Prod.fst) := by
  rw [CreateSession_eq] at h
  split at h
  · simp at h
  · rename_i hfresh
    simp only [Prod.mk.injEq, Except.ok.injEq] at h
    obtain ⟨hs, hdb⟩ := h
    subst hs hdb
    refine ⟨rfl, rfl, ?_, ?_, ?_⟩
    · intro ht
      subst ht
      simp [ChatSession.MarshalJSON]
    · rw [CreateSession_eq, if_neg hfresh]
      exact ⟨_, _, rfl⟩
    · refine ⟨_, ?_, rfl, rfl, rfl, ?_⟩
      · simp only [ChatStore.GetSession, AIDB.selectChatSession]
        rw [find?_append_singleton_of_none]
        · intro r hr
          simp only [List.any_eq_true, not_exists, not_and] at hfresh
          simpa using hfresh r hr
        · simp
      · intro ht
        subst ht
        simp [ChatSession.MarshalJSON]

theorem CreateSession_then_GetSession_witness :
    ∃ s db1, ChatStore.CreateSession NewAIDB 7 "s1" "m1" "" = (.ok s, db1)
      ∧ "title" ∉ s.MarshalJSON.map Prod.fst
      ∧ ∃ g, ChatStore.GetSession db1 s.SessionID = .ok g
          ∧ g.SessionID = s.SessionID ∧ g.Model = "m1" ∧ g.Title = ""
          ∧ "title" ∉ g.MarshalJSON.map Prod.fst :=
  have h := CreateSession_then_GetSession NewAIDB 7 "s1" "m1" "" _ _ rfl
  ⟨_, _, rfl, h.2.2.1 rfl,
    h.2.2.2.2.imp (fun _ hg => ⟨hg.1, hg.2.1, hg.2.2.1, hg.2.2.2.1, hg.2.2.2.2 rfl⟩)⟩


theorem filter_length_eq_zero_iff {α : Type} (p : α → Bool) (l : List α) :
    (l.filter p).length = 0 ↔ ∀ r ∈ l, p r = false := by
  rw [List.length_eq_zero, List.filter_eq_nil_iff]
  simp

/-- C10. For a session id that no stored session has, `GetSession`, `DeleteSession` and
`UpdateSessionTitle` each return the error `chat session not found: <id>` and the
database after the call is the database before it.  For an id that a stored session has,
`GetSession` returns a stored session with that id, `DeleteSession` succeeds, and
`UpdateSessionTitle` succeeds for every new title (the old one included); the database
after it differs from the one before only in the title and `updated_at` of the sessions
with that id. -/
theorem session_lookup_not_found_iff (db : AIDB) (now : Time) (sessionID title : String) :
    ((∀ r ∈ db.chat_sessions, r.SessionID ≠ sessionID) →
        ChatStore.GetSession db sessionID = .error ("chat session not found: " ++ sessionID)
        ∧ ChatStore.DeleteSession db sessionID
            = (.error ("chat session not found: " ++ sessionID), db)
        ∧ ChatStore.UpdateSessionTitle db now sessionID title
            = (.error ("chat session not found: " ++ sessionID), db))
    ∧ ((∃ r ∈ db.chat_sessions, r.SessionID = sessionID) →
        (∃ s, ChatStore.GetSession db sessionID = .ok s ∧ s ∈ db.chat_sessions
            ∧ s.SessionID = sessionID)
        ∧ (ChatStore.DeleteSession db sessionID).1 = .ok ()
        ∧ ChatStore.UpdateSessionTitle db now sessionID title
            = (.ok (), { db with chat_sessions := db.chat_sessions.map (fun r =>
                if r.SessionID == sessionID then { r with Title := title, UpdatedAt := now }
                else r) })) := by
  constructor
  · intro hno
    have hp : ∀ r ∈ db.chat_sessions, (r.SessionID == sessionID) = false := by
      intro r hr
      simpa using hno r hr
    have hlen : (db.chat_sessions.filter (fun r => r.SessionID == sessionID)).length = 0 :=
      (filter_length_eq_zero_iff _ _).mpr hp
    refine ⟨?_, ?_, ?_⟩
    · have hfind : db.chat_sessions.find? (fun r => r.SessionID == sessionID) = none := by
        rw [List.find?_eq_none]
        intro r hr
        simp [hp r hr]
      simp [ChatStore.GetSession, AIDB.selectChatSession, hfind]
    · simp only [ChatStore.DeleteSession, AIDB.deleteChatSession, hlen]
      simp [filter_not_eq_self _ _ hp]
    · rw [UpdateSessionTitle_eq, if_pos hlen, map_ite_eq_self _ _ _ hp]
  · rintro ⟨r, hr, hrs⟩
    have hlen : ¬ (db.chat_sessions.filter (fun r => r.SessionID == sessionID)).length = 0 := by
      rw [filter_length_eq_zero_iff]
      intro hall
      have := hall r hr
      simp [hrs] at this
    refine ⟨?_, ?_, ?_⟩
    · cases hfind : db.chat_sessions.find? (fun r => r.SessionID == sessionID) with
      | none =>
        rw [List.find?_eq_none] at hfind
        exact absurd (by simpa using hrs) (hfind r hr)
      | some s =>
        refine ⟨s, by simp [ChatStore.GetSession, AIDB.selectChatSession, hfind],
          List.mem_of_find?_eq_some hfind, ?_⟩
        simpa using List.find?_some hfind
    · simp only [ChatStore.DeleteSession, AIDB.deleteChatSession]
      simp [hlen]
    · rw [UpdateSessionTitle_eq, if_neg hlen]


theorem session_lookup_not_found_iff_witness :
    ChatStore.GetSession NewAIDB "s1" = .error ("chat session not found: " ++ "s1")
    ∧ ChatStore.DeleteSession NewAIDB "s1"
        = (.error ("chat session not found: " ++ "s1"), NewAIDB)
    ∧ (ChatStore.UpdateSessionTitle
        (ChatStore.CreateSession NewAIDB 100 "s1" "m1" "t").2 101 "s1" "t").1 = .ok () :=
  ⟨((session_lookup_not_found_iff NewAIDB 101 "s1" "t").1 (by simp [NewAIDB])).1,
   ((session_lookup_not_found_iff NewAIDB 101 "s1" "t").1 (by simp [NewAIDB])).2.1,
   congrArg Prod.fst
     ((session_lookup_not_found_iff (ChatStore.CreateSession NewAIDB 100 "s1" "m1" "t").2
        101 "s1" "t").2 (by decide)).2.2⟩

theorem Set_eq (db : DB) (now : Time) (key value description : String) :
    ConfigStore.Set db now key value description =
      (.ok (),
       if db.configurations.any (fun r => r.Key == key) then
         { db with
           configurations := db.configurations.map (fun r =>
             if r.Key == key then
               { r with Value := value, Description := description, UpdatedAt := now }
             else r)
           configurations_seq := db.configurations_seq + 1 }
       else
         { db with
           configurations := db.configurations ++
             [{ ID := db.configurations_seq + 1, Key := key, Value := value,
                Description := description, CreatedAt := now, UpdatedAt := now }]
           configurations_seq := db.configurations_seq + 1
           last_insert_rowid := db.configurations_seq + 1 }) := by
  unfold ConfigStore.Set DB.upsertConfiguration
  by_cases h : (db.configurations.any (fun r => r.Key == key)) = true <;> simp [h]

theorem filter_not_map_update {α : Type} (p : α → Bool) (f : α → α)
    (hpf : ∀ a, p (f a) = p a) (l : List α) :
    (l.map (fun r => if p r then f r else r)).filter (fun r => !(p r))
      = l.filter (fun r => !(p r)) := by
  induction l with
  | nil => rfl
  | cons a t ih =>
    cases ha : p a
    · simp only [List.map_cons, ha, Bool.false_eq_true, ↓reduceIte, List.filter_cons,
        Bool.not_false]
      rw [ih]
    · simp only [List.map_cons, ha, ↓reduceIte, List.filter_cons, hpf, Bool.not_true,
        Bool.false_eq_true]
      exact ih

theorem filter_map_update_length {α : Type} (p : α → Bool) (f : α → α)
    (hpf : ∀ a, p (f a) = p a) (l : List α) :
    ((l.map (fun r => if p r then f r else r)).filter p).length = (l.filter p).length := by
  induction l with
  | nil => rfl
  | cons a t ih =>
    cases ha : p a
    · simp only [List.map_cons, ha, Bool.false_eq_true, ↓reduceIte, List.filter_cons]
      exact ih
    · simp only [List.map_cons, ha, ↓reduceIte, List.filter_cons, hpf, List.length_cons, ih]

theorem mem_map_update {α : Type} (p : α → Bool) (f : α → α) (l : List α) (r : α)
    (hr : r ∈ l.map (fun r => if p r then f r else r)) :
    (∃ a ∈ l, p a = true ∧ r = f a) ∨ (r ∈ l ∧ p r = false) := by
  simp only [List.mem_map] at hr
  obtain ⟨a, ha, rfl⟩ := hr
  cases hp : p a
  · right; simp [hp, ha]
  · left; exact ⟨a, ha, hp, by simp⟩

/-- After `Set`, the rows of the key all hold the value and the description written, the
rows of the other keys are the ones before, and the key has as many rows as before, or
one if it had none. -/
theorem Set_configurations (db : DB) (now : Time) (key value description : String) :
    (∀ r ∈ (ConfigStore.Set db now key value description).2.configurations,
        r.Key = key → r.Value = value ∧ r.Description = description)
    ∧ (ConfigStore.Set db now key value description).2.configurations.filter
          (fun r => !(r.Key == key))
        = db.configurations.filter (fun r => !(r.Key == key))
    ∧ ((ConfigStore.Set db now key value description).2.configurations.filter
          (fun r => r.Key == key)).length
        = max 1 (db.configurations.filter (fun r => r.Key == key)).length := by
  rw [Set_eq]
  by_cases h : (db.configurations.any (fun r => r.Key == key)) = true
  · simp only [h, ↓reduceIte]
    refine ⟨?_, ?_, ?_⟩
    · intro r hr hk
      rcases mem_map_update (fun r => r.Key == key) _ _ r hr with ⟨a, _, _, rfl⟩ | ⟨_, hp⟩
      · exact ⟨rfl, rfl⟩
      · simp [hk] at hp
    · exact filter_not_map_update (fun r : Configuration => r.Key == key)
        (fun r => { r with Value := value, Description := description, UpdatedAt := now })
        (fun _ => rfl) _
    · rw [filter_map_update_length (fun r : Configuration => r.Key == key)
        (fun r => { r with Value := value, Description := description, UpdatedAt := now })
        (fun _ => rfl)]
      have hpos : 0 < (db.configurations.filter (fun r => r.Key == key)).length := by
        rw [List.length_pos]
        intro hnil
        rw [List.filter_eq_nil_iff] at hnil
        simp only [List.any_eq_true] at h
        obtain ⟨r, hr, hk⟩ := h
        exact hnil r hr hk
      omega
  · simp only [h, Bool.false_eq_true, ↓reduceIte]
    have hp : ∀ r ∈ db.configurations, (r.Key == key) = false := by
      intro r hr
      simp only [List.any_eq_true, not_exists, not_and] at h
      simpa using h r hr
    have hnil : db.configurations.filter (fun r => r.Key == key) = [] := by
      rw [List.filter_eq_nil_iff]
      intro r hr
      simp [hp r hr]
    refine ⟨?_, ?_, ?_⟩
    · intro r hr hk
      simp only [List.mem_append, List.mem_singleton] at hr
      rcases hr with hr | rfl
      · have := hp r hr
        simp [hk] at this
      · exact ⟨rfl, rfl⟩
    · simp [List.filter_append]
    · simp [List.filter_append, hnil]

/-- C5. On a database whose configuration keys are pairwise distinct (the `UNIQUE`
constraint on `key`): `Set(key, v1, d1)` and then `Set(key, v2, d2)` both succeed, the
table then holds exactly one row for `key`, `Get(key)` returns value `v2` and description
`d2`, and the rows of the other keys are the ones from before the two calls, in the same
order. -/
theorem Set_twice (db : DB) (t1 t2 : Time) (key v1 v2 d1 d2 : String)
    (huniq : (db.configurations.map (fun r => r.Key)).Nodup) :
    (ConfigStore.Set db t1 key v1 d1).1 = .ok ()
    ∧ (ConfigStore.Set (ConfigStore.Set db t1 key v1 d1).2 t2 key v2 d2).1 = .ok ()
    ∧ ((ConfigStore.Set (ConfigStore.Set db t1 key v1 d1).2 t2 key v2 d2).2.configurations.filter
          (fun r => r.Key == key)).length = 1
    ∧ (∃ c, ConfigStore.Get (ConfigStore.Set (ConfigStore.Set db t1 key v1 d1).2 t2 key v2 d2).2
          key = .ok c ∧ c.Key = key ∧ c.Value = v2 ∧ c.Description = d2)
    ∧ (ConfigStore.Set (ConfigStore.Set db t1 key v1 d1).2 t2 key v2 d2).2.configurations.filter
          (fun r => !(r.Key == key))
        = db.configurations.filter (fun r => !(r.Key == key)) := by
  obtain ⟨_, a2, a3⟩ := Set_configurations db t1 key v1 d1
  obtain ⟨b1, b2, b3⟩ := Set_configurations (ConfigStore.Set db t1 key v1 d1).2 t2 key v2 d2
  have hle : (db.configurations.filter (fun r => r.Key == key)).length ≤ 1 := by
    have hnd : ((db.configurations.filter (fun r => r.Key == key)).map (fun r => r.Key)).Nodup :=
      (huniq.sublist ((List.filter_sublist _).map _))
    have hall : ∀ k ∈ (db.configurations.filter (fun r => r.Key == key)).map (fun r => r.Key),
        k = key := by
      intro k hk
      simp only [List.mem_map, List.mem_filter] at hk
      obtain ⟨r, ⟨_, hr⟩, rfl⟩ := hk
      simpa using hr
    rw [← List.length_map _ (fun r : Configuration => r.Key)]
    generalize (db.configurations.filter (fun r => r.Key == key)).map (fun r => r.Key) = ks
      at hnd hall
    match ks, hnd, hall with
    | [], _, _ => simp
    | [_], _, _ => simp
    | a :: b :: t, hnd, hall =>
      have ha := hall a (by simp)
      have hb := hall b (by simp)
      subst ha hb
      simp at hnd
  have hone : ((ConfigStore.Set (ConfigStore.Set db t1 key v1 d1).2 t2 key v2
      d2).2.configurations.filter (fun r => r.Key == key)).length = 1 := by
    rw [b3, a3]; omega
  refine ⟨by simp [Set_eq], by simp [Set_eq], hone, ?_, by rw [b2, a2]⟩
  cases hfind : (ConfigStore.Set (ConfigStore.Set db t1 key v1 d1).2 t2 key v2
      d2).2.configurations.find? (fun r => r.Key == key) with
  | none =>
    rw [List.find?_eq_none] at hfind
    have : (ConfigStore.Set (ConfigStore.Set db t1 key v1 d1).2 t2 key v2
        d2).2.configurations.filter (fun r => r.Key == key) = [] := by
      rw [List.filter_eq_nil_iff]; exact hfind
    rw [this] at hone
    simp at hone
  | some c =>
    have hk : c.Key = key := by simpa using List.find?_some hfind
    have hv := b1 c (List.mem_of_find?_eq_some hfind) hk
    exact ⟨c, by simp [ConfigStore.Get, DB.selectConfiguration, hfind], hk, hv.1, hv.2⟩

theorem Set_twice_witness :
    ((ConfigStore.Set (ConfigStore.Set New 1 "ollama.default_model" "m1" "d1").2 2
          "ollama.default_model" "m2" "d2").2.configurations.filter
          (fun r => r.Key == "ollama.default_model")).length = 1
    ∧ ∃ c, ConfigStore.Get
          (ConfigStore.Set (ConfigStore.Set New 1 "ollama.default_model" "m1" "d1").2 2
            "ollama.default_model" "m2" "d2").2 "ollama.default_model" = .ok c
        ∧ c.Key = "ollama.default_model" ∧ c.Value = "m2" ∧ c.Description = "d2" :=
  ⟨(Set_twice New 1 2 "ollama.default_model" "m1" "m2" "d1" "d2" (by decide)).2.2.1,
   (Set_twice New 1 2 "ollama.default_model" "m1" "m2" "d1" "d2" (by decide)).2.2.2.1⟩

/-- Calling `Set` keeps the keys of the configuration table pairwise distinct. -/
theorem Set_keys_nodup (db : DB) (now : Time) (key value description : String)
    (huniq : (db.configurations.map (fun r => r.Key)).Nodup) :
    ((ConfigStore.Set db now key value description).2.configurations.map
      (fun r => r.Key)).Nodup := by
  rw [Set_eq]
  by_cases h : (db.configurations.any (fun r => r.Key == key)) = true
  · simp only [h, ↓reduceIte, List.map_map]
    have : ((fun r : Configuration => r.Key) ∘ fun r =>
        if (r.Key == key) = true then
          { r with Value := value, Description := description, UpdatedAt := now }
        else r) = fun r => r.Key := by
      funext r
      simp only [Function.comp]
      split <;> rfl
    rw [this]
    exact huniq
  · simp only [h, Bool.false_eq_true, ↓reduceIte, List.map_append, List.map_cons,
      List.map_nil]
    rw [List.nodup_append]
    refine ⟨huniq, List.nodup_singleton _, ?_⟩
    rw [List.disjoint_singleton]
    intro hk
    simp only [List.mem_map] at hk
    obtain ⟨r, hr, hrk⟩ := hk
    simp only [List.any_eq_true, not_exists, not_and] at h
    exact h r hr (by simpa using hrk)

theorem find?_map_update {α : Type} (p : α → Bool) (f : α → α)
    (hpf : ∀ a, p (f a) = p a) (l : List α) :
    (l.map (fun r => if p r then f r else r)).find? p = (l.find? p).map f := by
  induction l with
  | nil => rfl
  | cons a t ih =>
    cases ha : p a
    · simp only [List.map_cons, ha, Bool.false_eq_true, ↓reduceIte, List.find?_cons]
      exact ih
    · simp only [List.map_cons, ha, ↓reduceIte, List.find?_cons, hpf, Option.map_some']

theorem any_eq_true_find? {α : Type} (p : α → Bool) (l : List α) (h : l.any p = true) :
    ∃ a, l.find? p = some a ∧ a ∈ l ∧ p a = true := by
  cases hf : l.find? p with
  | none =>
    rw [List.find?_eq_none] at hf
    simp only [List.any_eq_true] at h
    obtain ⟨r, hr, hp⟩ := h
    exact absurd hp (hf r hr)
  | some a => exact ⟨a, rfl, List.mem_of_find?_eq_some hf, List.find?_some hf⟩

theorem IndexFile_ok {F : Type} (lib : Lib F) (fs : FileSystem) (db : AIDB) (now : Time)
    (filePath content model : String) (embedding : Option (List F))
    (f : IndexedFile F) (db1 : AIDB)
    (h : FileIndexStore.IndexFile lib fs db now filePath content model embedding
          = (.ok f, db1)) :
    ∃ fileSize bytes embeddingBytes result,
      fs.Stat filePath = .ok fileSize ∧ fs.ReadAll filePath = .ok bytes
      ∧ lib.jsonMarshal embedding = .ok embeddingBytes
      ∧ db.upsertIndexedFile now filePath content embeddingBytes model fileSize
          (hex.EncodeToString (lib.sha256 bytes)) = .ok (result, db1)
      ∧ f = { ID := result.LastInsertId, FilePath := filePath, Content := content,
              Embedding := embedding, Model := model, FileSize := fileSize,
              FileHash := hex.EncodeToString (lib.sha256 bytes),
              IndexedAt := now, UpdatedAt := now } := by
  unfold FileIndexStore.IndexFile calculateFileHash float64SliceToBytes at h
  cases h1 : fs.Stat filePath with
  | error e => simp [h1] at h
  | ok fileSize =>
    cases h2 : fs.ReadAll filePath with
    | error e => simp [h1, h2] at h
    | ok bytes =>
      cases h3 : lib.jsonMarshal embedding with
      | error e => simp [h1, h2, h3] at h
      | ok embeddingBytes =>
        cases h4 : db.upsertIndexedFile now filePath content embeddingBytes model fileSize
            (hex.EncodeToString (lib.sha256 bytes)) with
        | error e => simp [h1, h2, h3, h4] at h
        | ok rd =>
          obtain ⟨result, d⟩ := rd
          simp only [h1, h2, h3, h4, Prod.mk.injEq, Except.ok.injEq] at h
          obtain ⟨hf, hd⟩ := h
          subst hd
          exact ⟨fileSize, bytes, embeddingBytes, result, rfl, rfl, rfl, h4, hf.symm⟩

theorem upsertIndexedFile_select (db : AIDB) (now : Time) (file_path content : String)
    (embedding : Bytes) (model : String) (file_size : Nat) (file_hash : String)
    (result : Result) (db1 : AIDB)
    (h : db.upsertIndexedFile now file_path content embedding model file_size file_hash
          = .ok (result, db1)) :
    ∃ row, db1.selectIndexedFile file_path = some row ∧ row.FilePath = file_path
      ∧ row.Content = content ∧ row.Embedding = embedding ∧ row.Model = model
      ∧ row.FileSize = file_size ∧ row.FileHash = file_hash := by
  unfold AIDB.upsertIndexedFile at h
  by_cases hany : (db.indexed_files.any (fun r => r.FilePath == file_path)) = true
  · simp only [hany, ↓reduceIte, Except.ok.injEq, Prod.mk.injEq] at h
    obtain ⟨_, hd⟩ := h
    subst hd
    obtain ⟨a, hfind, _, hpa⟩ := any_eq_true_find? _ _ hany
    simp only [AIDB.selectIndexedFile]
    rw [find?_map_update (fun r : IndexedFileRow => r.FilePath == file_path)
      (fun r => { r with Content := content, Embedding := embedding, Model := model,
                         FileSize := file_size, FileHash := file_hash, UpdatedAt := now })
      (fun _ => rfl), hfind]
    exact ⟨_, rfl, by simpa using hpa, rfl, rfl, rfl, rfl, rfl⟩
  · simp only [hany, Bool.false_eq_true, ↓reduceIte, Except.ok.injEq, Prod.mk.injEq] at h
    obtain ⟨_, hd⟩ := h
    subst hd
    simp only [AIDB.selectIndexedFile]
    rw [find?_append_singleton_of_none]
    · exact ⟨_, rfl, rfl, rfl, rfl, rfl, rfl, rfl⟩
    · intro r hr
      simp only [List.any_eq_true, not_exists, not_and] at hany
      simpa using hany r hr
    · simp

/-- C7. Let `e` be a vector that the codec round-trips: the payload `float64SliceToBytes`
returns for it is not empty and `bytesToFloat64Slice` decodes it to `e` (what
`encoding/json` does for a vector of finite floats).  If `IndexFile(path, content, model,
e)` succeeds, then `GetFile(path)` on the database after the call succeeds and returns
the path, `content`, `model` and the embedding `e`. -/
theorem IndexFile_then_GetFile {F : Type} (lib : Lib F) (fs : FileSystem) (db : AIDB)
    (now : Time) (filePath content model : String) (e : List F)
    (f : IndexedFile F) (db1 : AIDB)
    (hcodec : ∀ data, float64SliceToBytes lib (some e) = .ok data →
      0 < data.length ∧ bytesToFloat64Slice lib data = .ok (some e))
    (h : FileIndexStore.IndexFile lib fs db now filePath content model (some e)
          = (.ok f, db1)) :
    ∃ g, FileIndexStore.GetFile lib db1 filePath = .ok g
      ∧ g.FilePath = filePath ∧ g.Content = content ∧ g.Model = model
      ∧ g.Embedding = some e := by
  obtain ⟨fileSize, bytes, data, result, _, _, h3, h4, _⟩ := IndexFile_ok _ _ _ _ _ _ _ _ _ _ h
  obtain ⟨row, hsel, hp, hc, he, hm, _, _⟩ := upsertIndexedFile_select _ _ _ _ _ _ _ _ _ _ h4
  obtain ⟨hlen, hdec⟩ := hcodec data h3
  unfold FileIndexStore.GetFile
  simp only [hsel, he, hlen, gt_iff_lt, ↓reduceIte, hdec]
  exact ⟨_, rfl, hp, hc, hm, rfl⟩

theorem IndexFile_then_GetFile_witness :
    ∃ f db1 g,
      FileIndexStore.IndexFile scenarioLib scenarioFS NewAIDB 5 "/tmp/a.txt" "abc" "modelX"
          (some ["0.1", "0.2"]) = (.ok f, db1)
      ∧ FileIndexStore.GetFile scenarioLib db1 "/tmp/a.txt" = .ok g
      ∧ g.FilePath = "/tmp/a.txt" ∧ g.Content = "abc" ∧ g.Model = "modelX"
      ∧ g.Embedding = some ["0.1", "0.2"] :=
  have h := IndexFile_then_GetFile scenarioLib scenarioFS NewAIDB 5 "/tmp/a.txt" "abc"
    "modelX" ["0.1", "0.2"] _ _
    (by intro data hd
        have : data = [91, 48, 46, 49, 44, 48, 46, 50, 93] := by
          have h0 : float64SliceToBytes scenarioLib (some ["0.1", "0.2"])
              = .ok [91, 48, 46, 49, 44, 48, 46, 50, 93] := by decide
          rw [h0] at hd
          exact (Except.ok.inj hd).symm
        subst this
        decide)
    rfl
  match h with
  | ⟨g, hg⟩ => ⟨_, _, g, rfl, hg⟩


/-- C8. If no indexed file has the path, `DeleteFile(path)` returns the error
`file not indexed: <path>` and the database is unchanged.  If some indexed file has it,
`DeleteFile(path)` succeeds; afterwards the stored files are the former ones with another
path, in the same order, sessions and messages are untouched, the chunks are untouched on
a connection that does not enforce foreign keys, and `GetFile(path)` fails with
`file not indexed: <path>`. -/
theorem DeleteFile_not_found_iff {F : Type} (lib : Lib F) (db : AIDB) (filePath : String) :
    ((∀ r ∈ db.indexed_files, r.FilePath ≠ filePath) →
        FileIndexStore.DeleteFile db filePath
          = (.error ("file not indexed: " ++ filePath), db))
    ∧ ((∃ r ∈ db.indexed_files, r.FilePath = filePath) →
        (FileIndexStore.DeleteFile db filePath).1 = .ok ()
        ∧ (FileIndexStore.DeleteFile db filePath).2.indexed_files
            = db.indexed_files.filter (fun r => !(r.FilePath == filePath))
        ∧ (FileIndexStore.DeleteFile db filePath).2.chat_sessions = db.chat_sessions
        ∧ (FileIndexStore.DeleteFile db filePath).2.chat_messages = db.chat_messages
        ∧ (db.foreign_keys = false →
            (FileIndexStore.DeleteFile db filePath).2.file_chunks = db.file_chunks)
        ∧ FileIndexStore.GetFile lib (FileIndexStore.DeleteFile db filePath).2 filePath
            = .error ("file not indexed: " ++ filePath)) := by
  constructor
  · intro hno
    have hp : ∀ r ∈ db.indexed_files, (r.FilePath == filePath) = false := by
      intro r hr
      simpa using hno r hr
    have hnil : db.indexed_files.filter (fun r => r.FilePath == filePath) = [] := by
      rw [List.filter_eq_nil_iff]
      intro r hr
      simp [hp r hr]
    simp only [FileIndexStore.DeleteFile, AIDB.deleteIndexedFile, hnil]
    simp [filter_not_eq_self _ _ hp]
  · rintro ⟨r, hr, hrs⟩
    have hlen : ¬ (db.indexed_files.filter (fun r => r.FilePath == filePath)).length = 0 := by
      rw [filter_length_eq_zero_iff]
      intro hall
      have := hall r hr
      simp [hrs] at this
    have hdel : FileIndexStore.DeleteFile db filePath
        = (.ok (), { db with
            indexed_files := db.indexed_files.filter (fun r => !(r.FilePath == filePath))
            file_chunks :=
              if db.foreign_keys then
                db.file_chunks.filter (fun c =>
                  !((db.indexed_files.filter (fun r => r.FilePath == filePath)).any
                    (fun r => (r.ID : Int) == c.FileID)))
              else db.file_chunks }) := by
      simp only [FileIndexStore.DeleteFile, AIDB.deleteIndexedFile]
      simp [hlen]
    rw [hdel]
    refine ⟨rfl, rfl, rfl, rfl, ?_, ?_⟩
    · intro hfk
      simp [hfk]
    · have hfind : (db.indexed_files.filter (fun r => !(r.FilePath == filePath))).find?
          (fun r => r.FilePath == filePath) = none := by
        rw [List.find?_eq_none]
        intro x hx
        simp only [List.mem_filter] at hx
        simpa using hx.2
      simp [FileIndexStore.GetFile, AIDB.selectIndexedFile, hfind]

theorem DeleteFile_not_found_iff_witness :
    FileIndexStore.DeleteFile NewAIDB "/tmp/never.txt"
        = (.error ("file not indexed: " ++ "/tmp/never.txt"), NewAIDB)
    ∧ (FileIndexStore.DeleteFile
        (FileIndexStore.IndexFile scenarioLib scenarioFS NewAIDB 5 "/tmp/a.txt" "abc" "modelX"
          (some ["0.1", "0.2"])).2 "/tmp/a.txt").1 = .ok () :=
  ⟨(DeleteFile_not_found_iff scenarioLib NewAIDB "/tmp/never.txt").1 (by decide),
   ((DeleteFile_not_found_iff scenarioLib
      (FileIndexStore.IndexFile scenarioLib scenarioFS NewAIDB 5 "/tmp/a.txt" "abc" "modelX"
        (some ["0.1", "0.2"])).2 "/tmp/a.txt").2 (by decide)).1⟩

/-- On a path that is already indexed, a successful `IndexFile` inserts no row: the `ID` it
returns is the connection's last insert rowid from before the call, whatever row that
was, and the stored row keeps its own id. -/
theorem IndexFile_existing_path_ID {F : Type} (lib : Lib F) (fs : FileSystem) (db : AIDB)
    (now : Time) (filePath content model : String) (embedding : Option (List F))
    (f : IndexedFile F) (db1 : AIDB)
    (hexists : db.indexed_files.any (fun r => r.FilePath == filePath) = true)
    (h : FileIndexStore.IndexFile lib fs db now filePath content model embedding
          = (.ok f, db1)) :
    f.ID = db.last_insert_rowid
      ∧ db1.indexed_files.map (fun r => r.ID) = db.indexed_files.map (fun r => r.ID) := by
  obtain ⟨fileSize, bytes, data, result, _, _, _, h4, hf⟩ :=
    IndexFile_ok _ _ _ _ _ _ _ _ _ _ h
  unfold AIDB.upsertIndexedFile at h4
  simp only [hexists, ↓reduceIte, Except.ok.injEq, Prod.mk.injEq] at h4
  obtain ⟨hr, hd⟩ := h4
  subst hd hr hf
  refine ⟨rfl, ?_⟩
  simp only [List.map_map]
  congr 1
  funext r
  simp only [Function.comp]
  split <;> rfl

/-- C6. On a database opened by `NewAIDB`: index `/tmp/a.txt`, add two chat messages
through the same connection, index `/tmp/a.txt` again with identical arguments.  Both
`IndexFile` calls succeed; the stored row keeps id 1 and only its `updated_at` changes,
but the first call returns `ID = 1` and the second `ID = 2`: the upsert takes its
`DO UPDATE` branch, inserts no row, and `LastInsertId` is the rowid of the last chat
message. -/
theorem IndexFile_twice_returns_other_id :
    ∃ f1 db1 m1 db2 m2 db3 f2 db4 g1 g2,
      FileIndexStore.IndexFile scenarioLib scenarioFS NewAIDB 5 "/tmp/a.txt" "abc" "modelX"
          (some ["0.1", "0.2"]) = (.ok f1, db1)
      ∧ ChatStore.AddMessage db1 6 6 "s1" "user" "hi" = (.ok m1, db2)
      ∧ ChatStore.AddMessage db2 6 6 "s1" "assistant" "hello" = (.ok m2, db3)
      ∧ FileIndexStore.IndexFile scenarioLib scenarioFS db3 7 "/tmp/a.txt" "abc" "modelX"
          (some ["0.1", "0.2"]) = (.ok f2, db4)
      ∧ FileIndexStore.GetFile scenarioLib db1 "/tmp/a.txt" = .ok g1
      ∧ FileIndexStore.GetFile scenarioLib db4 "/tmp/a.txt" = .ok g2
      ∧ f1.ID = 1 ∧ f2.ID = 2 ∧ g1.ID = 1 ∧ g2.ID = 1
      ∧ g2 = { g1 with UpdatedAt := 7 } :=
  ⟨_, _, _, _, _, _, _, _, _, _, rfl, rfl, rfl, rfl, rfl, rfl, rfl, rfl, rfl, rfl, rfl⟩


theorem orderByDesc_head {α : Type} (key : α → Int) (x : α) (post : List α)
    (hpost : ∀ r ∈ post, key r ≤ key x) :
    ∀ pre : List α, (∀ r ∈ pre, key r < key x) →
      ∃ tail, orderByDesc key (pre ++ x :: post) = x :: tail := by
  intro pre
  induction pre with
  | nil =>
    intro _
    refine ⟨orderByDesc key post, ?_⟩
    simp only [orderByDesc, List.nil_append]
    exact List.insertionSort_cons _ hpost
  | cons p pre ih =>
    intro hpre
    obtain ⟨tail, ht⟩ := ih (fun r hr => hpre r (List.mem_cons_of_mem _ hr))
    have hp : ¬ key x ≤ key p := not_le.mpr (hpre p (List.mem_cons_self _ _))
    refine ⟨List.orderedInsert (fun a b => key b ≤ key a) p tail, ?_⟩
    simp only [orderByDesc] at ht
    show List.orderedInsert (fun a b => key b ≤ key a) p
        (List.insertionSort (fun a b => key b ≤ key a) (pre ++ x :: post)) = _
    rw [ht]
    simp only [List.orderedInsert, hp, ↓reduceIte]

theorem AddMessage_ok (db : AIDB) (now now2 : Time) (sessionID role content : String)
    (m : ChatMessage) (db1 : AIDB)
    (h : ChatStore.AddMessage db now now2 sessionID role content = (.ok m, db1)) :
    m = { ID := db.chat_messages_seq + 1, SessionID := sessionID, Role := role,
          Content := content, CreatedAt := now2 }
    ∧ db1 = { db with
        chat_messages := db.chat_messages ++
          [{ ID := db.chat_messages_seq + 1, SessionID := sessionID, Role := role,
             Content := content, CreatedAt := now }]
        chat_messages_seq := db.chat_messages_seq + 1
        last_insert_rowid := db.chat_messages_seq + 1
        chat_sessions := db.chat_sessions.map (fun r =>
          if r.SessionID == sessionID then { r with UpdatedAt := now2 } else r) } := by
  unfold ChatStore.AddMessage AIDB.insertChatMessage AIDB.touchChatSession at h
  by_cases hc : (db.foreign_keys
      && !(db.chat_sessions.any (fun r => r.SessionID == sessionID))) = true
  · simp [hc] at h
  · simp only [hc, Bool.false_eq_true, ↓reduceIte, Prod.mk.injEq, Except.ok.injEq] at h
    exact ⟨h.1.symm, h.2.symm⟩

/-- C9 as stated fails: two sessions created within the same second, then the messages
`hi` and `hello` added to the second one, still within that second.  The second session
`s` has an `updated_at` at least that of every other session, yet `ListSessions(1)`
returns the first session: on equal `updated_at` the session stored first is listed
first. -/
theorem ListSessions_same_second_lists_older_session :
    ∃ a db1 s db2 m1 db3 m2 db4,
      ChatStore.CreateSession NewAIDB 100 "s0" "m0" "" = (.ok a, db1)
      ∧ ChatStore.CreateSession db1 100 "s1" "m1" "" = (.ok s, db2)
      ∧ ChatStore.AddMessage db2 100 100 "s1" "user" "hi" = (.ok m1, db3)
      ∧ ChatStore.AddMessage db3 100 100 "s1" "assistant" "hello" = (.ok m2, db4)
      ∧ ChatStore.GetSession db4 "s1" = .ok s
      ∧ ChatStore.ListSessions db4 1 = .ok [a]
      ∧ a.SessionID = "s0" ∧ s.SessionID = "s1"
      ∧ ChatStore.ListSessions db4 1 ≠ .ok [s] :=
  ⟨_, _, _, _, _, _, _, _, rfl, rfl, rfl, rfl, rfl, rfl, rfl, rfl, by decide⟩

/-- C9, amended. Let `s` be the stored session with the given id, `pre` the sessions
stored before it and `post` the ones stored after it.  If `AddMessage` on `s` succeeds,
with a clock reading `now2` for its `UPDATE` that is later than the `updated_at` of every
session in `pre` and not earlier than that of every session in `post`, then afterwards
`s` has `updated_at = now2`, no stored session has a greater `updated_at`, and
`ListSessions(1)` returns exactly `[s]`. -/
theorem AddMessage_then_ListSessions (db : AIDB) (now now2 : Time)
    (sessionID role content : String) (pre post : List ChatSession) (s : ChatSession)
    (m : ChatMessage) (db1 : AIDB)
    (hrows : db.chat_sessions = pre ++ s :: post)
    (hs : s.SessionID = sessionID)
    (hpre : ∀ r ∈ pre, r.SessionID ≠ sessionID ∧ r.UpdatedAt < now2)
    (hpost : ∀ r ∈ post, r.SessionID ≠ sessionID ∧ r.UpdatedAt ≤ now2)
    (h : ChatStore.AddMessage db now now2 sessionID role content = (.ok m, db1)) :
    db1.chat_sessions = pre ++ { s with UpdatedAt := now2 } :: post
    ∧ (∀ r ∈ db1.chat_sessions, r.UpdatedAt ≤ now2)
    ∧ ChatStore.GetSession db1 sessionID = .ok { s with UpdatedAt := now2 }
    ∧ ChatStore.ListSessions db1 1 = .ok [{ s with UpdatedAt := now2 }] := by
  obtain ⟨_, hdb⟩ := AddMessage_ok _ _ _ _ _ _ _ _ h
  have hpre0 : ∀ r ∈ pre, (r.SessionID == sessionID) = false := by
    intro r hr
    simpa using (hpre r hr).1
  have hpost0 : ∀ r ∈ post, (r.SessionID == sessionID) = false := by
    intro r hr
    simpa using (hpost r hr).1
  have hsessions : db1.chat_sessions = pre ++ { s with UpdatedAt := now2 } :: post := by
    rw [hdb]
    simp only [hrows, List.map_append, List.map_cons]
    rw [map_ite_eq_self _ _ pre hpre0, map_ite_eq_self _ _ post hpost0]
    simp [hs]
  refine ⟨hsessions, ?_, ?_, ?_⟩
  · intro r hr
    rw [hsessions] at hr
    simp only [List.mem_append, List.mem_cons] at hr
    rcases hr with hr | rfl | hr
    · exact le_of_lt (hpre r hr).2
    · exact le_refl _
    · exact (hpost r hr).2
  · simp only [ChatStore.GetSession, AIDB.selectChatSession, hsessions]
    rw [List.find?_append, List.find?_eq_none.mpr (by
      intro r hr
      simp [hpre0 r hr])]
    simp [hs]
  · obtain ⟨tail, ht⟩ := orderByDesc_head (fun r : ChatSession => (r.UpdatedAt : Int))
      { s with UpdatedAt := now2 } post
      (by intro r hr; show (r.UpdatedAt : Int) ≤ (now2 : Int); exact_mod_cast (hpost r hr).2)
      pre
      (by intro r hr; show (r.UpdatedAt : Int) < (now2 : Int); exact_mod_cast (hpre r hr).2)
    simp [ChatStore.ListSessions, AIDB.selectChatSessions, hsessions, ht]

theorem AddMessage_then_ListSessions_witness :
    ∃ db m db1 s,
      db = (ChatStore.AddMessage
              (ChatStore.CreateSession
                (ChatStore.CreateSession NewAIDB 99 "s0" "m0" "").2 100 "s1" "m1" "").2
              100 100 "s1" "user" "hi").2
      ∧ ChatStore.AddMessage db 101 101 "s1" "assistant" "hello" = (.ok m, db1)
      ∧ ChatStore.GetSession db1 "s1" = .ok s
      ∧ ChatStore.ListSessions db1 1 = .ok [s] :=
  ⟨_, _, _, _, rfl, rfl,
    (AddMessage_then_ListSessions
      (ChatStore.AddMessage
        (ChatStore.CreateSession
          (ChatStore.CreateSession NewAIDB 99 "s0" "m0" "").2 100 "s1" "m1" "").2
        100 100 "s1" "user" "hi").2
      101 101 "s1" "assistant" "hello"
      [{ ID := 1, SessionID := "s0", Model := "m0", Title := "", CreatedAt := 99,
         UpdatedAt := 99 }] []
      { ID := 2, SessionID := "s1", Model := "m1", Title := "", CreatedAt := 100,
        UpdatedAt := 100 } _ _ rfl rfl (by decide) (by decide) rfl).2.2⟩

theorem Delete_eq (db : DB) (key : String) :
    ConfigStore.Delete db key =
      (if (db.configurations.filter (fun r => r.Key == key)).length = 0 then
         .error ("configuration not found: " ++ key)
       else .ok (),
       { db with configurations := db.configurations.filter (fun r => !(r.Key == key)) }) := by
  unfold ConfigStore.Delete DB.deleteConfiguration
  by_cases h : (db.configurations.filter (fun r => r.Key == key)).length = 0 <;> simp [h]

theorem find?_filter_ne {α : Type} (p q : α → Bool) (l : List α)
    (hpq : ∀ a, p a = true → q a = false) :
    (l.filter (fun r => !(q r))).find? p = l.find? p := by
  induction l with
  | nil => rfl
  | cons a t ih =>
    cases hq : q a
    · simp only [List.filter_cons, hq, Bool.not_false, ↓reduceIte, List.find?_cons, ih]
    · have hp : p a = false := by
        cases hp : p a
        · rfl
        · rw [hpq a hp] at hq
          cases hq
      simp only [List.filter_cons, hq, Bool.not_true, Bool.false_eq_true, ↓reduceIte,
        List.find?_cons, hp, ih]

theorem filter_filter_ne {α : Type} (p q : α → Bool) (l : List α)
    (hpq : ∀ a, p a = true → q a = false) :
    (l.filter (fun r => !(q r))).filter p = l.filter p := by
  induction l with
  | nil => rfl
  | cons a t ih =>
    cases hq : q a
    · simp only [List.filter_cons, hq, Bool.not_false, ↓reduceIte, ih]
    · have hp : p a = false := by
        cases hp : p a
        · rfl
        · rw [hpq a hp] at hq
          cases hq
      simp only [List.filter_cons, hq, Bool.not_true, Bool.false_eq_true, ↓reduceIte, hp, ih]

/-- C11. `Get(key)` and `Delete(key)` return the error `configuration not found: <key>`
when no configuration row has the key, and then `Delete` leaves the database unchanged;
when some row has the key both succeed.  After a successful `Delete` the table holds the
former rows with another key, in the same order (one row fewer when keys are pairwise
distinct), `Get(key)` is not-found and `Exists(key)` is false, and `Get` and `Exists` of
every other key answer as before. -/
theorem config_not_found_iff (db : DB) (key : String) :
    ((∀ r ∈ db.configurations, r.Key ≠ key) →
        ConfigStore.Get db key = .error ("configuration not found: " ++ key)
        ∧ ConfigStore.Delete db key = (.error ("configuration not found: " ++ key), db))
    ∧ ((∃ r ∈ db.configurations, r.Key = key) →
        (∃ c, ConfigStore.Get db key = .ok c ∧ c ∈ db.configurations ∧ c.Key = key)
        ∧ (ConfigStore.Delete db key).1 = .ok ()
        ∧ (ConfigStore.Delete db key).2.configurations
            = db.configurations.filter (fun r => !(r.Key == key))
        ∧ ((db.configurations.map (fun r => r.Key)).Nodup →
            (ConfigStore.Delete db key).2.configurations.length + 1
              = db.configurations.length)
        ∧ ConfigStore.Get (ConfigStore.Delete db key).2 key
            = .error ("configuration not found: " ++ key)
        ∧ ConfigStore.Exists (ConfigStore.Delete db key).2 key = .ok false
        ∧ ∀ k, k ≠ key →
            ConfigStore.Get (ConfigStore.Delete db key).2 k = ConfigStore.Get db k
            ∧ ConfigStore.Exists (ConfigStore.Delete db key).2 k = ConfigStore.Exists db k) := by
  constructor
  · intro hno
    have hp : ∀ r ∈ db.configurations, (r.Key == key) = false := by
      intro r hr
      simpa using hno r hr
    have hlen : (db.configurations.filter (fun r => r.Key == key)).length = 0 :=
      (filter_length_eq_zero_iff _ _).mpr hp
    constructor
    · have hfind : db.configurations.find? (fun r => r.Key == key) = none := by
        rw [List.find?_eq_none]
        intro r hr
        simp [hp r hr]
      simp [ConfigStore.Get, DB.selectConfiguration, hfind]
    · rw [Delete_eq, if_pos hlen, filter_not_eq_self _ _ hp]
  · rintro ⟨r, hr, hrs⟩
    have hlen : ¬ (db.configurations.filter (fun r => r.Key == key)).length = 0 := by
      rw [filter_length_eq_zero_iff]
      intro hall
      have := hall r hr
      simp [hrs] at this
    have hgone : ∀ x ∈ db.configurations.filter (fun r => !(r.Key == key)),
        (x.Key == key) = false := by
      intro x hx
      simp only [List.mem_filter] at hx
      simpa using hx.2
    rw [Delete_eq, if_neg hlen]
    refine ⟨?_, rfl, rfl, ?_, ?_, ?_, ?_⟩
    · cases hfind : db.configurations.find? (fun r => r.Key == key) with
      | none =>
        rw [List.find?_eq_none] at hfind
        exact absurd (by simpa using hrs) (hfind r hr)
      | some c =>
        refine ⟨c, by simp [ConfigStore.Get, DB.selectConfiguration, hfind],
          List.mem_of_find?_eq_some hfind, ?_⟩
        simpa using List.find?_some hfind
    · intro hnd
      have hone : (db.configurations.filter (fun r => r.Key == key)).length = 1 := by
        have hle : (db.configurations.filter (fun r => r.Key == key)).length ≤ 1 := by
          have hnd2 : ((db.configurations.filter (fun r => r.Key == key)).map
              (fun r => r.Key)).Nodup := hnd.sublist ((List.filter_sublist _).map _)
          have hall : ∀ k ∈ (db.configurations.filter (fun r => r.Key == key)).map
              (fun r => r.Key), k = key := by
            intro k hk
            simp only [List.mem_map, List.mem_filter] at hk
            obtain ⟨x, ⟨_, hx⟩, rfl⟩ := hk
            simpa using hx
          rw [← List.length_map _ (fun r : Configuration => r.Key)]
          generalize (db.configurations.filter (fun r => r.Key == key)).map
            (fun r => r.Key) = ks at hnd2 hall
          match ks, hnd2, hall with
          | [], _, _ => simp
          | [_], _, _ => simp
          | a :: b :: t, hnd2, hall =>
            have ha := hall a (by simp)
            have hb := hall b (by simp)
            subst ha hb
            simp at hnd2
        omega
      have hsum := List.length_eq_length_filter_add (l := db.configurations)
        (fun r => r.Key == key)
      simp only at hsum ⊢
      omega
    · have hfind : (db.configurations.filter (fun r => !(r.Key == key))).find?
          (fun r => r.Key == key) = none := by
        rw [List.find?_eq_none]
        intro x hx
        simp [hgone x hx]
      simp [ConfigStore.Get, DB.selectConfiguration, hfind]
    · have hnil : (db.configurations.filter (fun r => !(r.Key == key))).filter
          (fun r => r.Key == key) = [] := by
        rw [List.filter_eq_nil_iff]
        intro x hx
        simp [hgone x hx]
      simp [ConfigStore.Exists, DB.countConfigurations, hnil]
    · intro k hk
      have hpq : ∀ a : Configuration, (a.Key == k) = true → (a.Key == key) = false := by
        intro a ha
        have : a.Key = k := by simpa using ha
        simp [this, hk]
      constructor
      · simp only [ConfigStore.Get, DB.selectConfiguration]
        rw [find?_filter_ne (fun r : Configuration => r.Key == k) (fun r => r.Key == key) _ hpq]
      · have hf := filter_filter_ne (fun r : Configuration => r.Key == k)
          (fun r => r.Key == key) db.configurations hpq
        simp only [ConfigStore.Exists, DB.countConfigurations, hf]

theorem config_not_found_iff_witness :
    ConfigStore.Get New "ollama.system_prompt"
        = .error ("configuration not found: " ++ "ollama.system_prompt")
    ∧ ConfigStore.Exists
        (ConfigStore.Delete (ConfigStore.Set New 1 "ollama.system_prompt" "p" "d").2
          "ollama.system_prompt").2 "ollama.system_prompt" = .ok false :=
  ⟨((config_not_found_iff New "ollama.system_prompt").1 (by simp [New])).1,
   ((config_not_found_iff (ConfigStore.Set New 1 "ollama.system_prompt" "p" "d").2
      "ollama.system_prompt").2 (by decide)).2.2.2.2.2.1⟩

theorem orderByDesc_perm {α : Type} (key : α → Int) (rows : List α) :
    (orderByDesc key rows).Perm rows :=
  List.perm_insertionSort _ _

theorem orderByDesc_sorted {α : Type} (key : α → Int) (rows : List α) :
    (orderByDesc key rows).Pairwise (fun a b => key b ≤ key a) :=
  @List.sorted_insertionSort α (fun a b => key b ≤ key a) _
    ⟨fun a b => le_total (key b) (key a)⟩ ⟨fun _ _ _ hab hbc => le_trans hbc hab⟩ rows

theorem orderByAsc_perm {α : Type} (key : α → Int) (rows : List α) :
    (orderByAsc key rows).Perm rows :=
  List.perm_insertionSort _ _

theorem orderByAsc_sorted {α : Type} (key : α → Int) (rows : List α) :
    (orderByAsc key rows).Pairwise (fun a b => key a ≤ key b) :=
  @List.sorted_insertionSort α (fun a b => key a ≤ key b) _
    ⟨fun a b => le_total (key a) (key b)⟩ ⟨fun _ _ _ hab hbc => le_trans hab hbc⟩ rows

/-- C12. `ListSessions(limit)` and `ListFiles(limit)` succeed and return `min(n, L)` rows,
`n` the number of stored rows and `L` the limit when it is positive, else 50 for sessions
and 100 for files.  The rows returned, followed by the rows left out, are the stored rows
rearranged in non-increasing `updated_at` order: the result is sorted, and no row left out
was updated later than a row returned.  Every file of `ListFiles` is a stored row with
its embedding absent. -/
theorem List_limit_most_recent (F : Type) (db : AIDB) (limit : Int) :
    (∃ sessions rest,
        ChatStore.ListSessions db limit = .ok sessions
        ∧ sessions.length
            = min db.chat_sessions.length (if limit ≤ 0 then 50 else limit.toNat)
        ∧ (sessions ++ rest).Perm db.chat_sessions
        ∧ (sessions ++ rest).Pairwise (fun a b => b.UpdatedAt ≤ a.UpdatedAt))
    ∧ (∃ (files : List (IndexedFile F)) (rows rest : List IndexedFileRow),
        FileIndexStore.ListFiles F db limit = .ok files
        ∧ files.length
            = min db.indexed_files.length (if limit ≤ 0 then 100 else limit.toNat)
        ∧ (∀ f ∈ files, f.Embedding = none)
        ∧ files = rows.map (fun row =>
            { ID := row.ID, FilePath := row.FilePath, Content := row.Content,
              Embedding := none, Model := row.Model, FileSize := row.FileSize,
              FileHash := row.FileHash, IndexedAt := row.IndexedAt,
              UpdatedAt := row.UpdatedAt })
        ∧ (rows ++ rest).Perm db.indexed_files
        ∧ (rows ++ rest).Pairwise (fun a b => b.UpdatedAt ≤ a.UpdatedAt)) := by
  constructor
  · refine ⟨_, (orderByDesc (fun r : ChatSession => (r.UpdatedAt : Int))
        db.chat_sessions).drop (if limit ≤ 0 then 50 else limit).toNat, rfl, ?_, ?_, ?_⟩
    · simp only [AIDB.selectChatSessions, List.length_take, orderByDesc,
        List.length_insertionSort]
      rw [Nat.min_comm]
      split <;> rfl
    · simp only [AIDB.selectChatSessions, List.take_append_drop]
      exact orderByDesc_perm _ _
    · simp only [AIDB.selectChatSessions, List.take_append_drop]
      exact (orderByDesc_sorted (fun r : ChatSession => (r.UpdatedAt : Int))
        db.chat_sessions).imp (by intro a b hab; exact_mod_cast hab)
  · refine ⟨_, (orderByDesc (fun r : IndexedFileRow => (r.UpdatedAt : Int))
        db.indexed_files).take (if limit ≤ 0 then 100 else limit).toNat,
      (orderByDesc (fun r : IndexedFileRow => (r.UpdatedAt : Int))
        db.indexed_files).drop (if limit ≤ 0 then 100 else limit).toNat, rfl, ?_, ?_, rfl,
      ?_, ?_⟩
    · simp only [AIDB.selectIndexedFiles, List.length_map, List.length_take, orderByDesc,
        List.length_insertionSort]
      rw [Nat.min_comm]
      split <;> rfl
    · intro f hf
      simp only [List.mem_map] at hf
      obtain ⟨row, _, rfl⟩ := hf
      rfl
    · simp only [List.take_append_drop]
      exact orderByDesc_perm _ _
    · simp only [List.take_append_drop]
      exact (orderByDesc_sorted (fun r : IndexedFileRow => (r.UpdatedAt : Int))
        db.indexed_files).imp (by intro a b hab; exact_mod_cast hab)

theorem filter_map_update {α : Type} (p : α → Bool) (f : α → α)
    (hpf : ∀ a, p (f a) = p a) (l : List α) :
    (l.map (fun r => if p r then f r else r)).filter p = (l.filter p).map f := by
  induction l with
  | nil => rfl
  | cons a t ih =>
    cases ha : p a
    · simp only [List.map_cons, ha, Bool.false_eq_true, ↓reduceIte, List.filter_cons]
      exact ih
    · simp only [List.map_cons, ha, ↓reduceIte, List.filter_cons, hpf, List.map_cons, ih]

theorem filter_eq_singleton_of_nodup {α : Type} (key : α → String) (k : String) (a : α) :
    ∀ l : List α, (l.map key).Nodup → a ∈ l → key a = k →
      l.filter (fun r => key r == k) = [a] := by
  intro l
  induction l with
  | nil => intro _ ha; cases ha
  | cons b t ih =>
    intro hnd ha hk
    rw [List.map_cons, List.nodup_cons] at hnd
    rcases List.mem_cons.mp ha with rfl | hat
    · have htail : t.filter (fun r => key r == k) = [] := by
        rw [List.filter_eq_nil_iff]
        intro x hx hxk
        apply hnd.1
        rw [List.mem_map]
        exact ⟨x, hx, by rw [hk]; simpa using hxk⟩
      simp [List.filter_cons, hk, htail]
    · have hb : ¬ key b = k := by
        intro hbk
        apply hnd.1
        rw [List.mem_map]
        exact ⟨a, hat, by rw [hk, hbk]⟩
      simp only [List.filter_cons, beq_iff_eq, hb, ↓reduceIte]
      exact ih hnd.2 hat hk

/-- C13. Let the stored file paths be pairwise distinct (the `UNIQUE` constraint on
`file_path`) and let `IndexFile` on a path succeed.  Afterwards the table holds exactly
one row for the path, the rows of the other paths are the former ones in the same order,
and paths are still pairwise distinct.  If the path was indexed, that row is the old row
with `content`, `embedding`, `model`, `file_size` and `file_hash` replaced by the new
values and `updated_at` set to the clock reading, so `id` and `indexed_at` are the old
ones, and the table has as many rows as before; if it was not, the table is the former
one with one new row appended. -/
theorem IndexFile_upsert {F : Type} (lib : Lib F) (fs : FileSystem) (db : AIDB) (now : Time)
    (filePath content model : String) (embedding : Option (List F))
    (f : IndexedFile F) (db1 : AIDB)
    (huniq : (db.indexed_files.map (fun r => r.FilePath)).Nodup)
    (h : FileIndexStore.IndexFile lib fs db now filePath content model embedding
          = (.ok f, db1)) :
    ∃ fileSize bytes data,
      fs.Stat filePath = .ok fileSize ∧ fs.ReadAll filePath = .ok bytes
      ∧ float64SliceToBytes lib embedding = .ok data
      ∧ (db1.indexed_files.filter (fun r => r.FilePath == filePath)).length = 1
      ∧ db1.indexed_files.filter (fun r => !(r.FilePath == filePath))
          = db.indexed_files.filter (fun r => !(r.FilePath == filePath))
      ∧ (db1.indexed_files.map (fun r => r.FilePath)).Nodup
      ∧ (∀ old ∈ db.indexed_files, old.FilePath = filePath →
          db1.indexed_files.filter (fun r => r.FilePath == filePath)
            = [{ old with Content := content, Embedding := data, Model := model,
                          FileSize := fileSize,
                          FileHash := hex.EncodeToString (lib.sha256 bytes),
                          UpdatedAt := now }]
          ∧ db1.indexed_files.length = db.indexed_files.length)
      ∧ ((∀ r ∈ db.indexed_files, r.FilePath ≠ filePath) →
          db1.indexed_files = db.indexed_files ++
            [{ ID := db.indexed_files_seq + 1, FilePath := filePath, Content := content,
               Embedding := data, Model := model, FileSize := fileSize,
               FileHash := hex.EncodeToString (lib.sha256 bytes),
               IndexedAt := now, UpdatedAt := now }]) := by
  obtain ⟨fileSize, bytes, data, result, h1, h2, h3, h4, _⟩ :=
    IndexFile_ok _ _ _ _ _ _ _ _ _ _ h
  refine ⟨fileSize, bytes, data, h1, h2, h3, ?_⟩
  unfold AIDB.upsertIndexedFile at h4
  by_cases hany : (db.indexed_files.any (fun r => r.FilePath == filePath)) = true
  · simp only [hany, ↓reduceIte, Except.ok.injEq, Prod.mk.injEq] at h4
    obtain ⟨_, hd⟩ := h4
    subst hd
    obtain ⟨a, _, hamem, hpa⟩ := any_eq_true_find? _ _ hany
    have hak : a.FilePath = filePath := by simpa using hpa
    have hone := filter_eq_singleton_of_nodup (fun r : IndexedFileRow => r.FilePath)
      filePath a db.indexed_files huniq hamem hak
    have hfilter := filter_map_update (fun r : IndexedFileRow => r.FilePath == filePath)
      (fun r => { r with Content := content, Embedding := data, Model := model,
                         FileSize := fileSize,
                         FileHash := hex.EncodeToString (lib.sha256 bytes),
                         UpdatedAt := now })
      (fun _ => rfl) db.indexed_files
    refine ⟨?_, ?_, ?_, ?_, ?_⟩
    · show (List.filter _ (List.map _ _)).length = 1
      rw [hfilter, hone]
      rfl
    · exact filter_not_map_update (fun r : IndexedFileRow => r.FilePath == filePath)
        (fun r => { r with Content := content, Embedding := data, Model := model,
                           FileSize := fileSize,
                           FileHash := hex.EncodeToString (lib.sha256 bytes),
                           UpdatedAt := now })
        (fun _ => rfl) _
    · show (List.map _ (List.map _ _)).Nodup
      rw [List.map_map]
      have : ((fun r : IndexedFileRow => r.FilePath) ∘ fun r =>
          if (r.FilePath == filePath) = true then
            { r with Content := content, Embedding := data, Model := model,
                     FileSize := fileSize,
                     FileHash := hex.EncodeToString (lib.sha256 bytes),
                     UpdatedAt := now }
          else r) = fun r => r.FilePath := by
        funext r
        simp only [Function.comp]
        split <;> rfl
      rw [this]
      exact huniq
    · intro old hold holdk
      have hone2 := filter_eq_singleton_of_nodup (fun r : IndexedFileRow => r.FilePath)
        filePath old db.indexed_files huniq hold holdk
      constructor
      · show List.filter _ (List.map _ _) = _
        rw [hfilter, hone2]
        rfl
      · show (List.map _ _).length = _
        rw [List.length_map]
    · intro hno
      exact absurd hak (hno a hamem)
  · simp only [hany, Bool.false_eq_true, ↓reduceIte, Except.ok.injEq, Prod.mk.injEq] at h4
    obtain ⟨_, hd⟩ := h4
    subst hd
    have hp : ∀ r ∈ db.indexed_files, (r.FilePath == filePath) = false := by
      intro r hr
      simp only [List.any_eq_true, not_exists, not_and] at hany
      simpa using hany r hr
    have hnil : db.indexed_files.filter (fun r => r.FilePath == filePath) = [] := by
      rw [List.filter_eq_nil_iff]
      intro r hr
      simp [hp r hr]
    refine ⟨?_, ?_, ?_, ?_, ?_⟩
    · simp [List.filter_append, hnil]
    · simp [List.filter_append]
    · simp only [List.map_append, List.map_cons, List.map_nil]
      rw [List.nodup_append]
      refine ⟨huniq, List.nodup_singleton _, ?_⟩
      rw [List.disjoint_singleton]
      intro hk
      simp only [List.mem_map] at hk
      obtain ⟨r, hr, hrk⟩ := hk
      have := hp r hr
      simp [hrk] at this
    · intro old hold holdk
      have := hp old hold
      simp [holdk] at this
    · intro _
      rfl

theorem IndexFile_upsert_witness :
    ∃ f1 db1 f2 db2,
      FileIndexStore.IndexFile scenarioLib scenarioFS NewAIDB 5 "/tmp/a.txt" "abc" "modelX"
          (some ["0.1", "0.2"]) = (.ok f1, db1)
      ∧ FileIndexStore.IndexFile scenarioLib scenarioFS db1 9 "/tmp/a.txt" "xyz" "modelY"
          (some ["0.3"]) = (.ok f2, db2)
      ∧ (db2.indexed_files.filter (fun r => r.FilePath == "/tmp/a.txt")).length = 1 :=
  match IndexFile_upsert scenarioLib scenarioFS
      (FileIndexStore.IndexFile scenarioLib scenarioFS NewAIDB 5 "/tmp/a.txt" "abc" "modelX"
        (some ["0.1", "0.2"])).2 9 "/tmp/a.txt" "xyz" "modelY" (some ["0.3"]) _ _
      (by decide) rfl with
  | ⟨_, _, _, _, _, _, hone, _⟩ => ⟨_, _, _, _, rfl, rfl, hone⟩

/-- C14. On a database opened by `NewAIDB`: index `/tmp/a.txt` (row id 1), add a chunk to
file 1, delete the file.  `DeleteFile` succeeds and `GetFile` is then not-found, but
`GetChunks(1)` still returns the chunk: the `ON DELETE CASCADE` of `file_chunks` is not
enforced on a connection that never turns foreign keys on. -/
theorem DeleteFile_keeps_chunks :
    ∃ f db1 c db2 db3,
      FileIndexStore.IndexFile scenarioLib scenarioFS NewAIDB 5 "/tmp/a.txt" "abc" "modelX"
          (some ["0.1", "0.2"]) = (.ok f, db1)
      ∧ f.ID = 1
      ∧ FileIndexStore.AddChunk scenarioLib db1 6 1 0 "abc" (some ["0.1", "0.2"])
          = (.ok c, db2)
      ∧ FileIndexStore.DeleteFile db2 "/tmp/a.txt" = (.ok (), db3)
      ∧ FileIndexStore.GetFile scenarioLib db3 "/tmp/a.txt"
          = .error "file not indexed: /tmp/a.txt"
      ∧ FileIndexStore.GetChunks scenarioLib db3 1
          = .ok [{ ID := 1, FileID := 1, ChunkIndex := 0, Content := "abc",
                   Embedding := some ["0.1", "0.2"], CreatedAt := 6 }] :=
  ⟨_, _, _, _, _, rfl, rfl, rfl, rfl, rfl, rfl⟩

/-- The database after `IndexFile` is the one before, or the one the upsert produced. -/
theorem IndexFile_db {F : Type} (lib : Lib F) (fs : FileSystem) (db : AIDB) (now : Time)
    (filePath content model : String) (embedding : Option (List F)) :
    (∃ msg, FileIndexStore.IndexFile lib fs db now filePath content model embedding
        = (.error msg, db))
    ∨ ∃ f fileSize fileHash data result,
        db.upsertIndexedFile now filePath content data model fileSize fileHash
          = .ok (result,
              (FileIndexStore.IndexFile lib fs db now filePath content model embedding).2)
        ∧ (FileIndexStore.IndexFile lib fs db now filePath content model embedding).1
          = .ok f := by
  unfold FileIndexStore.IndexFile calculateFileHash float64SliceToBytes
  cases h1 : fs.Stat filePath with
  | error e => exact Or.inl ⟨_, rfl⟩
  | ok fileSize =>
    cases h2 : fs.ReadAll filePath with
    | error e => exact Or.inl ⟨_, rfl⟩
    | ok bytes =>
      cases h3 : lib.jsonMarshal embedding with
      | error e => exact Or.inl ⟨_, rfl⟩
      | ok data =>
        cases h4 : db.upsertIndexedFile now filePath content data model fileSize
            (hex.EncodeToString (lib.sha256 bytes)) with
        | error e => exact Or.inl ⟨"failed to index file: " ++ e, by simp only [h4]⟩
        | ok rd =>
          obtain ⟨result, d⟩ := rd
          refine Or.inr ⟨⟨result.LastInsertId, filePath, content, embedding, model, fileSize,
            hex.EncodeToString (lib.sha256 bytes), now, now⟩, fileSize,
            hex.EncodeToString (lib.sha256 bytes), data, result, ?_, ?_⟩
          · simp only [h4]
          · simp only [h4]

/-- The upsert of `IndexFile` writes `indexed_files` only, and keeps the id and the path
of every row that was there. -/
theorem upsertIndexedFile_frame (db : AIDB) (now : Time) (file_path content : String)
    (embedding : Bytes) (model : String) (file_size : Nat) (file_hash : String)
    (result : Result) (db1 : AIDB)
    (h : db.upsertIndexedFile now file_path content embedding model file_size file_hash
          = .ok (result, db1)) :
    db1.file_chunks = db.file_chunks ∧ db1.chat_sessions = db.chat_sessions
      ∧ db1.chat_messages = db.chat_messages ∧ db1.foreign_keys = db.foreign_keys
      ∧ db.indexed_files.map (fun r => (r.ID, r.FilePath))
          <+: db1.indexed_files.map (fun r => (r.ID, r.FilePath)) := by
  unfold AIDB.upsertIndexedFile at h
  by_cases hany : (db.indexed_files.any (fun r => r.FilePath == file_path)) = true
  · simp only [hany, ↓reduceIte, Except.ok.injEq, Prod.mk.injEq] at h
    obtain ⟨_, hd⟩ := h
    subst hd
    refine ⟨rfl, rfl, rfl, rfl, ?_⟩
    show _ <+: List.map _ (List.map _ _)
    rw [List.map_map]
    have : ((fun r : IndexedFileRow => (r.ID, r.FilePath)) ∘ fun r =>
        if (r.FilePath == file_path) = true then
          { r with Content := content, Embedding := embedding, Model := model,
                   FileSize := file_size, FileHash := file_hash, UpdatedAt := now }
        else r) = fun r => (r.ID, r.FilePath) := by
      funext r
      simp only [Function.comp]
      split <;> rfl
    rw [this]
  · simp only [hany, Bool.false_eq_true, ↓reduceIte, Except.ok.injEq, Prod.mk.injEq] at h
    obtain ⟨_, hd⟩ := h
    subst hd
    refine ⟨rfl, rfl, rfl, rfl, ?_⟩
    simp only [List.map_append]
    exact List.prefix_append _ _

/-- C17. Whatever the arguments and whether it succeeds or not, `IndexFile` leaves the
table of chunks as it was, so `GetChunks(f)` returns the same as before for every file id
`f`; and every stored file keeps its id (the rows of `indexed_files`, read as pairs of id
and path, are the former ones, with at most new ones appended). -/
theorem IndexFile_keeps_chunks {F : Type} (lib : Lib F) (fs : FileSystem) (db : AIDB)
    (now : Time) (filePath content model : String) (embedding : Option (List F))
    (fileID : Int) :
    (FileIndexStore.IndexFile lib fs db now filePath content model embedding).2.file_chunks
        = db.file_chunks
    ∧ FileIndexStore.GetChunks lib
          (FileIndexStore.IndexFile lib fs db now filePath content model embedding).2 fileID
        = FileIndexStore.GetChunks lib db fileID
    ∧ db.indexed_files.map (fun r => (r.ID, r.FilePath))
        <+: (FileIndexStore.IndexFile lib fs db now filePath content model
              embedding).2.indexed_files.map (fun r => (r.ID, r.FilePath)) := by
  rcases IndexFile_db lib fs db now filePath content model embedding with
    ⟨msg, hm⟩ | ⟨f, fileSize, fileHash, data, result, hu, _⟩
  · rw [hm]
    exact ⟨rfl, rfl, List.prefix_refl _⟩
  · obtain ⟨hc, _, _, _, hp⟩ := upsertIndexedFile_frame _ _ _ _ _ _ _ _ _ _ hu
    refine ⟨hc, ?_, hp⟩
    simp only [FileIndexStore.GetChunks, AIDB.selectFileChunks, hc]

/-- C18. On a database opened by `NewAIDB`, which holds no session: `AddMessage` with the
session id `ghost` succeeds and stores the message, although no stored session has that
id (`GetSession` is not-found, the table of sessions is empty): the foreign key of
`chat_messages.session_id` is not enforced on a connection that never turns foreign keys
on. -/
theorem AddMessage_without_session :
    ∃ m db1,
      ChatStore.AddMessage NewAIDB 1 1 "ghost" "user" "hi" = (.ok m, db1)
      ∧ db1.chat_sessions = []
      ∧ ChatStore.GetSession db1 "ghost" = .error "chat session not found: ghost"
      ∧ db1.chat_messages
          = [{ ID := 1, SessionID := "ghost", Role := "user", Content := "hi",
               CreatedAt := 1 }]
      ∧ ChatStore.GetMessages db1 "ghost"
          = .ok [{ ID := 1, SessionID := "ghost", Role := "user", Content := "hi",
                   CreatedAt := 1 }] :=
  ⟨_, _, rfl, rfl, rfl, rfl, rfl⟩

theorem orderedInsert_filter {α : Type} (r : α → α → Prop) [DecidableRel r] (p : α → Bool)
    (a : α) (hap : ∀ b, p a = true → p b = true → r a b) :
    ∀ l : List α, (List.orderedInsert r a l).filter p = (a :: l).filter p := by
  intro l
  induction l with
  | nil => rfl
  | cons b t ih =>
    by_cases hab : r a b
    · simp only [List.orderedInsert, hab, ↓reduceIte]
    · simp only [List.orderedInsert, hab, ↓reduceIte]
      rw [List.filter_cons, ih]
      cases hpa : p a
      · simp only [List.filter_cons, hpa, Bool.false_eq_true, ↓reduceIte]
      · cases hpb : p b
        · simp only [List.filter_cons, hpa, hpb, Bool.false_eq_true, ↓reduceIte]
        · exact absurd (hap b hpa hpb) hab

/-- A stable sort keeps the order of the rows that the relation does not separate. -/
theorem insertionSort_filter {α : Type} (r : α → α → Prop) [DecidableRel r] (p : α → Bool)
    (hp : ∀ a b, p a = true → p b = true → r a b) :
    ∀ l : List α, (List.insertionSort r l).filter p = l.filter p := by
  intro l
  induction l with
  | nil => rfl
  | cons a t ih =>
    rw [List.insertionSort, orderedInsert_filter r p a (hp a), List.filter_cons,
      List.filter_cons, ih]

theorem mapM_ok_of_forall {α β : Type} (f : α → Except String β) (g : α → β) :
    ∀ l : List α, (∀ x ∈ l, f x = .ok (g x)) → l.mapM f = .ok (l.map g) := by
  intro l
  induction l with
  | nil => intro _; rfl
  | cons a t ih =>
    intro h
    rw [List.mapM_cons, h a (List.mem_cons_self _ _),
      ih (fun x hx => h x (List.mem_cons_of_mem _ hx))]
    rfl

theorem forall₂_of_mem_left {α β : Type} (R : α → β → Prop) (l : List α) (m : List β)
    (h : List.Forall₂ R l m) : ∀ a ∈ l, ∃ b ∈ m, R a b := by
  induction h with
  | nil => intro a ha; cases ha
  | cons hab _ ih =>
    intro a ha
    rcases List.mem_cons.mp ha with rfl | hm
    · exact ⟨_, List.mem_cons_self _ _, hab⟩
    · obtain ⟨b, hb, hr⟩ := ih a hm
      exact ⟨b, List.mem_cons_of_mem _ hb, hr⟩

theorem forall₂_filter_map {α β γ : Type} (R : α → β → Prop) (p : α → Bool) (q : β → Bool)
    (f : α → γ) (g : β → γ)
    (hpq : ∀ a b, R a b → p a = q b) (hfg : ∀ a b, R a b → f a = g b) :
    ∀ (l : List α) (m : List β), List.Forall₂ R l m →
      (l.filter p).map f = (m.filter q).map g := by
  intro l m h
  induction h with
  | nil => rfl
  | cons hab _ ih =>
    rw [List.filter_cons, List.filter_cons, hpq _ _ hab]
    split
    · rw [List.map_cons, List.map_cons, hfg _ _ hab, ih]
    · exact ih

/-- With foreign keys not enforced, `AddChunk` succeeds whenever the encoder does, and
appends one row. -/
theorem AddChunk_eq {F : Type} (lib : Lib F) (db : AIDB) (now : Time)
    (fileID chunkIndex : Int) (content : String) (embedding : Option (List F))
    (data : Bytes) (hfk : db.foreign_keys = false)
    (hdata : float64SliceToBytes lib embedding = .ok data) :
    FileIndexStore.AddChunk lib db now fileID chunkIndex content embedding =
      (.ok { ID := db.file_chunks_seq + 1, FileID := fileID, ChunkIndex := chunkIndex,
             Content := content, Embedding := embedding, CreatedAt := now },
       { db with
         file_chunks := db.file_chunks ++
           [{ ID := db.file_chunks_seq + 1, FileID := fileID, ChunkIndex := chunkIndex,
              Content := content, Embedding := data, CreatedAt := now }]
         file_chunks_seq := db.file_chunks_seq + 1
         last_insert_rowid := db.file_chunks_seq + 1 }) := by
  simp [FileIndexStore.AddChunk, AIDB.insertFileChunk, hfk, hdata]

theorem run_file_chunks {F : Type} (lib : Lib F) (calls : List (ChunkCall F)) :
    ∀ db : AIDB, db.foreign_keys = false →
    (∀ c ∈ calls, ∃ data, float64SliceToBytes lib c.embedding = .ok data) →
    (∀ r ∈ (ChunkCall.run lib db calls).1, ∃ chunk, r = .ok chunk)
    ∧ (ChunkCall.run lib db calls).1.length = calls.length
    ∧ ∃ rows, (ChunkCall.run lib db calls).2.file_chunks = db.file_chunks ++ rows
        ∧ List.Forall₂ (fun (row : FileChunkRow) (c : ChunkCall F) =>
            row.FileID = c.fileID ∧ row.ChunkIndex = c.chunkIndex ∧ row.Content = c.content
            ∧ float64SliceToBytes lib c.embedding = .ok row.Embedding) rows calls := by
  induction calls with
  | nil =>
    intro db _ _
    exact ⟨by simp [ChunkCall.run], rfl, [], by simp [ChunkCall.run], List.Forall₂.nil⟩
  | cons c cs ih =>
    intro db hfk hcodec
    obtain ⟨data, hdata⟩ := hcodec c (List.mem_cons_self _ _)
    have hadd := AddChunk_eq lib db c.now c.fileID c.chunkIndex c.content c.embedding data
      hfk hdata
    obtain ⟨h1, h2, rows, h3, h4⟩ := ih
      (FileIndexStore.AddChunk lib db c.now c.fileID c.chunkIndex c.content c.embedding).2
      (by rw [hadd]; exact hfk)
      (fun x hx => hcodec x (List.mem_cons_of_mem _ hx))
    refine ⟨?_, ?_, ?_⟩
    · intro r hr
      simp only [ChunkCall.run, List.mem_cons] at hr
      rcases hr with rfl | hr
      · rw [hadd]
        exact ⟨_, rfl⟩
      · exact h1 r hr
    · simp only [ChunkCall.run, List.length_cons, h2]
    · refine ⟨⟨db.file_chunks_seq + 1, c.fileID, c.chunkIndex, c.content, data, c.now⟩ :: rows,
        ?_, List.Forall₂.cons ⟨rfl, rfl, rfl, hdata⟩ h4⟩
      simp only [ChunkCall.run]
      rw [h3, hadd]
      simp

/-- C15. Start from a database in which the file id has no chunk (foreign keys not
enforced, as `NewAIDB` leaves them) and run a sequence of `AddChunk` calls, on this and
other file ids, with embeddings that the codec round-trips.  Every call succeeds, whether
or not its `(fileID, chunkIndex)` pair was used before.  `GetChunks(fileID)` then
succeeds; its result is sorted by `chunk_index` ascending, holds exactly the chunks added
to the file (index, content and embedding as given), and for each index value the chunks
with that index come in the order in which they were added. -/
theorem GetChunks_sorted_stable {F : Type} (lib : Lib F) (db : AIDB) (fileID : Int)
    (calls : List (ChunkCall F))
    (hfk : db.foreign_keys = false)
    (hnew : ∀ c ∈ db.file_chunks, c.FileID ≠ fileID)
    (hcodec : ∀ c ∈ calls, ∃ data, float64SliceToBytes lib c.embedding = .ok data
      ∧ 0 < data.length ∧ bytesToFloat64Slice lib data = .ok c.embedding) :
    (∀ r ∈ (ChunkCall.run lib db calls).1, ∃ chunk, r = .ok chunk)
    ∧ (ChunkCall.run lib db calls).1.length = calls.length
    ∧ ∃ chunks, FileIndexStore.GetChunks lib (ChunkCall.run lib db calls).2 fileID = .ok chunks
      ∧ chunks.Pairwise (fun a b => a.ChunkIndex ≤ b.ChunkIndex)
      ∧ (chunks.map (fun c => (c.ChunkIndex, c.Content, c.Embedding))).Perm
          ((calls.filter (fun c => c.fileID == fileID)).map
            (fun c => (c.chunkIndex, c.content, c.embedding)))
      ∧ ∀ k : Int,
          (chunks.filter (fun c => c.ChunkIndex == k)).map
              (fun c => (c.ChunkIndex, c.Content, c.Embedding))
            = (calls.filter (fun c => c.fileID == fileID && c.chunkIndex == k)).map
              (fun c => (c.chunkIndex, c.content, c.embedding)) := by
  obtain ⟨h1, h2, rows, h3, h4⟩ := run_file_chunks lib calls db hfk
    (fun c hc => (hcodec c hc).imp (fun _ h => h.1))
  refine ⟨h1, h2, ?_⟩
  -- the row of a call decodes to the chunk that was added
  let decode : FileChunkRow → FileChunk F := fun row =>
    { ID := row.ID, FileID := row.FileID, ChunkIndex := row.ChunkIndex,
      Content := row.Content,
      Embedding := match bytesToFloat64Slice lib row.Embedding with
        | .ok e => e
        | .error _ => none,
      CreatedAt := row.CreatedAt }
  have hR : List.Forall₂ (fun (row : FileChunkRow) (c : ChunkCall F) =>
      row.FileID = c.fileID ∧ row.ChunkIndex = c.chunkIndex
      ∧ FileIndexStore.scanChunk lib row = .ok (decode row)
      ∧ (decode row).Content = c.content ∧ (decode row).Embedding = c.embedding)
      rows calls := by
    revert hcodec
    clear h1 h2 h3 hnew
    induction h4 with
    | nil => intro _; exact List.Forall₂.nil
    | @cons row c rows cs hrc _ ih =>
      intro hcodec
      refine List.Forall₂.cons ?_ (ih (fun x hx => hcodec x (List.mem_cons_of_mem _ hx)))
      obtain ⟨data, hd, hlen, hdec⟩ := hcodec c (List.mem_cons_self _ _)
      obtain ⟨hf, hi, hc, he⟩ := hrc
      rw [hd] at he
      cases he
      refine ⟨hf, hi, ?_, hc, ?_⟩
      · simp only [FileIndexStore.scanChunk, hlen, gt_iff_lt, ↓reduceIte, hdec, decode]
      · simp only [decode, hdec]
  have hold : db.file_chunks.filter (fun c => c.FileID == fileID) = [] := by
    rw [List.filter_eq_nil_iff]
    intro c hc
    simpa using hnew c hc
  have hsel : (ChunkCall.run lib db calls).2.selectFileChunks fileID
      = orderByAsc (fun c => c.ChunkIndex) (rows.filter (fun c => c.FileID == fileID)) := by
    simp only [AIDB.selectFileChunks, h3, List.filter_append, hold, List.nil_append]
  have hscan : ∀ row ∈ orderByAsc (fun c : FileChunkRow => c.ChunkIndex)
      (rows.filter (fun c => c.FileID == fileID)),
      FileIndexStore.scanChunk lib row = .ok (decode row) := by
    intro row hrow
    have hmem : row ∈ rows :=
      List.mem_of_mem_filter (((orderByAsc_perm _ _).mem_iff).mp hrow)
    obtain ⟨_, _, hb⟩ := forall₂_of_mem_left _ _ _ hR row hmem
    exact hb.2.2.1
  refine ⟨(orderByAsc (fun c : FileChunkRow => c.ChunkIndex)
      (rows.filter (fun c => c.FileID == fileID))).map decode, ?_, ?_, ?_, ?_⟩
  · simp only [FileIndexStore.GetChunks, hsel]
    exact mapM_ok_of_forall _ _ _ hscan
  · rw [List.pairwise_map]
    exact orderByAsc_sorted _ _
  · rw [List.map_map]
    refine ((orderByAsc_perm _ _).map _).trans ?_
    rw [forall₂_filter_map _ (fun c : FileChunkRow => c.FileID == fileID)
      (fun c : ChunkCall F => c.fileID == fileID) _
      (fun c : ChunkCall F => (c.chunkIndex, c.content, c.embedding)) ?_ ?_ rows calls hR]
    · intro a b hab
      show (a.FileID == fileID) = (b.fileID == fileID)
      rw [hab.1]
    · intro a b hab
      show ((decode a).ChunkIndex, (decode a).Content, (decode a).Embedding)
        = (b.chunkIndex, b.content, b.embedding)
      rw [hab.2.2.2.1, hab.2.2.2.2]
      exact congrArg (fun i => (i, b.content, b.embedding)) hab.2.1
  · intro k
    rw [List.filter_map, List.map_map]
    have hstable := insertionSort_filter
      (fun a b : FileChunkRow => a.ChunkIndex ≤ b.ChunkIndex)
      ((fun c : FileChunk F => c.ChunkIndex == k) ∘ decode)
      (by
        intro a b ha hb
        simp only [Function.comp, decode, beq_iff_eq] at ha hb
        rw [ha, hb])
      (rows.filter (fun c => c.FileID == fileID))
    unfold orderByAsc
    rw [hstable, List.filter_filter]
    refine forall₂_filter_map _ _ _ _ _ ?_ ?_ rows calls hR
    · intro a b hab
      show (((decode a).ChunkIndex == k) && (a.FileID == fileID))
        = ((b.fileID == fileID) && (b.chunkIndex == k))
      rw [hab.1, Bool.and_comm]
      exact congrArg (fun i => (b.fileID == fileID) && (i == k)) hab.2.1
    · intro a b hab
      show ((decode a).ChunkIndex, (decode a).Content, (decode a).Embedding)
        = (b.chunkIndex, b.content, b.embedding)
      rw [hab.2.2.2.1, hab.2.2.2.2]
      exact congrArg (fun i => (i, b.content, b.embedding)) hab.2.1

theorem GetChunks_sorted_stable_witness :
    (∀ r ∈ (ChunkCall.run scenarioLib NewAIDB
        [⟨1, 1, 1, "b", some ["0.2"]⟩, ⟨1, 1, 0, "a", none⟩, ⟨1, 2, 0, "z", some []⟩,
         ⟨1, 1, 1, "b2", some ["0.3"]⟩]).1, ∃ chunk, r = .ok chunk)
    ∧ (FileIndexStore.GetChunks scenarioLib (ChunkCall.run scenarioLib NewAIDB
        [⟨1, 1, 1, "b", some ["0.2"]⟩, ⟨1, 1, 0, "a", none⟩, ⟨1, 2, 0, "z", some []⟩,
         ⟨1, 1, 1, "b2", some ["0.3"]⟩]).2 1).map
          (List.map (fun c => (c.ChunkIndex, c.Content, c.Embedding)))
        = .ok [(0, "a", none), (1, "b", some ["0.2"]), (1, "b2", some ["0.3"])] :=
  ⟨(GetChunks_sorted_stable scenarioLib NewAIDB 1
      [⟨1, 1, 1, "b", some ["0.2"]⟩, ⟨1, 1, 0, "a", none⟩, ⟨1, 2, 0, "z", some []⟩,
       ⟨1, 1, 1, "b2", some ["0.3"]⟩] rfl (by simp [NewAIDB])
      (by
        intro c hc
        simp only [List.mem_cons, List.mem_singleton, List.not_mem_nil, or_false] at hc
        rcases hc with rfl | rfl | rfl | rfl
        · exact ⟨_, rfl, by decide, by decide⟩
        · exact ⟨_, rfl, by decide, by decide⟩
        · exact ⟨_, rfl, by decide, by decide⟩
        · exact ⟨_, rfl, by decide, by decide⟩)).1,
   rfl⟩

theorem hexDigit_lower (n : Nat) (h : n < 16) : hexDigit n ∈ "0123456789abcdef".toList := by
  interval_cases n <;> decide

theorem EncodeToString_lower (src : Bytes) :
    (hex.EncodeToString src).toList.length = 2 * src.length
    ∧ ∀ c ∈ (hex.EncodeToString src).toList, c ∈ "0123456789abcdef".toList := by
  have hto : (hex.EncodeToString src).toList
      = src.flatMap (fun b => [hexDigit (b.toNat / 16), hexDigit (b.toNat % 16)]) := rfl
  rw [hto]
  clear hto
  constructor
  · induction src with
    | nil => rfl
    | cons b t ih =>
      simp only [List.flatMap_cons, List.length_append, List.length_cons, List.length_nil]
      omega
  · intro c hc
    simp only [List.mem_flatMap, List.mem_cons, List.mem_singleton] at hc
    obtain ⟨b, _, hb⟩ := hc
    have hlt := UInt8.toNat_lt b
    rcases hb with rfl | rfl | hfalse
    · exact hexDigit_lower _ (by omega)
    · exact hexDigit_lower _ (by omega)
    · cases hfalse

/-- C16. Let the file system be coherent at the path (the size `os.Stat` reports is the
number of bytes read from the file).  If the file cannot be stat'ed or cannot be read,
`IndexFile` fails and the database is unchanged.  If `IndexFile` succeeds, the file was
read, the returned and the stored `file_size` are the number of its bytes and the
returned and the stored `file_hash` are the hexadecimal encoding of the digest of its
bytes: two lowercase hexadecimal characters for each byte of the digest.  Neither depends
on `content`: two successful calls on the path, whatever their other arguments and the
database they run on, return the same `file_size` and `file_hash`. -/
theorem IndexFile_size_and_hash {F : Type} (lib : Lib F) (fs : FileSystem) (db db2 : AIDB)
    (now now2 : Time) (filePath content content2 model model2 : String)
    (embedding embedding2 : Option (List F))
    (hfs : ∀ n bytes, fs.Stat filePath = .ok n → fs.ReadAll filePath = .ok bytes →
      n = bytes.length) :
    (((∃ e, fs.Stat filePath = .error e) ∨ (∃ e, fs.ReadAll filePath = .error e)) →
        ∃ msg, FileIndexStore.IndexFile lib fs db now filePath content model embedding
          = (.error msg, db))
    ∧ (∀ f db1, FileIndexStore.IndexFile lib fs db now filePath content model embedding
          = (.ok f, db1) →
        ∃ bytes, fs.ReadAll filePath = .ok bytes
          ∧ f.FileSize = bytes.length
          ∧ f.FileHash = hex.EncodeToString (lib.sha256 bytes)
          ∧ (∃ row, db1.selectIndexedFile filePath = some row
              ∧ row.FileSize = bytes.length
              ∧ row.FileHash = hex.EncodeToString (lib.sha256 bytes))
          ∧ f.FileHash.toList.length = 2 * (lib.sha256 bytes).length
          ∧ ∀ c ∈ f.FileHash.toList, c ∈ "0123456789abcdef".toList)
    ∧ (∀ f db1 f2 db3,
        FileIndexStore.IndexFile lib fs db now filePath content model embedding
          = (.ok f, db1) →
        FileIndexStore.IndexFile lib fs db2 now2 filePath content2 model2 embedding2
          = (.ok f2, db3) →
        f2.FileSize = f.FileSize ∧ f2.FileHash = f.FileHash) := by
  refine ⟨?_, ?_, ?_⟩
  · intro hfail
    unfold FileIndexStore.IndexFile calculateFileHash
    rcases hfail with ⟨e, he⟩ | ⟨e, he⟩
    · exact ⟨"failed to stat file: " ++ e, by simp only [he]⟩
    · cases h1 : fs.Stat filePath with
      | error e1 => exact ⟨"failed to stat file: " ++ e1, rfl⟩
      | ok n => exact ⟨"failed to calculate file hash: " ++ e, by simp only [he]⟩
  · intro f db1 h
    obtain ⟨fileSize, bytes, data, result, h1, h2, _, h4, hf⟩ :=
      IndexFile_ok _ _ _ _ _ _ _ _ _ _ h
    obtain ⟨row, hsel, _, _, _, _, hsize, hhash⟩ :=
      upsertIndexedFile_select _ _ _ _ _ _ _ _ _ _ h4
    have hn := hfs fileSize bytes h1 h2
    subst hf
    refine ⟨bytes, h2, hn, rfl, ⟨row, hsel, by rw [hsize, hn], hhash⟩, ?_, ?_⟩
    · exact (EncodeToString_lower _).1
    · exact (EncodeToString_lower _).2
  · intro f db1 f2 db3 h h'
    obtain ⟨fileSize, bytes, _, _, h1, h2, _, _, hf⟩ := IndexFile_ok _ _ _ _ _ _ _ _ _ _ h
    obtain ⟨fileSize2, bytes2, _, _, k1, k2, _, _, hf2⟩ :=
      IndexFile_ok _ _ _ _ _ _ _ _ _ _ h'
    rw [h1] at k1
    rw [h2] at k2
    cases k1
    cases k2
    subst hf hf2
    exact ⟨rfl, rfl⟩

theorem IndexFile_size_and_hash_witness :
    (∃ msg, FileIndexStore.IndexFile scenarioLib scenarioFS NewAIDB 5 "/tmp/none.txt" "abc"
        "modelX" (some ["0.1", "0.2"]) = (.error msg, NewAIDB))
    ∧ ∃ f db1 f2 db3,
        FileIndexStore.IndexFile scenarioLib scenarioFS NewAIDB 5 "/tmp/a.txt" "abc"
          "modelX" (some ["0.1", "0.2"]) = (.ok f, db1)
        ∧ FileIndexStore.IndexFile scenarioLib scenarioFS NewAIDB 5 "/tmp/a.txt"
          "something else" "modelX" (some ["0.1", "0.2"]) = (.ok f2, db3)
        ∧ f.FileSize = 3 ∧ f2.FileSize = f.FileSize ∧ f2.FileHash = f.FileHash :=
  ⟨(IndexFile_size_and_hash scenarioLib scenarioFS NewAIDB NewAIDB 5 5 "/tmp/none.txt" "abc"
      "abc" "modelX" "modelX" (some ["0.1", "0.2"]) (some ["0.1", "0.2"])
      (by intro n bytes h; simp [scenarioFS] at h)).1 (Or.inl ⟨_, rfl⟩),
   _, _, _, _, rfl, rfl, rfl,
   (IndexFile_size_and_hash scenarioLib scenarioFS NewAIDB NewAIDB 5 5 "/tmp/a.txt" "abc"
      "something else" "modelX" "modelX" (some ["0.1", "0.2"]) (some ["0.1", "0.2"])
      (by intro n bytes h1 h2
          simp only [scenarioFS, beq_self_eq_true, ↓reduceIte, Except.ok.injEq] at h1 h2
          subst h1 h2
          rfl)).2.2 _ _ _ _ rfl rfl⟩

/-- Whatever the embedding, nil included, a successful `IndexFile` has called the encoder
on it and stored the payload the encoder returned; and `GetFile` of a row with a payload
of positive length returns what the decoder makes of it. -/
theorem IndexFile_stores_encoder_output {F : Type} (lib : Lib F) (fs : FileSystem)
    (db : AIDB) (now : Time) (filePath content model : String)
    (embedding : Option (List F)) (f : IndexedFile F) (db1 : AIDB)
    (h : FileIndexStore.IndexFile lib fs db now filePath content model embedding
          = (.ok f, db1)) :
    ∃ data row, float64SliceToBytes lib embedding = .ok data
      ∧ db1.selectIndexedFile filePath = some row ∧ row.Embedding = data
      ∧ (0 < data.length →
          (∀ err, bytesToFloat64Slice lib data = .error err →
            FileIndexStore.GetFile lib db1 filePath
              = .error ("failed to deserialize embedding: " ++ err))
          ∧ (∀ e, bytesToFloat64Slice lib data = .ok e →
            (FileIndexStore.GetFile lib db1 filePath).map (fun g => g.Embedding) = .ok e)) := by
  obtain ⟨fileSize, bytes, data, result, _, _, h3, h4, _⟩ :=
    IndexFile_ok _ _ _ _ _ _ _ _ _ _ h
  obtain ⟨row, hsel, _, _, he, _, _, _⟩ := upsertIndexedFile_select _ _ _ _ _ _ _ _ _ _ h4
  refine ⟨data, row, h3, hsel, he, ?_⟩
  intro hlen
  constructor
  · intro err herr
    simp only [FileIndexStore.GetFile, hsel, he, hlen, gt_iff_lt, ↓reduceIte, herr]
  · intro e hdec
    simp only [FileIndexStore.GetFile, hsel, he, hlen, gt_iff_lt, ↓reduceIte, hdec, Except.map]

/-- C19 as stated fails.  On a database opened by `NewAIDB`, with a library that marshals
a nil slice to `null` and an empty one to `[]` as `encoding/json` does: `IndexFile` and
`AddChunk` with a nil embedding pass it to the encoder and store its output, the four
bytes `null`, a payload that is neither absent nor of length zero (for an empty vector
they store the two bytes `[]`).  `GetFile` and `GetChunks` therefore find a payload of
positive length and hand it to the decoder; the embedding they return is nil. -/
theorem nil_embedding_is_encoded :
    ∃ f db1 c db2 g,
      FileIndexStore.IndexFile scenarioLib scenarioFS NewAIDB 5 "/tmp/a.txt" "abc" "modelX"
          none = (.ok f, db1)
      ∧ db1.indexed_files.map (fun r => r.Embedding) = [[110, 117, 108, 108]]
      ∧ FileIndexStore.AddChunk scenarioLib db1 6 1 0 "abc" none = (.ok c, db2)
      ∧ db2.file_chunks.map (fun r => r.Embedding) = [[110, 117, 108, 108]]
      ∧ (FileIndexStore.IndexFile scenarioLib scenarioFS NewAIDB 5 "/tmp/a.txt" "abc"
          "modelX" (some [])).2.indexed_files.map (fun r => r.Embedding) = [[91, 93]]
      ∧ FileIndexStore.GetFile scenarioLib db2 "/tmp/a.txt" = .ok g
      ∧ g.Embedding = none
      ∧ (FileIndexStore.GetChunks scenarioLib db2 1).map
          (List.map (fun c => c.Embedding)) = .ok [none] :=
  ⟨_, _, _, _, _, rfl, rfl, rfl, rfl, rfl, rfl, rfl, rfl⟩


theorem AddChunk_ok {F : Type} (lib : Lib F) (db : AIDB) (now : Time)
    (fileID chunkIndex : Int) (content : String) (embedding : Option (List F))
    (c : FileChunk F) (db1 : AIDB)
    (h : FileIndexStore.AddChunk lib db now fileID chunkIndex content embedding
          = (.ok c, db1)) :
    ∃ data, float64SliceToBytes lib embedding = .ok data
      ∧ db1.file_chunks = db.file_chunks ++
          [{ ID := db.file_chunks_seq + 1, FileID := fileID, ChunkIndex := chunkIndex,
             Content := content, Embedding := data, CreatedAt := now }]
      ∧ c = { ID := db.file_chunks_seq + 1, FileID := fileID, ChunkIndex := chunkIndex,
              Content := content, Embedding := embedding, CreatedAt := now } := by
  unfold FileIndexStore.AddChunk AIDB.insertFileChunk at h
  cases hd : float64SliceToBytes lib embedding with
  | error e => simp [hd] at h
  | ok data =>
    by_cases hc : (db.foreign_keys
        && !(db.indexed_files.any (fun r => (r.ID : Int) == fileID))) = true
    · simp [hd, hc] at h
    · simp only [hd, hc, Bool.false_eq_true, ↓reduceIte, Prod.mk.injEq, Except.ok.injEq] at h
      exact ⟨data, rfl, by rw [← h.2], h.1.symm⟩

/-- C19, amended. Let the library marshal the nil slice to a payload `dnull` of positive
length that it unmarshals to the nil slice, and an empty slice to another payload (for
`encoding/json`: `null` and `[]`).  If `IndexFile` and then `AddChunk`, on a file id with
no chunk yet, succeed with a nil embedding, both have passed it to the encoder and stored
`dnull`; `GetFile` and `GetChunks` decode that payload and return a nil embedding; and
`IndexFile` with an empty vector stores a payload other than `dnull`. -/
theorem nil_embedding_round_trip {F : Type} (lib : Lib F) (fs : FileSystem) (db : AIDB)
    (now now2 : Time) (filePath content model : String) (fileID chunkIndex : Int)
    (chunkContent : String) (f : IndexedFile F) (db1 : AIDB) (c : FileChunk F) (db2 : AIDB)
    (dnull : Bytes)
    (hnull : float64SliceToBytes lib none = .ok dnull)
    (hlen : 0 < dnull.length)
    (hdec : bytesToFloat64Slice lib dnull = .ok none)
    (hempty : float64SliceToBytes lib (some []) ≠ .ok dnull)
    (hnew : ∀ r ∈ db1.file_chunks, r.FileID ≠ fileID)
    (h1 : FileIndexStore.IndexFile lib fs db now filePath content model none = (.ok f, db1))
    (h2 : FileIndexStore.AddChunk lib db1 now2 fileID chunkIndex chunkContent none
          = (.ok c, db2)) :
    (∃ row, db1.selectIndexedFile filePath = some row ∧ row.Embedding = dnull)
    ∧ (∃ g, FileIndexStore.GetFile lib db1 filePath = .ok g ∧ g.Embedding = none)
    ∧ (∃ row, db2.file_chunks = db1.file_chunks ++ [row] ∧ row.Embedding = dnull)
    ∧ (∃ chunk, FileIndexStore.GetChunks lib db2 fileID = .ok [chunk]
        ∧ chunk.ChunkIndex = chunkIndex ∧ chunk.Content = chunkContent
        ∧ chunk.Embedding = none)
    ∧ (∀ f3 db3, FileIndexStore.IndexFile lib fs db now filePath content model (some [])
          = (.ok f3, db3) →
        ∃ row, db3.selectIndexedFile filePath = some row ∧ row.Embedding ≠ dnull) := by
  obtain ⟨data, row, hd, hsel, he, hget⟩ :=
    IndexFile_stores_encoder_output _ _ _ _ _ _ _ _ _ _ h1
  rw [hnull] at hd
  cases hd
  obtain ⟨data2, hd2, hrows, _⟩ := AddChunk_ok _ _ _ _ _ _ _ _ _ h2
  rw [hnull] at hd2
  cases hd2
  refine ⟨⟨row, hsel, he⟩, ?_, ⟨_, hrows, rfl⟩, ?_, ?_⟩
  · have hg := (hget hlen).2 none hdec
    cases hgf : FileIndexStore.GetFile lib db1 filePath with
    | error e => simp [hgf, Except.map] at hg
    | ok g =>
      simp only [hgf, Except.map, Except.ok.injEq] at hg
      exact ⟨g, rfl, hg⟩
  · have hold : db1.file_chunks.filter (fun r => r.FileID == fileID) = [] := by
      rw [List.filter_eq_nil_iff]
      intro r hr
      simpa using hnew r hr
    refine ⟨{ ID := db1.file_chunks_seq + 1, FileID := fileID, ChunkIndex := chunkIndex,
              Content := chunkContent, Embedding := none, CreatedAt := now2 }, ?_, rfl, rfl,
      rfl⟩
    simp only [FileIndexStore.GetChunks, AIDB.selectFileChunks, hrows, List.filter_append,
      hold, List.nil_append, List.filter_cons, beq_self_eq_true, ↓reduceIte, List.filter_nil,
      orderByAsc, List.insertionSort, List.orderedInsert, List.mapM_cons, List.mapM_nil,
      FileIndexStore.scanChunk, hlen, gt_iff_lt, hdec]
    rfl
  · intro f3 db3 h3
    obtain ⟨data3, row3, hd3, hsel3, he3, _⟩ :=
      IndexFile_stores_encoder_output _ _ _ _ _ _ _ _ _ _ h3
    refine ⟨row3, hsel3, ?_⟩
    intro heq
    rw [he3] at heq
    rw [heq] at hd3
    exact hempty hd3

theorem nil_embedding_round_trip_witness :
    ∃ f db1 c db2 g chunk,
      FileIndexStore.IndexFile scenarioLib scenarioFS NewAIDB 5 "/tmp/a.txt" "abc" "modelX"
          none = (.ok f, db1)
      ∧ FileIndexStore.AddChunk scenarioLib db1 6 1 0 "abc" none = (.ok c, db2)
      ∧ FileIndexStore.GetFile scenarioLib db1 "/tmp/a.txt" = .ok g ∧ g.Embedding = none
      ∧ FileIndexStore.GetChunks scenarioLib db2 1 = .ok [chunk]
      ∧ chunk.Embedding = none :=
  match nil_embedding_round_trip scenarioLib scenarioFS NewAIDB 5 6 "/tmp/a.txt" "abc"
      "modelX" 1 0 "abc" _ _ _ _ [110, 117, 108, 108] rfl (by decide) (by decide)
      (by decide) (by decide) rfl rfl with
  | ⟨_, ⟨g, hg, hge⟩, _, ⟨chunk, hc, _, _, hce⟩, _⟩ =>
    ⟨_, _, _, _, g, chunk, rfl, rfl, hg, hge, hc, hce⟩

theorem find?_map_keep {α : Type} (p : α → Bool) (g : α → α) (hg : ∀ a, p (g a) = p a)
    (l : List α) : (l.map g).find? p = (l.find? p).map g := by
  induction l with
  | nil => rfl
  | cons a t ih =>
    cases ha : p a
    · simp only [List.map_cons, List.find?_cons, hg, ha, ih]
    · simp only [List.map_cons, List.find?_cons, hg, ha, Option.map_some']

/-- The second statement of `AddMessage` writes `updated_at` only: a stored session keeps
its id, session id, model and title. -/
theorem AddMessage_keeps_session (db : AIDB) (now now2 : Time)
    (sessionID role content x : String) (s : ChatSession)
    (h : ChatStore.GetSession db x = .ok s) :
    ∃ s1, ChatStore.GetSession (ChatStore.AddMessage db now now2 sessionID role content).2 x
        = .ok s1
      ∧ s1.ID = s.ID ∧ s1.SessionID = s.SessionID ∧ s1.Model = s.Model
      ∧ s1.Title = s.Title := by
  have hsel : db.chat_sessions.find? (fun r => r.SessionID == x) = some s := by
    simp only [ChatStore.GetSession, AIDB.selectChatSession] at h
    cases hf : db.chat_sessions.find? (fun r => r.SessionID == x) with
    | none => simp [hf] at h
    | some s0 =>
      simp only [hf, Except.ok.injEq] at h
      rw [h]
  unfold ChatStore.AddMessage AIDB.insertChatMessage AIDB.touchChatSession
  by_cases hc : (db.foreign_keys
      && !(db.chat_sessions.any (fun r => r.SessionID == sessionID))) = true
  · simp only [hc, ↓reduceIte]
    exact ⟨s, h, rfl, rfl, rfl, rfl⟩
  · simp only [hc, Bool.false_eq_true, ↓reduceIte, ChatStore.GetSession,
      AIDB.selectChatSession]
    rw [find?_map_keep (fun r : ChatSession => r.SessionID == x)
      (fun r => if (r.SessionID == sessionID) = true then { r with UpdatedAt := now2 } else r)
      (by intro a; simp only []; split <;> rfl), hsel]
    refine ⟨_, rfl, ?_, ?_, ?_, ?_⟩ <;> (simp only [Option.map_some']; split <;> rfl)

theorem resolveModel_eq (config : DB) (requested : String) :
    (if (requested == "") = true then
        match ConfigStore.Get config "ollama.default_model" with
        | .error _ => "qwen2.5:0.5b"
        | .ok c => c.Value
      else requested) = Spec.resolveModel config requested := by
  unfold Spec.resolveModel
  by_cases h : requested = ""
  · subst h
    simp only [beq_self_eq_true, ↓reduceIte, ne_eq, not_true_eq_false]
    cases ConfigStore.Get config "ollama.default_model" <;> rfl
  · simp [h]

/-- C20. Let a `POST` request with a decodable body reach `Chat` with a non-empty message,
or `CreateSession`, and let the session id to be generated be fresh.  `Chat` makes
exactly one call to the inference capability, and its model is the resolved one: the
request's model when it is not empty, else the value of the configuration key
`ollama.default_model` when `Get` succeeds, else `qwen2.5:0.5b`.  When `Chat` is given no
session id, the session it creates is stored with that model.  `CreateSession` responds
with the created session, which carries that model, and stores it with that model. -/
theorem handlers_resolve_model (client : Client) (config : DB) (db : AIDB) (now : Nat → Time)
    (uuid : String) (req : ChatRequest) (sreq : ChatSessionRequest)
    (hfresh : ∀ r ∈ db.chat_sessions, r.SessionID ≠ uuid)
    (hmsg : req.Message ≠ "") :
    (∃ messages,
        (OllamaHandler.Chat client config db now uuid ⟨"POST", some req⟩).inference
          = [(Spec.resolveModel config req.Model, messages)])
    ∧ (req.SessionID = "" →
        ∃ s, ChatStore.GetSession
              (OllamaHandler.Chat client config db now uuid ⟨"POST", some req⟩).db uuid = .ok s
          ∧ s.SessionID = uuid ∧ s.Model = Spec.resolveModel config req.Model)
    ∧ (∃ s,
        (OllamaHandler.CreateSession config db now uuid ⟨"POST", some sreq⟩).response
          = .success s
        ∧ s.SessionID = uuid ∧ s.Model = Spec.resolveModel config sreq.Model
        ∧ ∃ g, ChatStore.GetSession
              (OllamaHandler.CreateSession config db now uuid ⟨"POST", some sreq⟩).db uuid
              = .ok g
          ∧ g.SessionID = uuid ∧ g.Model = Spec.resolveModel config sreq.Model) := by
  have hany : db.chat_sessions.any (fun r => r.SessionID == uuid) = false := by
    rw [Bool.eq_false_iff]
    intro hc
    simp only [List.any_eq_true] at hc
    obtain ⟨r, hr, hk⟩ := hc
    exact hfresh r hr (by simpa using hk)
  have hcreate : ∀ (t : Time) (model title : String),
      ∃ s db1, ChatStore.CreateSession db t uuid model title = (.ok s, db1)
        ∧ s.SessionID = uuid ∧ s.Model = model
        ∧ ∃ g, ChatStore.GetSession db1 uuid = .ok g ∧ g.SessionID = uuid
            ∧ g.Model = model := by
    intro t model title
    rw [CreateSession_eq, hany]
    refine ⟨_, _, rfl, rfl, rfl,
      ⟨db.chat_sessions_seq + 1, uuid, model, title, t, t⟩, ?_, rfl, rfl⟩
    simp only [ChatStore.GetSession, AIDB.selectChatSession]
    rw [find?_append_singleton_of_none]
    · intro r hr
      simpa using hfresh r hr
    · simp
  have hm : (req.Message == "") = false := by simpa using hmsg
  refine ⟨?_, ?_, ?_⟩
  · unfold OllamaHandler.Chat
    simp only [bne_self_eq_false, Bool.false_eq_true, ↓reduceIte, hm, resolveModel_eq]
    by_cases hsid : req.SessionID = ""
    · obtain ⟨s, db1, hc, _, _, _⟩ := hcreate (now 0) (Spec.resolveModel config req.Model) ""
      simp only [hsid, bne_self_eq_false, Bool.false_eq_true, ↓reduceIte, hc]
      split <;> exact ⟨_, rfl⟩
    · have hne : (req.SessionID != "") = true := by simpa using hsid
      simp only [hne, ↓reduceIte, ChatStore.GetMessages]
      split <;> exact ⟨_, rfl⟩
  · intro hsid
    obtain ⟨s, db1, hc, hs1, _, g, hg, hg1, hg2⟩ :=
      hcreate (now 0) (Spec.resolveModel config req.Model) ""
    unfold OllamaHandler.Chat
    simp only [bne_self_eq_false, Bool.false_eq_true, ↓reduceIte, hm, resolveModel_eq, hsid,
      hc]
    obtain ⟨g1, hk1, _, hs, hmod, _⟩ := AddMessage_keeps_session db1 (now 1) (now 2)
      s.SessionID "system"
      (match ConfigStore.Get config "ollama.system_prompt" with
        | .ok c =>
          if (c.Value != "") = true then c.Value
          else "You are BlueNode Helper, an AI assistant for the BlueNode Server OS."
        | .error _ => "You are BlueNode Helper, an AI assistant for the BlueNode Server OS.")
      uuid g hg
    obtain ⟨g2, hk2, _, hs2, hmod2, _⟩ := AddMessage_keeps_session _ (now 3) (now 4)
      s.SessionID "user" req.Message uuid g1 hk1
    split
    · exact ⟨g2, hk2, by rw [hs2, hs, hg1], by rw [hmod2, hmod, hg2]⟩
    · rename_i resp _
      obtain ⟨g3, hk3, _, hs3, hmod3, _⟩ := AddMessage_keeps_session _ (now 5) (now 6)
        s.SessionID "assistant" resp.Message.Content uuid g2 hk2
      exact ⟨g3, hk3, by rw [hs3, hs2, hs, hg1], by rw [hmod3, hmod2, hmod, hg2]⟩
  · obtain ⟨s, db1, hc, hs1, hs2, g, hg, hg1, hg2⟩ :=
      hcreate (now 0) (Spec.resolveModel config sreq.Model) sreq.Title
    unfold OllamaHandler.CreateSession
    simp only [bne_self_eq_false, Bool.false_eq_true, ↓reduceIte, resolveModel_eq, hc]
    obtain ⟨g1, hk1, _, hs, hmod, _⟩ := AddMessage_keeps_session db1 (now 1) (now 2)
      s.SessionID "system"
      (match ConfigStore.Get config "ollama.system_prompt" with
        | .ok c =>
          if (c.Value != "") = true then c.Value
          else "You are BlueNode Helper, an AI assistant for the BlueNode Server OS."
        | .error _ => "You are BlueNode Helper, an AI assistant for the BlueNode Server OS.")
      uuid g hg
    exact ⟨s, rfl, hs1, hs2, g1, hk1, by rw [hs, hg1], by rw [hmod, hg2]⟩

theorem handlers_resolve_model_witness :
    (∃ messages,
        (OllamaHandler.Chat scenarioClient
          (ConfigStore.Set New 1 "ollama.default_model" "llama3" "").2 NewAIDB
          (fun k => 100 + k) "s1" ⟨"POST", some ⟨"", "hi", ""⟩⟩).inference
          = [("llama3", messages)])
    ∧ (∃ s, ChatStore.GetSession
          (OllamaHandler.Chat scenarioClient
            (ConfigStore.Set New 1 "ollama.default_model" "llama3" "").2 NewAIDB
            (fun k => 100 + k) "s1" ⟨"POST", some ⟨"", "hi", ""⟩⟩).db "s1" = .ok s
        ∧ s.SessionID = "s1" ∧ s.Model = "llama3")
    ∧ (∃ s, (OllamaHandler.CreateSession New NewAIDB (fun k => 100 + k) "s1"
          ⟨"POST", some ⟨"", "t"⟩⟩).response = .success s
        ∧ s.SessionID = "s1" ∧ s.Model = "qwen2.5:0.5b") :=
  ⟨(handlers_resolve_model scenarioClient
      (ConfigStore.Set New 1 "ollama.default_model" "llama3" "").2 NewAIDB
      (fun k => 100 + k) "s1" ⟨"", "hi", ""⟩ ⟨"", "t"⟩ (by simp [NewAIDB]) (by decide)).1,
   (handlers_resolve_model scenarioClient
      (ConfigStore.Set New 1 "ollama.default_model" "llama3" "").2 NewAIDB
      (fun k => 100 + k) "s1" ⟨"", "hi", ""⟩ ⟨"", "t"⟩ (by simp [NewAIDB]) (by decide)).2.1 rfl,
   match (handlers_resolve_model scenarioClient New NewAIDB
      (fun k => 100 + k) "s1" ⟨"", "hi", ""⟩ ⟨"", "t"⟩ (by simp [NewAIDB]) (by decide)).2.2 with
   | ⟨s, h1, h2, h3, _⟩ => ⟨s, h1, h2, h3⟩⟩

theorem Faulty_CreateSession_none (db : AIDB) (now : Time) (uuid model title : String) :
    Faulty.ChatStore.CreateSession none db now uuid model title
      = ChatStore.CreateSession db now uuid model title := rfl

theorem Faulty_AddMessage_none (db : AIDB) (now now2 : Time)
    (sessionID role content : String) :
    Faulty.ChatStore.AddMessage none none db now now2 sessionID role content
      = ChatStore.AddMessage db now now2 sessionID role content := rfl

theorem Faulty_GetMessages_none (db : AIDB) (sessionID : String) :
    Faulty.ChatStore.GetMessages none db sessionID = ChatStore.GetMessages db sessionID := rfl

/-- Without faults the handler on a failing connection is the handler. -/
theorem Faulty_Chat_none (client : Client) (config : DB) (db : AIDB) (now : Nat → Time)
    (uuid : String) (r : Request ChatRequest) :
    Faulty.OllamaHandler.Chat (fun _ => none) client config db now uuid r
      = OllamaHandler.Chat client config db now uuid r := rfl

theorem resolveSystemPrompt_eq (config : DB) :
    (match ConfigStore.Get config "ollama.system_prompt" with
      | .ok c =>
        if (c.Value != "") = true then c.Value
        else "You are BlueNode Helper, an AI assistant for the BlueNode Server OS."
      | .error _ => "You are BlueNode Helper, an AI assistant for the BlueNode Server OS.")
      = Spec.resolveSystemPrompt config := by
  unfold Spec.resolveSystemPrompt
  cases ConfigStore.Get config "ollama.system_prompt" with
  | error e => rfl
  | ok c =>
    by_cases h : c.Value = ""
    · simp [h]
    · simp [h]

/-- The turn on a stored history: what `Chat` does with a session id and a non-empty
message. -/
theorem Faulty_Chat_existing (fault : Nat → Option String) (client : Client) (config : DB)
    (db : AIDB) (now : Nat → Time) (uuid : String) (req : ChatRequest)
    (hmsg : req.Message ≠ "") (hsid : req.SessionID ≠ "") :
    Faulty.OllamaHandler.Chat fault client config db now uuid ⟨"POST", some req⟩ =
      match fault 7 with
      | some err =>
        { response := .error 500 ("failed to get chat messages: " ++ err), db := db,
          inference := [] }
      | none =>
        match client (Spec.resolveModel config req.Model)
            ((if (db.selectChatMessages req.SessionID).length == 0 then
                [{ Role := "system", Content := Spec.resolveSystemPrompt config }]
              else []) ++
              (db.selectChatMessages req.SessionID).map (fun msg =>
                { Role := msg.Role, Content := msg.Content }) ++
              [{ Role := "user", Content := req.Message }]) with
        | .error err =>
          { response := .error 500 err,
            db := (Faulty.ChatStore.AddMessage (fault 3) (fault 4) db (now 3) (now 4)
                    req.SessionID "user" req.Message).2,
            inference := [(Spec.resolveModel config req.Model,
              (if (db.selectChatMessages req.SessionID).length == 0 then
                  [{ Role := "system", Content := Spec.resolveSystemPrompt config }]
                else []) ++
                (db.selectChatMessages req.SessionID).map (fun msg =>
                  { Role := msg.Role, Content := msg.Content }) ++
                [{ Role := "user", Content := req.Message }])] }
        | .ok resp =>
          { response := .success { session_id := req.SessionID,
                                   message := resp.Message.Content, model := resp.Model },
            db := (Faulty.ChatStore.AddMessage (fault 5) (fault 6)
                    (Faulty.ChatStore.AddMessage (fault 3) (fault 4) db (now 3) (now 4)
                      req.SessionID "user" req.Message).2
                    (now 5) (now 6) req.SessionID "assistant" resp.Message.Content).2,
            inference := [(Spec.resolveModel config req.Model,
              (if (db.selectChatMessages req.SessionID).length == 0 then
                  [{ Role := "system", Content := Spec.resolveSystemPrompt config }]
                else []) ++
                (db.selectChatMessages req.SessionID).map (fun msg =>
                  { Role := msg.Role, Content := msg.Content }) ++
                [{ Role := "user", Content := req.Message }])] } := by
  have hm : (req.Message == "") = false := by simpa using hmsg
  have hs : (req.SessionID != "") = true := by simpa using hsid
  unfold Faulty.OllamaHandler.Chat
  simp only [bne_self_eq_false, Bool.false_eq_true, ↓reduceIte, hm, hs, resolveModel_eq,
    resolveSystemPrompt_eq, Faulty.ChatStore.GetMessages]
  cases fault 7 with
  | some err => rfl
  | none => rfl

/-- The first turn: what `Chat` does without a session id, with a non-empty message, when
the session is created. -/
theorem Faulty_Chat_new (fault : Nat → Option String) (client : Client) (config : DB)
    (db : AIDB) (now : Nat → Time) (uuid : String) (req : ChatRequest)
    (hmsg : req.Message ≠ "") (hsid : req.SessionID = "") (s : ChatSession) (db1 : AIDB)
    (hc : Faulty.ChatStore.CreateSession (fault 0) db (now 0) uuid
            (Spec.resolveModel config req.Model) "" = (.ok s, db1)) :
    Faulty.OllamaHandler.Chat fault client config db now uuid ⟨"POST", some req⟩ =
      match client (Spec.resolveModel config req.Model)
          [{ Role := "system", Content := Spec.resolveSystemPrompt config },
           { Role := "user", Content := req.Message }] with
      | .error err =>
        { response := .error 500 err,
          db := (Faulty.ChatStore.AddMessage (fault 3) (fault 4)
                  (Faulty.ChatStore.AddMessage (fault 1) (fault 2) db1 (now 1) (now 2)
                    s.SessionID "system" (Spec.resolveSystemPrompt config)).2
                  (now 3) (now 4) s.SessionID "user" req.Message).2,
          inference := [(Spec.resolveModel config req.Model,
            [{ Role := "system", Content := Spec.resolveSystemPrompt config },
             { Role := "user", Content := req.Message }])] }
      | .ok resp =>
        { response := .success { session_id := s.SessionID,
                                 message := resp.Message.Content, model := resp.Model },
          db := (Faulty.ChatStore.AddMessage (fault 5) (fault 6)
                  (Faulty.ChatStore.AddMessage (fault 3) (fault 4)
                    (Faulty.ChatStore.AddMessage (fault 1) (fault 2) db1 (now 1) (now 2)
                      s.SessionID "system" (Spec.resolveSystemPrompt config)).2
                    (now 3) (now 4) s.SessionID "user" req.Message).2
                  (now 5) (now 6) s.SessionID "assistant" resp.Message.Content).2,
          inference := [(Spec.resolveModel config req.Model,
            [{ Role := "system", Content := Spec.resolveSystemPrompt config },
             { Role := "user", Content := req.Message }])] } := by
  have hm : (req.Message == "") = false := by simpa using hmsg
  unfold Faulty.OllamaHandler.Chat
  simp only [bne_self_eq_false, Bool.false_eq_true, ↓reduceIte, hm, hsid, resolveModel_eq,
    resolveSystemPrompt_eq, hc, List.cons_append, List.nil_append]

/-- A failing `CreateSession` ends the turn with status 500. -/
theorem Faulty_Chat_new_error (fault : Nat → Option String) (client : Client) (config : DB)
    (db : AIDB) (now : Nat → Time) (uuid : String) (req : ChatRequest)
    (hmsg : req.Message ≠ "") (hsid : req.SessionID = "") (err : String) (db1 : AIDB)
    (hc : Faulty.ChatStore.CreateSession (fault 0) db (now 0) uuid
            (Spec.resolveModel config req.Model) "" = (.error err, db1)) :
    Faulty.OllamaHandler.Chat fault client config db now uuid ⟨"POST", some req⟩ =
      { response := .error 500 err, db := db1, inference := [] } := by
  have hm : (req.Message == "") = false := by simpa using hmsg
  unfold Faulty.OllamaHandler.Chat
  simp only [bne_self_eq_false, Bool.false_eq_true, ↓reduceIte, hm, hsid, resolveModel_eq,
    hc]

/-- `CreateSession` with a session id that no stored session has, on a connection without
fault. -/
theorem CreateSession_fresh (db : AIDB) (now : Time) (uuid model title : String)
    (hfresh : ∀ r ∈ db.chat_sessions, r.SessionID ≠ uuid) :
    ChatStore.CreateSession db now uuid model title =
      (.ok { ID := db.chat_sessions_seq + 1, SessionID := uuid, Model := model,
             Title := title, CreatedAt := now, UpdatedAt := now },
       { db with
         chat_sessions := db.chat_sessions ++
           [{ ID := db.chat_sessions_seq + 1, SessionID := uuid, Model := model,
              Title := title, CreatedAt := now, UpdatedAt := now }]
         chat_sessions_seq := db.chat_sessions_seq + 1
         last_insert_rowid := db.chat_sessions_seq + 1 }) := by
  have hany : db.chat_sessions.any (fun r => r.SessionID == uuid) = false := by
    rw [Bool.eq_false_iff]
    intro hc
    simp only [List.any_eq_true] at hc
    obtain ⟨r, hr, hk⟩ := hc
    exact hfresh r hr (by simpa using hk)
  rw [CreateSession_eq, hany]
  rfl

/-- The database after `AddMessage`, foreign keys not enforced. -/
theorem AddMessage_db (db : AIDB) (now now2 : Time) (sessionID role content : String)
    (hfk : db.foreign_keys = false) :
    (ChatStore.AddMessage db now now2 sessionID role content).2 =
      { db with
        chat_messages := db.chat_messages ++
          [{ ID := db.chat_messages_seq + 1, SessionID := sessionID, Role := role,
             Content := content, CreatedAt := now }]
        chat_messages_seq := db.chat_messages_seq + 1
        last_insert_rowid := db.chat_messages_seq + 1
        chat_sessions := db.chat_sessions.map (fun r =>
          if r.SessionID == sessionID then { r with UpdatedAt := now2 } else r) } := by
  rw [AddMessage_eq _ _ _ _ _ _ hfk]

/-- The first turn without fault, the session id not yet stored, foreign keys not
enforced: the outcome, row by row. -/
theorem Chat_new_eq (client : Client) (config : DB) (db : AIDB) (now : Nat → Time)
    (uuid : String) (req : ChatRequest)
    (hfk : db.foreign_keys = false)
    (hfresh : ∀ r ∈ db.chat_sessions, r.SessionID ≠ uuid)
    (hmsg : req.Message ≠ "") (hsid : req.SessionID = "") :
    OllamaHandler.Chat client config db now uuid ⟨"POST", some req⟩ =
      match client (Spec.resolveModel config req.Model)
          [{ Role := "system", Content := Spec.resolveSystemPrompt config },
           { Role := "user", Content := req.Message }] with
      | .error err =>
        { response := .error 500 err,
          db := { db with
            chat_sessions := db.chat_sessions ++
              [⟨db.chat_sessions_seq + 1, uuid, Spec.resolveModel config req.Model, "",
                now 0, now 4⟩]
            chat_sessions_seq := db.chat_sessions_seq + 1
            chat_messages := db.chat_messages ++
              [⟨db.chat_messages_seq + 1, uuid, "system", Spec.resolveSystemPrompt config,
                 now 1⟩,
               ⟨db.chat_messages_seq + 2, uuid, "user", req.Message, now 3⟩]
            chat_messages_seq := db.chat_messages_seq + 2
            last_insert_rowid := db.chat_messages_seq + 2 },
          inference := [(Spec.resolveModel config req.Model,
            [{ Role := "system", Content := Spec.resolveSystemPrompt config },
             { Role := "user", Content := req.Message }])] }
      | .ok resp =>
        { response := .success { session_id := uuid,
                                 message := resp.Message.Content, model := resp.Model },
          db := { db with
            chat_sessions := db.chat_sessions ++
              [⟨db.chat_sessions_seq + 1, uuid, Spec.resolveModel config req.Model, "",
                now 0, now 6⟩]
            chat_sessions_seq := db.chat_sessions_seq + 1
            chat_messages := db.chat_messages ++
              [⟨db.chat_messages_seq + 1, uuid, "system", Spec.resolveSystemPrompt config,
                 now 1⟩,
               ⟨db.chat_messages_seq + 2, uuid, "user", req.Message, now 3⟩,
               ⟨db.chat_messages_seq + 3, uuid, "assistant", resp.Message.Content, now 5⟩]
            chat_messages_seq := db.chat_messages_seq + 3
            last_insert_rowid := db.chat_messages_seq + 3 },
          inference := [(Spec.resolveModel config req.Model,
            [{ Role := "system", Content := Spec.resolveSystemPrompt config },
             { Role := "user", Content := req.Message }])] } := by
  have hold : ∀ t : Time, db.chat_sessions.map (fun r =>
      if r.SessionID == uuid then { r with UpdatedAt := t } else r) = db.chat_sessions :=
    fun t => map_ite_eq_self (fun r : ChatSession => r.SessionID == uuid)
      (fun r => { r with UpdatedAt := t }) _ (fun r hr => by simpa using hfresh r hr)
  rw [← Faulty_Chat_none, Faulty_Chat_new _ _ _ _ _ _ _ hmsg hsid _ _
    (by rw [Faulty_CreateSession_none]; exact CreateSession_fresh _ _ _ _ _ hfresh)]
  cases client (Spec.resolveModel config req.Model)
      [{ Role := "system", Content := Spec.resolveSystemPrompt config },
       { Role := "user", Content := req.Message }] with
  | error err =>
    simp only [Faulty_AddMessage_none, AddMessage_db, hfk, List.map_append, List.map_cons,
      List.map_nil, hold, beq_self_eq_true, ↓reduceIte, List.append_assoc, List.cons_append,
      List.nil_append, Nat.add_assoc, Nat.reduceAdd]
  | ok resp =>
    simp only [Faulty_AddMessage_none, AddMessage_db, hfk, List.map_append, List.map_cons,
      List.map_nil, hold, beq_self_eq_true, ↓reduceIte, List.append_assoc, List.cons_append,
      List.nil_append, Nat.add_assoc, Nat.reduceAdd]

theorem touch_touch (l : List ChatSession) (sessionID : String) (t t2 : Time) :
    (l.map (fun r => if r.SessionID == sessionID then { r with UpdatedAt := t } else r)).map
        (fun r => if r.SessionID == sessionID then { r with UpdatedAt := t2 } else r)
      = l.map (fun r => if r.SessionID == sessionID then { r with UpdatedAt := t2 } else r) := by
  induction l with
  | nil => rfl
  | cons a rest ih =>
    simp only [List.map_cons, ih]
    by_cases h : a.SessionID = sessionID <;> simp [h]

/-- A turn on a stored history without fault, foreign keys not enforced: the outcome, row
by row. -/
theorem Chat_existing_eq (client : Client) (config : DB) (db : AIDB) (now : Nat → Time)
    (uuid : String) (req : ChatRequest)
    (hfk : db.foreign_keys = false)
    (hmsg : req.Message ≠ "") (hsid : req.SessionID ≠ "") :
    OllamaHandler.Chat client config db now uuid ⟨"POST", some req⟩ =
      match client (Spec.resolveModel config req.Model)
          ((if (db.selectChatMessages req.SessionID).length == 0 then
              [{ Role := "system", Content := Spec.resolveSystemPrompt config }]
            else []) ++
            (db.selectChatMessages req.SessionID).map (fun msg =>
              { Role := msg.Role, Content := msg.Content }) ++
            [{ Role := "user", Content := req.Message }]) with
      | .error err =>
        { response := .error 500 err,
          db := { db with
            chat_sessions := db.chat_sessions.map (fun r =>
              if r.SessionID == req.SessionID then { r with UpdatedAt := now 4 } else r)
            chat_messages := db.chat_messages ++
              [⟨db.chat_messages_seq + 1, req.SessionID, "user", req.Message, now 3⟩]
            chat_messages_seq := db.chat_messages_seq + 1
            last_insert_rowid := db.chat_messages_seq + 1 },
          inference := [(Spec.resolveModel config req.Model,
            (if (db.selectChatMessages req.SessionID).length == 0 then
                [{ Role := "system", Content := Spec.resolveSystemPrompt config }]
              else []) ++
              (db.selectChatMessages req.SessionID).map (fun msg =>
                { Role := msg.Role, Content := msg.Content }) ++
              [{ Role := "user", Content := req.Message }])] }
      | .ok resp =>
        { response := .success { session_id := req.SessionID,
                                 message := resp.Message.Content, model := resp.Model },
          db := { db with
            chat_sessions := db.chat_sessions.map (fun r =>
              if r.SessionID == req.SessionID then { r with UpdatedAt := now 6 } else r)
            chat_messages := db.chat_messages ++
              [⟨db.chat_messages_seq + 1, req.SessionID, "user", req.Message, now 3⟩,
               ⟨db.chat_messages_seq + 2, req.SessionID, "assistant", resp.Message.Content,
                 now 5⟩]
            chat_messages_seq := db.chat_messages_seq + 2
            last_insert_rowid := db.chat_messages_seq + 2 },
          inference := [(Spec.resolveModel config req.Model,
            (if (db.selectChatMessages req.SessionID).length == 0 then
                [{ Role := "system", Content := Spec.resolveSystemPrompt config }]
              else []) ++
              (db.selectChatMessages req.SessionID).map (fun msg =>
                { Role := msg.Role, Content := msg.Content }) ++
              [{ Role := "user", Content := req.Message }])] } := by
  rw [← Faulty_Chat_none, Faulty_Chat_existing _ _ _ _ _ _ _ hmsg hsid]
  simp only []
  split
  · next err he =>
    simp only [Faulty_AddMessage_none, AddMessage_db, hfk]
  · next resp he =>
    simp only [Faulty_AddMessage_none, AddMessage_db, hfk, touch_touch, List.append_assoc,
      List.cons_append, List.nil_append, Nat.add_assoc, Nat.reduceAdd]

/-- C21. The system prompt the handlers use is the resolved one: the value of the
configuration key `ollama.system_prompt` when `Get` finds the key with a non-empty value,
else the hardcoded fallback (in particular when no row has the key).  With a `POST`
request, a non-empty message and a fresh session id to generate: `Chat` without a session
id, and `Chat` on a session id with an empty history, pass it to the inference capability
as the system message before the user's message; the `CreateSession` handler stores it
as the one message of the new session. -/
theorem handlers_resolve_system_prompt (client : Client) (config : DB) (db : AIDB)
    (now : Nat → Time) (uuid : String) (req : ChatRequest) (sreq : ChatSessionRequest)
    (hfk : db.foreign_keys = false)
    (hfresh : ∀ r ∈ db.chat_sessions, r.SessionID ≠ uuid)
    (hnone : ∀ m ∈ db.chat_messages, m.SessionID ≠ uuid)
    (hmsg : req.Message ≠ "") :
    ((∀ r ∈ config.configurations, r.Key ≠ "ollama.system_prompt") →
        Spec.resolveSystemPrompt config
          = "You are BlueNode Helper, an AI assistant for the BlueNode Server OS.")
    ∧ (req.SessionID = "" →
        (OllamaHandler.Chat client config db now uuid ⟨"POST", some req⟩).inference
          = [(Spec.resolveModel config req.Model,
              [{ Role := "system", Content := Spec.resolveSystemPrompt config },
               { Role := "user", Content := req.Message }])])
    ∧ (req.SessionID ≠ "" → ChatStore.GetMessages db req.SessionID = .ok [] →
        (OllamaHandler.Chat client config db now uuid ⟨"POST", some req⟩).inference
          = [(Spec.resolveModel config req.Model,
              [{ Role := "system", Content := Spec.resolveSystemPrompt config },
               { Role := "user", Content := req.Message }])])
    ∧ (ChatStore.GetMessages
          (OllamaHandler.CreateSession config db now uuid ⟨"POST", some sreq⟩).db uuid).map
        (List.map (fun m => (m.Role, m.Content)))
        = .ok [("system", Spec.resolveSystemPrompt config)] := by
  refine ⟨?_, ?_, ?_, ?_⟩
  · intro hno
    have hfind : config.configurations.find? (fun r => r.Key == "ollama.system_prompt")
        = none := by
      rw [List.find?_eq_none]
      intro r hr
      simpa using hno r hr
    simp [Spec.resolveSystemPrompt, ConfigStore.Get, DB.selectConfiguration, hfind]
  · intro hsid
    rw [← Faulty_Chat_none, Faulty_Chat_new _ _ _ _ _ _ _ hmsg hsid _ _
      (by rw [Faulty_CreateSession_none]; exact CreateSession_fresh _ _ _ _ _ hfresh)]
    split <;> rfl
  · intro hsid hempty
    have hsel : db.selectChatMessages req.SessionID = [] := by
      simpa [ChatStore.GetMessages] using hempty
    rw [← Faulty_Chat_none, Faulty_Chat_existing _ _ _ _ _ _ _ hmsg hsid]
    simp only [hsel, List.length_nil, beq_self_eq_true, ↓reduceIte, List.map_nil,
      List.append_nil, List.cons_append, List.nil_append]
    split <;> rfl
  · unfold OllamaHandler.CreateSession
    simp only [bne_self_eq_false, Bool.false_eq_true, ↓reduceIte, resolveModel_eq,
      resolveSystemPrompt_eq, CreateSession_fresh _ _ _ _ _ hfresh]
    rw [AddMessage_eq _ _ _ _ _ _ (by exact hfk)]
    have hold : db.chat_messages.filter (fun m => m.SessionID == uuid) = [] := by
      rw [List.filter_eq_nil_iff]
      intro m hm
      simpa using hnone m hm
    simp [ChatStore.GetMessages, AIDB.selectChatMessages, List.filter_append, hold,
      orderByAsc, Except.map]

theorem handlers_resolve_system_prompt_witness :
    (OllamaHandler.Chat scenarioClient
        (ConfigStore.Set New 1 "ollama.system_prompt" "Be brief." "").2 NewAIDB
        (fun k => 100 + k) "s1" ⟨"POST", some ⟨"m1", "hi", ""⟩⟩).inference
      = [("m1", [{ Role := "system", Content := "Be brief." },
                 { Role := "user", Content := "hi" }])]
    ∧ (ChatStore.GetMessages
          (OllamaHandler.CreateSession (ConfigStore.Set New 1 "ollama.system_prompt" "" "").2
            NewAIDB (fun k => 100 + k) "s1" ⟨"POST", some ⟨"m1", "t"⟩⟩).db "s1").map
        (List.map (fun m => (m.Role, m.Content)))
        = .ok [("system",
            "You are BlueNode Helper, an AI assistant for the BlueNode Server OS.")] :=
  ⟨(handlers_resolve_system_prompt scenarioClient
      (ConfigStore.Set New 1 "ollama.system_prompt" "Be brief." "").2 NewAIDB
      (fun k => 100 + k) "s1" ⟨"m1", "hi", ""⟩ ⟨"m1", "t"⟩ rfl (by simp [NewAIDB])
      (by simp [NewAIDB]) (by decide)).2.1 rfl,
   (handlers_resolve_system_prompt scenarioClient
      (ConfigStore.Set New 1 "ollama.system_prompt" "" "").2 NewAIDB
      (fun k => 100 + k) "s1" ⟨"m1", "hi", ""⟩ ⟨"m1", "t"⟩ rfl (by simp [NewAIDB])
      (by simp [NewAIDB]) (by decide)).2.2.2⟩

/-- C22. A `POST` to `Chat` with no session id and a non-empty message, on a store without
enforced foreign keys (as `NewAIDB` leaves it) in which the generated session id is new,
with an inference call that succeeds and insert timestamps that do not decrease: the
response is a success with the new session id, the reply text and the model name the
inference capability reports; the inference capability is called once, with the resolved
model and exactly `[system prompt, user message]`; the sessions are the old ones plus
exactly one new row with that id and the resolved model; the messages stored for the new
session are the system prompt, the user message and the assistant reply, in this order. -/
theorem Chat_new_session (client : Client) (config : DB) (db : AIDB) (now : Nat → Time)
    (uuid : String) (req : ChatRequest) (resp : ChatResponse)
    (hfk : db.foreign_keys = false)
    (hfresh : ∀ r ∈ db.chat_sessions, r.SessionID ≠ uuid)
    (hnone : ∀ m ∈ db.chat_messages, m.SessionID ≠ uuid)
    (hmsg : req.Message ≠ "") (hsid : req.SessionID = "")
    (hclock : now 1 ≤ now 3 ∧ now 3 ≤ now 5)
    (hclient : client (Spec.resolveModel config req.Model)
        [{ Role := "system", Content := Spec.resolveSystemPrompt config },
         { Role := "user", Content := req.Message }] = .ok resp) :
    (OllamaHandler.Chat client config db now uuid ⟨"POST", some req⟩).response
        = .success { session_id := uuid, message := resp.Message.Content,
                     model := resp.Model }
    ∧ (OllamaHandler.Chat client config db now uuid ⟨"POST", some req⟩).inference
        = [(Spec.resolveModel config req.Model,
            [{ Role := "system", Content := Spec.resolveSystemPrompt config },
             { Role := "user", Content := req.Message }])]
    ∧ (∃ s : ChatSession,
        (OllamaHandler.Chat client config db now uuid ⟨"POST", some req⟩).db.chat_sessions
          = db.chat_sessions ++ [s]
        ∧ s.SessionID = uuid ∧ s.Model = Spec.resolveModel config req.Model
        ∧ ChatStore.GetSession
            (OllamaHandler.Chat client config db now uuid ⟨"POST", some req⟩).db uuid
            = .ok s)
    ∧ (ChatStore.GetMessages
          (OllamaHandler.Chat client config db now uuid ⟨"POST", some req⟩).db uuid).map
        (List.map (fun m => (m.Role, m.Content)))
        = .ok [("system", Spec.resolveSystemPrompt config), ("user", req.Message),
               ("assistant", resp.Message.Content)] := by
  rw [Chat_new_eq client config db now uuid req hfk hfresh hmsg hsid, hclient]
  refine ⟨rfl, rfl, ⟨_, rfl, rfl, rfl, ?_⟩, ?_⟩
  · simp only [ChatStore.GetSession, AIDB.selectChatSession]
    rw [find?_append_singleton_of_none (fun r : ChatSession => r.SessionID == uuid) _ _
      (fun r hr => by simpa using hfresh r hr) (by simp)]
  · have hold : db.chat_messages.filter (fun m => m.SessionID == uuid) = [] := by
      rw [List.filter_eq_nil_iff]
      intro m hm
      simpa using hnone m hm
    simp only [ChatStore.GetMessages, AIDB.selectChatMessages, List.filter_append, hold,
      List.nil_append, List.filter_cons, beq_self_eq_true, ↓reduceIte, List.filter_nil]
    rw [orderByAsc_of_sorted]
    · rfl
    · simp only [List.map_cons, List.map_nil, List.pairwise_cons, List.mem_cons,
        List.mem_singleton, forall_eq_or_imp, forall_eq, List.not_mem_nil, false_implies,
        implies_true, List.Pairwise.nil, and_true]
      have h1 := hclock.1
      have h2 := hclock.2
      exact ⟨⟨Int.ofNat_le.mpr h1, Int.ofNat_le.mpr (Nat.le_trans h1 h2)⟩,
        Int.ofNat_le.mpr h2⟩

theorem Chat_new_session_witness :
    (OllamaHandler.Chat scenarioClient New NewAIDB (fun k => 100 + k) "s1"
        ⟨"POST", some ⟨"m1", "hi", ""⟩⟩).response
      = .success { session_id := "s1", message := "hello", model := "m1" }
    ∧ (ChatStore.GetMessages
          (OllamaHandler.Chat scenarioClient New NewAIDB (fun k => 100 + k) "s1"
            ⟨"POST", some ⟨"m1", "hi", ""⟩⟩).db "s1").map
        (List.map (fun m => (m.Role, m.Content)))
        = .ok [("system",
                "You are BlueNode Helper, an AI assistant for the BlueNode Server OS."),
               ("user", "hi"), ("assistant", "hello")] :=
  match Chat_new_session scenarioClient New NewAIDB (fun k => 100 + k) "s1"
      ⟨"m1", "hi", ""⟩ ⟨"m1", 0, ⟨"assistant", "hello"⟩, true⟩ rfl (by simp [NewAIDB])
      (by simp [NewAIDB]) (by decide) rfl (by decide) rfl with
  | ⟨h1, _, _, h4⟩ => ⟨h1, h4⟩

theorem orderByAsc_eq_nil {α : Type} (key : α → Int) (rows : List α)
    (h : orderByAsc key rows = []) : rows = [] :=
  List.Perm.eq_nil (h ▸ (orderByAsc_perm key rows).symm)

/-- C23. A `POST` to `Chat` with a session id and a non-empty message, `H` the history
`GetMessages` returns for that id.  The inference capability is called once with the
resolved model; when `H` is not empty its messages are the `(role, content)` pairs of
`H` in stored order followed by the user's message, without a system prompt; when `H` is
empty they are exactly `[system prompt, user message]`.  In that second case, when the
inference call succeeds (foreign keys not enforced, insert timestamps not decreasing), the
turn succeeds and the messages stored for the session afterwards are exactly
`[user message, assistant reply]`: the system prompt is not stored. -/
theorem Chat_existing_session (client : Client) (config : DB) (db : AIDB)
    (now : Nat → Time) (uuid : String) (req : ChatRequest) (H : List ChatMessage)
    (hmsg : req.Message ≠ "") (hsid : req.SessionID ≠ "")
    (hH : ChatStore.GetMessages db req.SessionID = .ok H) :
    (H ≠ [] →
      (OllamaHandler.Chat client config db now uuid ⟨"POST", some req⟩).inference
        = [(Spec.resolveModel config req.Model,
            H.map (fun m => { Role := m.Role, Content := m.Content })
              ++ [{ Role := "user", Content := req.Message }])])
    ∧ (H = [] →
      (OllamaHandler.Chat client config db now uuid ⟨"POST", some req⟩).inference
        = [(Spec.resolveModel config req.Model,
            [{ Role := "system", Content := Spec.resolveSystemPrompt config },
             { Role := "user", Content := req.Message }])])
    ∧ (H = [] → db.foreign_keys = false → now 3 ≤ now 5 →
      ∀ resp : ChatResponse,
        client (Spec.resolveModel config req.Model)
          [{ Role := "system", Content := Spec.resolveSystemPrompt config },
           { Role := "user", Content := req.Message }] = .ok resp →
        (OllamaHandler.Chat client config db now uuid ⟨"POST", some req⟩).response
          = .success { session_id := req.SessionID, message := resp.Message.Content,
                       model := resp.Model }
        ∧ (ChatStore.GetMessages
            (OllamaHandler.Chat client config db now uuid ⟨"POST", some req⟩).db
            req.SessionID).map (List.map (fun m => (m.Role, m.Content)))
          = .ok [("user", req.Message), ("assistant", resp.Message.Content)]) := by
  have hsel : db.selectChatMessages req.SessionID = H := by
    simpa [ChatStore.GetMessages] using hH
  refine ⟨?_, ?_, ?_⟩
  · intro hne
    have hlen : (H.length == 0) = false := by
      cases H with
      | nil => exact absurd rfl hne
      | cons a t => rfl
    rw [← Faulty_Chat_none, Faulty_Chat_existing _ _ _ _ _ _ _ hmsg hsid]
    simp only [hsel, hlen, Bool.false_eq_true, ↓reduceIte, List.nil_append]
    split <;> rfl
  · intro he
    rw [← Faulty_Chat_none, Faulty_Chat_existing _ _ _ _ _ _ _ hmsg hsid]
    simp only [hsel, he, List.length_nil, beq_self_eq_true, ↓reduceIte, List.map_nil,
      List.append_nil, List.cons_append, List.nil_append]
    split <;> rfl
  · intro he hfk hclock resp hclient
    have hold : db.chat_messages.filter (fun m => m.SessionID == req.SessionID) = [] :=
      orderByAsc_eq_nil _ _ (by rw [← he, ← hsel]; rfl)
    rw [Chat_existing_eq client config db now uuid req hfk hmsg hsid]
    simp only [hsel, he, List.length_nil, beq_self_eq_true, ↓reduceIte, List.map_nil,
      List.append_nil, List.cons_append, List.nil_append, hclient, true_and]
    simp only [ChatStore.GetMessages, AIDB.selectChatMessages, List.filter_append, hold,
      List.nil_append, List.filter_cons, beq_self_eq_true, ↓reduceIte, List.filter_nil]
    rw [orderByAsc_of_sorted]
    · rfl
    · simp only [List.map_cons, List.map_nil, List.pairwise_cons, List.mem_singleton,
        forall_eq, List.not_mem_nil, false_implies, implies_true, List.Pairwise.nil,
        and_true]
      exact Int.ofNat_le.mpr hclock

theorem Chat_existing_session_witness :
    (OllamaHandler.Chat scenarioClient New
        (ChatStore.AddMessage (ChatStore.CreateSession NewAIDB 90 "s1" "m1" "").2 91 91 "s1"
          "system" "Be brief.").2
        (fun k => 100 + k) "s2" ⟨"POST", some ⟨"m1", "hi", "s1"⟩⟩).inference
      = [("m1", [{ Role := "system", Content := "Be brief." },
                 { Role := "user", Content := "hi" }])]
    ∧ (ChatStore.GetMessages
          (OllamaHandler.Chat scenarioClient New
            (ChatStore.CreateSession NewAIDB 90 "s1" "m1" "").2
            (fun k => 100 + k) "s2" ⟨"POST", some ⟨"m1", "hi", "s1"⟩⟩).db "s1").map
        (List.map (fun m => (m.Role, m.Content)))
        = .ok [("user", "hi"), ("assistant", "hello")] :=
  ⟨(Chat_existing_session scenarioClient New
      (ChatStore.AddMessage (ChatStore.CreateSession NewAIDB 90 "s1" "m1" "").2 91 91 "s1"
        "system" "Be brief.").2
      (fun k => 100 + k) "s2" ⟨"m1", "hi", "s1"⟩
      [⟨1, "s1", "system", "Be brief.", 91⟩] (by decide) (by decide) rfl).1 (by decide),
   ((Chat_existing_session scenarioClient New
      (ChatStore.CreateSession NewAIDB 90 "s1" "m1" "").2
      (fun k => 100 + k) "s2" ⟨"m1", "hi", "s1"⟩ [] (by decide) (by decide) rfl).2.2
      rfl rfl (by decide) ⟨"m1", 0, ⟨"assistant", "hello"⟩, true⟩ rfl).2⟩

/-- C24 as stated fails: a store holding the session `s1` (created at 90, its system
message added at 91) and a `POST` to `Chat` on `s1` whose inference call fails.  The
response is the error and the user message is stored, but the store afterwards is not the
store before plus that message: the `AddMessage` of the user message has moved
`updated_at` of the session from 91 to 104. -/
theorem Chat_inference_fails_touches_session :
    (OllamaHandler.Chat scenarioDownClient New
        (ChatStore.AddMessage (ChatStore.CreateSession NewAIDB 90 "s1" "m1" "").2 91 91 "s1"
          "system" "Be brief.").2
        (fun k => 100 + k) "s2" ⟨"POST", some ⟨"m1", "hi", "s1"⟩⟩).response
      = .error 500 "failed to send request: connection refused"
    ∧ (ChatStore.AddMessage (ChatStore.CreateSession NewAIDB 90 "s1" "m1" "").2 91 91 "s1"
        "system" "Be brief.").2
      = { NewAIDB with
          chat_sessions := [⟨1, "s1", "m1", "", 90, 91⟩]
          chat_sessions_seq := 1
          chat_messages := [⟨1, "s1", "system", "Be brief.", 91⟩]
          chat_messages_seq := 1
          last_insert_rowid := 1 }
    ∧ (OllamaHandler.Chat scenarioDownClient New
        (ChatStore.AddMessage (ChatStore.CreateSession NewAIDB 90 "s1" "m1" "").2 91 91 "s1"
          "system" "Be brief.").2
        (fun k => 100 + k) "s2" ⟨"POST", some ⟨"m1", "hi", "s1"⟩⟩).db
      = { NewAIDB with
          chat_sessions := [⟨1, "s1", "m1", "", 90, 104⟩]
          chat_sessions_seq := 1
          chat_messages := [⟨1, "s1", "system", "Be brief.", 91⟩,
                            ⟨2, "s1", "user", "hi", 103⟩]
          chat_messages_seq := 2
          last_insert_rowid := 2 }
    ∧ (OllamaHandler.Chat scenarioDownClient New
        (ChatStore.AddMessage (ChatStore.CreateSession NewAIDB 90 "s1" "m1" "").2 91 91 "s1"
          "system" "Be brief.").2
        (fun k => 100 + k) "s2" ⟨"POST", some ⟨"m1", "hi", "s1"⟩⟩).db
      ≠ { NewAIDB with
          chat_sessions := [⟨1, "s1", "m1", "", 90, 91⟩]
          chat_sessions_seq := 1
          chat_messages := [⟨1, "s1", "system", "Be brief.", 91⟩,
                            ⟨2, "s1", "user", "hi", 103⟩]
          chat_messages_seq := 2
          last_insert_rowid := 2 } :=
  ⟨rfl, rfl, rfl, by decide⟩

/-- C24, amended. A `POST` to `Chat` with a non-empty message whose inference call fails (a
cancelled call fails too), foreign keys not enforced.  The response is the error, with
status 500, and no assistant message is stored.  Without a session id (the generated id
new): the store afterwards is the store before plus the session row, its `system` message
and the `user` message.  With a session id: the store afterwards is the store before plus
the `user` message, with `updated_at` of the sessions of that id set to the time of the
second statement of that `AddMessage`; nothing else differs.  Indexed files and chunks are
those before. -/
theorem Chat_inference_fails (client : Client) (config : DB) (db : AIDB) (now : Nat → Time)
    (uuid : String) (req : ChatRequest) (err : String)
    (hfk : db.foreign_keys = false) (hmsg : req.Message ≠ "") :
    (req.SessionID = "" → (∀ r ∈ db.chat_sessions, r.SessionID ≠ uuid) →
      client (Spec.resolveModel config req.Model)
        [{ Role := "system", Content := Spec.resolveSystemPrompt config },
         { Role := "user", Content := req.Message }] = .error err →
      (OllamaHandler.Chat client config db now uuid ⟨"POST", some req⟩).response
          = .error 500 err
      ∧ (OllamaHandler.Chat client config db now uuid ⟨"POST", some req⟩).db
          = { db with
              chat_sessions := db.chat_sessions ++
                [⟨db.chat_sessions_seq + 1, uuid, Spec.resolveModel config req.Model, "",
                  now 0, now 4⟩]
              chat_sessions_seq := db.chat_sessions_seq + 1
              chat_messages := db.chat_messages ++
                [⟨db.chat_messages_seq + 1, uuid, "system", Spec.resolveSystemPrompt config,
                   now 1⟩,
                 ⟨db.chat_messages_seq + 2, uuid, "user", req.Message, now 3⟩]
              chat_messages_seq := db.chat_messages_seq + 2
              last_insert_rowid := db.chat_messages_seq + 2 })
    ∧ (req.SessionID ≠ "" →
      client (Spec.resolveModel config req.Model)
        ((if (db.selectChatMessages req.SessionID).length == 0 then
            [{ Role := "system", Content := Spec.resolveSystemPrompt config }]
          else []) ++
          (db.selectChatMessages req.SessionID).map (fun msg =>
            { Role := msg.Role, Content := msg.Content }) ++
          [{ Role := "user", Content := req.Message }]) = .error err →
      (OllamaHandler.Chat client config db now uuid ⟨"POST", some req⟩).response
          = .error 500 err
      ∧ (OllamaHandler.Chat client config db now uuid ⟨"POST", some req⟩).db
          = { db with
              chat_sessions := db.chat_sessions.map (fun r =>
                if r.SessionID == req.SessionID then { r with UpdatedAt := now 4 } else r)
              chat_messages := db.chat_messages ++
                [⟨db.chat_messages_seq + 1, req.SessionID, "user", req.Message, now 3⟩]
              chat_messages_seq := db.chat_messages_seq + 1
              last_insert_rowid := db.chat_messages_seq + 1 }) := by
  constructor
  · intro hsid hfresh hclient
    rw [Chat_new_eq client config db now uuid req hfk hfresh hmsg hsid, hclient]
    exact ⟨rfl, rfl⟩
  · intro hsid hclient
    rw [Chat_existing_eq client config db now uuid req hfk hmsg hsid, hclient]
    exact ⟨rfl, rfl⟩

theorem Chat_inference_fails_witness :
    ((OllamaHandler.Chat scenarioDownClient New NewAIDB (fun k => 100 + k) "s1"
        ⟨"POST", some ⟨"m1", "hi", ""⟩⟩).response
      = .error 500 "failed to send request: connection refused"
    ∧ (OllamaHandler.Chat scenarioDownClient New NewAIDB (fun k => 100 + k) "s1"
        ⟨"POST", some ⟨"m1", "hi", ""⟩⟩).db
      = { NewAIDB with
          chat_sessions := [⟨1, "s1", "m1", "", 100, 104⟩]
          chat_sessions_seq := 1
          chat_messages :=
            [⟨1, "s1", "system",
               "You are BlueNode Helper, an AI assistant for the BlueNode Server OS.", 101⟩,
             ⟨2, "s1", "user", "hi", 103⟩]
          chat_messages_seq := 2
          last_insert_rowid := 2 })
    ∧ ((OllamaHandler.Chat scenarioDownClient New
        (ChatStore.AddMessage (ChatStore.CreateSession NewAIDB 90 "s1" "m1" "").2 91 91 "s1"
          "system" "Be brief.").2
        (fun k => 100 + k) "s2" ⟨"POST", some ⟨"m1", "hi", "s1"⟩⟩).response
      = .error 500 "failed to send request: connection refused"
    ∧ (OllamaHandler.Chat scenarioDownClient New
        (ChatStore.AddMessage (ChatStore.CreateSession NewAIDB 90 "s1" "m1" "").2 91 91 "s1"
          "system" "Be brief.").2
        (fun k => 100 + k) "s2" ⟨"POST", some ⟨"m1", "hi", "s1"⟩⟩).db
      = { NewAIDB with
          chat_sessions := [⟨1, "s1", "m1", "", 90, 104⟩]
          chat_sessions_seq := 1
          chat_messages := [⟨1, "s1", "system", "Be brief.", 91⟩,
                            ⟨2, "s1", "user", "hi", 103⟩]
          chat_messages_seq := 2
          last_insert_rowid := 2 }) :=
  ⟨(Chat_inference_fails scenarioDownClient New NewAIDB (fun k => 100 + k) "s1"
      ⟨"m1", "hi", ""⟩ "failed to send request: connection refused" rfl (by decide)).1 rfl
      (by simp [NewAIDB]) rfl,
   (Chat_inference_fails scenarioDownClient New
      (ChatStore.AddMessage (ChatStore.CreateSession NewAIDB 90 "s1" "m1" "").2 91 91 "s1"
        "system" "Be brief.").2
      (fun k => 100 + k) "s2" ⟨"m1", "hi", "s1"⟩
      "failed to send request: connection refused" rfl (by decide)).2 (by decide) rfl⟩

/-- C25. On a store holding the session `s1`, `AddMessage("s1", "user", "hi")` whose
second statement (the `UPDATE` of the session's `updated_at`) fails with any error `err`:
the call returns the message and no error.  The inserted message stays stored and the
session keeps its old `updated_at`.  Every other `Exec` of the store layer has its error
checked and returned. -/
theorem AddMessage_drops_touch_error (err : String) :
    Faulty.ChatStore.AddMessage none (some err)
        (ChatStore.CreateSession NewAIDB 100 "s1" "m1" "").2 105 106 "s1" "user" "hi"
      = (.ok { ID := 1, SessionID := "s1", Role := "user", Content := "hi", CreatedAt := 106 },
         { NewAIDB with
           chat_sessions := [⟨1, "s1", "m1", "", 100, 100⟩]
           chat_sessions_seq := 1
           chat_messages := [⟨1, "s1", "user", "hi", 105⟩]
           chat_messages_seq := 1
           last_insert_rowid := 1 })
    ∧ Faulty.ChatStore.AddMessage (some err) none
        (ChatStore.CreateSession NewAIDB 100 "s1" "m1" "").2 105 106 "s1" "user" "hi"
      = (.error ("failed to add chat message: " ++ err),
         (ChatStore.CreateSession NewAIDB 100 "s1" "m1" "").2) :=
  ⟨rfl, rfl⟩

/-- C26. A `POST` to `Chat` with a non-empty message on a connection where statements may
fail, the inference call succeeding with `resp`.  With a session id whose history was
read, and without a session id when the session was created: the response is a success
with the session id, the reply text of `resp` and its model name, whatever happens to the
store writes; and when the `INSERT` of the assistant reply fails, the store is left as it
was before that write, without the reply. -/
theorem Chat_reply_survives_store_failure (fault : Nat → Option String) (client : Client)
    (config : DB) (db : AIDB) (now : Nat → Time) (uuid : String) (req : ChatRequest)
    (resp : ChatResponse) (hmsg : req.Message ≠ "") :
    (req.SessionID ≠ "" → fault 7 = none →
      client (Spec.resolveModel config req.Model)
        ((if (db.selectChatMessages req.SessionID).length == 0 then
            [{ Role := "system", Content := Spec.resolveSystemPrompt config }]
          else []) ++
          (db.selectChatMessages req.SessionID).map (fun msg =>
            { Role := msg.Role, Content := msg.Content }) ++
          [{ Role := "user", Content := req.Message }]) = .ok resp →
      (Faulty.OllamaHandler.Chat fault client config db now uuid
          ⟨"POST", some req⟩).response
        = .success { session_id := req.SessionID, message := resp.Message.Content,
                     model := resp.Model }
      ∧ (∀ err, fault 5 = some err →
          (Faulty.OllamaHandler.Chat fault client config db now uuid ⟨"POST", some req⟩).db
            = (Faulty.ChatStore.AddMessage (fault 3) (fault 4) db (now 3) (now 4)
                req.SessionID "user" req.Message).2))
    ∧ (req.SessionID = "" →
      ∀ (s : ChatSession) (db1 : AIDB),
        Faulty.ChatStore.CreateSession (fault 0) db (now 0) uuid
          (Spec.resolveModel config req.Model) "" = (.ok s, db1) →
        client (Spec.resolveModel config req.Model)
          [{ Role := "system", Content := Spec.resolveSystemPrompt config },
           { Role := "user", Content := req.Message }] = .ok resp →
        (Faulty.OllamaHandler.Chat fault client config db now uuid
            ⟨"POST", some req⟩).response
          = .success { session_id := s.SessionID, message := resp.Message.Content,
                       model := resp.Model }
        ∧ (∀ err, fault 5 = some err →
            (Faulty.OllamaHandler.Chat fault client config db now uuid
                ⟨"POST", some req⟩).db
              = (Faulty.ChatStore.AddMessage (fault 3) (fault 4)
                  (Faulty.ChatStore.AddMessage (fault 1) (fault 2) db1 (now 1) (now 2)
                    s.SessionID "system" (Spec.resolveSystemPrompt config)).2
                  (now 3) (now 4) s.SessionID "user" req.Message).2)) := by
  constructor
  · intro hsid h7 hclient
    rw [Faulty_Chat_existing _ _ _ _ _ _ _ hmsg hsid]
    simp only [h7, hclient, true_and]
    intro err h5
    rw [h5]
    rfl
  · intro hsid s db1 hc hclient
    rw [Faulty_Chat_new _ _ _ _ _ _ _ hmsg hsid s db1 hc]
    simp only [hclient, true_and]
    intro err h5
    rw [h5]
    rfl

theorem Chat_reply_survives_store_failure_witness :
    (Faulty.OllamaHandler.Chat (fun k => if k = 5 then some "database is locked" else none)
        scenarioClient New NewAIDB (fun k => 100 + k) "s1"
        ⟨"POST", some ⟨"m1", "hi", ""⟩⟩).response
      = .success { session_id := "s1", message := "hello", model := "m1" }
    ∧ (ChatStore.GetMessages
        (Faulty.OllamaHandler.Chat (fun k => if k = 5 then some "database is locked" else none)
          scenarioClient New NewAIDB (fun k => 100 + k) "s1"
          ⟨"POST", some ⟨"m1", "hi", ""⟩⟩).db "s1").map
        (List.map (fun m => (m.Role, m.Content)))
      = .ok [("system",
              "You are BlueNode Helper, an AI assistant for the BlueNode Server OS."),
             ("user", "hi")] :=
  match (Chat_reply_survives_store_failure
      (fun k => if k = 5 then some "database is locked" else none) scenarioClient New NewAIDB
      (fun k => 100 + k) "s1" ⟨"m1", "hi", ""⟩ ⟨"m1", 0, ⟨"assistant", "hello"⟩, true⟩
      (by decide)).2 rfl _ _ rfl rfl with
  | ⟨h1, h2⟩ => ⟨h1, by rw [h2 "database is locked" rfl]; rfl⟩

/-- C27. On a fresh store, three `POST`s to `Chat` without a session id, each on a
connection where one statement fails with `database is locked`.  When the `INSERT` of the
caller's message fails, and when the `INSERT` of the system prompt fails, the turn calls
the inference capability and answers with a success, and the message that could not be
written is missing from the stored history: the error `AddMessage` returns is dropped by
the handler.  When the `INSERT` of the session fails, the error `CreateSession` returns is
checked and the turn ends at once with status 500. -/
theorem Chat_proceeds_after_failed_write :
    Faulty.ChatStore.AddMessage (some "database is locked") none
        (ChatStore.CreateSession NewAIDB 100 "s1" "m1" "").2 103 104 "s1" "user" "hi"
      = (.error "failed to add chat message: database is locked",
         (ChatStore.CreateSession NewAIDB 100 "s1" "m1" "").2)
    ∧ Faulty.OllamaHandler.Chat (fun k => if k = 3 then some "database is locked" else none)
        scenarioClient New NewAIDB (fun k => 100 + k) "s1" ⟨"POST", some ⟨"m1", "hi", ""⟩⟩
      = { response := .success { session_id := "s1", message := "hello", model := "m1" },
          db := { NewAIDB with
            chat_sessions := [⟨1, "s1", "m1", "", 100, 106⟩]
            chat_sessions_seq := 1
            chat_messages :=
              [⟨1, "s1", "system",
                 "You are BlueNode Helper, an AI assistant for the BlueNode Server OS.",
                 101⟩,
               ⟨2, "s1", "assistant", "hello", 105⟩]
            chat_messages_seq := 2
            last_insert_rowid := 2 },
          inference := [("m1",
            [{ Role := "system", Content :=
                 "You are BlueNode Helper, an AI assistant for the BlueNode Server OS." },
             { Role := "user", Content := "hi" }])] }
    ∧ (Faulty.OllamaHandler.Chat (fun k => if k = 1 then some "database is locked" else none)
        scenarioClient New NewAIDB (fun k => 100 + k) "s1"
        ⟨"POST", some ⟨"m1", "hi", ""⟩⟩).response
      = .success { session_id := "s1", message := "hello", model := "m1" }
    ∧ (ChatStore.GetMessages
        (Faulty.OllamaHandler.Chat (fun k => if k = 1 then some "database is locked" else none)
          scenarioClient New NewAIDB (fun k => 100 + k) "s1"
          ⟨"POST", some ⟨"m1", "hi", ""⟩⟩).db "s1").map
        (List.map (fun m => (m.Role, m.Content)))
      = .ok [("user", "hi"), ("assistant", "hello")]
    ∧ Faulty.OllamaHandler.Chat (fun k => if k = 0 then some "database is locked" else none)
        scenarioClient New NewAIDB (fun k => 100 + k) "s1" ⟨"POST", some ⟨"m1", "hi", ""⟩⟩
      = { response := .error 500 "failed to create chat session: database is locked",
          db := NewAIDB, inference := [] } :=
  ⟨rfl, rfl, rfl, rfl, rfl⟩

/-- Which failing statements `Chat` reports, for a `POST` with a non-empty message on a
connection where statements may fail.  A failing `INSERT` of the new session (no session id
given) and a failing `SELECT` of the history (session id given) end the turn at once with
status 500 and the wrapped error, the store untouched and the inference capability not
called.  The failures of the statements of `AddMessage` are dropped: when neither of
those two statements fails, the response and the inference call are those of the turn on
a connection without failure. -/
theorem Chat_store_failures (fault : Nat → Option String) (client : Client) (config : DB)
    (db : AIDB) (now : Nat → Time) (uuid : String) (req : ChatRequest)
    (hmsg : req.Message ≠ "") :
    (req.SessionID = "" → ∀ err, fault 0 = some err →
      Faulty.OllamaHandler.Chat fault client config db now uuid ⟨"POST", some req⟩
        = { response := .error 500 ("failed to create chat session: " ++ err), db := db,
            inference := [] })
    ∧ (req.SessionID ≠ "" → ∀ err, fault 7 = some err →
      Faulty.OllamaHandler.Chat fault client config db now uuid ⟨"POST", some req⟩
        = { response := .error 500 ("failed to get chat messages: " ++ err), db := db,
            inference := [] })
    ∧ (fault 0 = none → fault 7 = none →
      (Faulty.OllamaHandler.Chat fault client config db now uuid
          ⟨"POST", some req⟩).response
        = (OllamaHandler.Chat client config db now uuid ⟨"POST", some req⟩).response
      ∧ (Faulty.OllamaHandler.Chat fault client config db now uuid
          ⟨"POST", some req⟩).inference
        = (OllamaHandler.Chat client config db now uuid ⟨"POST", some req⟩).inference) := by
  refine ⟨?_, ?_, ?_⟩
  · intro hsid err h0
    exact Faulty_Chat_new_error _ _ _ _ _ _ _ hmsg hsid _ _ (by rw [h0]; rfl)
  · intro hsid err h7
    rw [Faulty_Chat_existing _ _ _ _ _ _ _ hmsg hsid, h7]
  · intro h0 h7
    rw [← Faulty_Chat_none]
    by_cases hsid : req.SessionID = ""
    · cases hc : ChatStore.CreateSession db (now 0) uuid
          (Spec.resolveModel config req.Model) "" with
      | mk res db1 =>
        cases res with
        | error err =>
          rw [Faulty_Chat_new_error fault _ _ _ _ _ _ hmsg hsid err db1 (by rw [h0]; exact hc),
            Faulty_Chat_new_error (fun _ => none) _ _ _ _ _ _ hmsg hsid err db1 hc]
          exact ⟨rfl, rfl⟩
        | ok s =>
          rw [Faulty_Chat_new fault _ _ _ _ _ _ hmsg hsid s db1 (by rw [h0]; exact hc),
            Faulty_Chat_new (fun _ => none) _ _ _ _ _ _ hmsg hsid s db1 hc]
          cases client (Spec.resolveModel config req.Model)
              [{ Role := "system", Content := Spec.resolveSystemPrompt config },
               { Role := "user", Content := req.Message }] with
          | error err => exact ⟨rfl, rfl⟩
          | ok resp => exact ⟨rfl, rfl⟩
    · rw [Faulty_Chat_existing fault _ _ _ _ _ _ hmsg hsid,
        Faulty_Chat_existing (fun _ => none) _ _ _ _ _ _ hmsg hsid]
      simp only [h7]
      cases client (Spec.resolveModel config req.Model)
          ((if (db.selectChatMessages req.SessionID).length == 0 then
              [{ Role := "system", Content := Spec.resolveSystemPrompt config }]
            else []) ++
            (db.selectChatMessages req.SessionID).map (fun msg =>
              { Role := msg.Role, Content := msg.Content }) ++
            [{ Role := "user", Content := req.Message }]) with
      | error err => exact ⟨rfl, rfl⟩
      | ok resp => exact ⟨rfl, rfl⟩

theorem Chat_store_failures_witness :
    Faulty.OllamaHandler.Chat (fun k => if k = 0 then some "database is locked" else none)
        scenarioClient New NewAIDB (fun k => 100 + k) "s1" ⟨"POST", some ⟨"m1", "hi", ""⟩⟩
      = { response := .error 500 "failed to create chat session: database is locked",
          db := NewAIDB, inference := [] }
    ∧ (Faulty.OllamaHandler.Chat (fun k => if k = 3 then some "database is locked" else none)
        scenarioClient New NewAIDB (fun k => 100 + k) "s1"
        ⟨"POST", some ⟨"m1", "hi", ""⟩⟩).response
      = (OllamaHandler.Chat scenarioClient New NewAIDB (fun k => 100 + k) "s1"
          ⟨"POST", some ⟨"m1", "hi", ""⟩⟩).response :=
  ⟨(Chat_store_failures (fun k => if k = 0 then some "database is locked" else none)
      scenarioClient New NewAIDB (fun k => 100 + k) "s1" ⟨"m1", "hi", ""⟩ (by decide)).1
      rfl "database is locked" rfl,
   ((Chat_store_failures (fun k => if k = 3 then some "database is locked" else none)
      scenarioClient New NewAIDB (fun k => 100 + k) "s1" ⟨"m1", "hi", ""⟩ (by decide)).2.2
      rfl rfl).1⟩

/-- C28. On a fresh store, which holds no session, a `POST` to `Chat` with the session id
`ghost` and the message `hi`: the handler proceeds as for a stored session without
messages.  It calls the inference capability with `[system prompt, hi]`, stores the user
message and the reply under `ghost` and answers with a success, while `GetSession` still
reports that no such session exists.  With foreign keys enforced the two writes would fail,
and the handler would call the inference capability and answer with a success all the
same. -/
theorem Chat_unknown_session :
    ChatStore.GetSession NewAIDB "ghost" = .error "chat session not found: ghost"
    ∧ (OllamaHandler.Chat scenarioClient New NewAIDB (fun k => 100 + k) "s1"
        ⟨"POST", some ⟨"m1", "hi", "ghost"⟩⟩).response
      = .success { session_id := "ghost", message := "hello", model := "m1" }
    ∧ (OllamaHandler.Chat scenarioClient New NewAIDB (fun k => 100 + k) "s1"
        ⟨"POST", some ⟨"m1", "hi", "ghost"⟩⟩).inference
      = [("m1", [{ Role := "system", Content :=
                   "You are BlueNode Helper, an AI assistant for the BlueNode Server OS." },
                 { Role := "user", Content := "hi" }])]
    ∧ ChatStore.GetMessages
        (OllamaHandler.Chat scenarioClient New NewAIDB (fun k => 100 + k) "s1"
          ⟨"POST", some ⟨"m1", "hi", "ghost"⟩⟩).db "ghost"
      = .ok [⟨1, "ghost", "user", "hi", 103⟩, ⟨2, "ghost", "assistant", "hello", 105⟩]
    ∧ ChatStore.GetSession
        (OllamaHandler.Chat scenarioClient New NewAIDB (fun k => 100 + k) "s1"
          ⟨"POST", some ⟨"m1", "hi", "ghost"⟩⟩).db "ghost"
      = .error "chat session not found: ghost"
    ∧ OllamaHandler.Chat scenarioClient New { NewAIDB with foreign_keys := true }
        (fun k => 100 + k) "s1" ⟨"POST", some ⟨"m1", "hi", "ghost"⟩⟩
      = { response := .success { session_id := "ghost", message := "hello", model := "m1" },
          db := { NewAIDB with foreign_keys := true },
          inference := [("m1", [{ Role := "system", Content :=
                   "You are BlueNode Helper, an AI assistant for the BlueNode Server OS." },
                 { Role := "user", Content := "hi" }])] } :=
  ⟨rfl, rfl, rfl, rfl, rfl, rfl⟩

/-- The later turns of a conversation: the session holds the rows `rows`, in insertion
order and not empty, and every turn succeeds. -/
theorem run_existing (uuid : String) (huuid : uuid ≠ "") :
    ∀ (ts : List ChatTurn) (db : AIDB) (rows : List ChatMessage),
      db.foreign_keys = false →
      db.chat_messages.filter (fun m => m.SessionID == uuid) = rows →
      rows ≠ [] →
      (rows.map (fun m => m.CreatedAt) ++ ts.flatMap (fun x => [x.now 3, x.now 5])).Pairwise
        (· ≤ ·) →
      (∀ x ∈ ts, x.message ≠ "") →
      (∀ o ∈ (ChatTurn.run uuid uuid db ts).1, ∃ data, o.response = .success data) →
      ∃ replies : List (String × String),
        replies.length = ts.length
        ∧ (ChatTurn.run uuid uuid db ts).1.map (fun o => o.response)
            = replies.map (fun r => .success ⟨uuid, r.1, r.2⟩)
        ∧ (ChatTurn.run uuid uuid db ts).1.map (fun o => o.inference)
            = List.zipWith (fun x msgs => [(Spec.resolveModel x.config x.model, msgs)]) ts
                (List.zipWith
                  (fun before p =>
                    rows.map (fun m => ({ Role := m.Role, Content := m.Content } : Message))
                      ++ before.flatMap (fun p : String × String =>
                          [({ Role := "user", Content := p.1 } : Message),
                           { Role := "assistant", Content := p.2 }])
                      ++ [{ Role := "user", Content := p.1 }])
                  (List.zip (ts.map (fun x => x.message)) (replies.map Prod.fst)).inits
                  (List.zip (ts.map (fun x => x.message)) (replies.map Prod.fst)))
        ∧ (ChatStore.GetMessages (ChatTurn.run uuid uuid db ts).2 uuid).map
            (List.map (fun m => ({ Role := m.Role, Content := m.Content } : Message)))
            = .ok (rows.map (fun m => ({ Role := m.Role, Content := m.Content } : Message))
                ++ (List.zip (ts.map (fun x => x.message)) (replies.map Prod.fst)).flatMap
                    (fun p : String × String =>
                      [({ Role := "user", Content := p.1 } : Message),
                       { Role := "assistant", Content := p.2 }])) := by
  intro ts
  induction ts with
  | nil =>
    intro db rows hfk hrows hne hclock hmsg hok
    refine ⟨[], rfl, rfl, rfl, ?_⟩
    have hsorted : (rows.map (fun m => (m.CreatedAt : Int))).Pairwise (· ≤ ·) := by
      simp only [List.flatMap_nil, List.append_nil, List.pairwise_map] at hclock
      rw [List.pairwise_map]
      exact hclock.imp (fun h => Int.ofNat_le.mpr h)
    simp only [ChatTurn.run, ChatStore.GetMessages, AIDB.selectChatMessages, hrows,
      orderByAsc_of_sorted _ _ hsorted]
    simp [Except.map]
  | cons t ts ih =>
    intro db rows hfk hrows hne hclock hmsg hok
    have hm : t.message ≠ "" := hmsg t (List.mem_cons_self _ _)
    have hsorted : (rows.map (fun m => (m.CreatedAt : Int))).Pairwise (· ≤ ·) := by
      have h1 := (List.pairwise_append.mp hclock).1
      rw [List.pairwise_map] at h1 ⊢
      exact h1.imp (fun h => Int.ofNat_le.mpr h)
    have hsel : db.selectChatMessages uuid = rows := by
      simp only [AIDB.selectChatMessages, hrows, orderByAsc_of_sorted _ _ hsorted]
    have hlen : (rows.length == 0) = false := by
      cases rows with
      | nil => exact absurd rfl hne
      | cons a l => rfl
    have hch := Chat_existing_eq t.client t.config db t.now uuid ⟨t.model, t.message, uuid⟩
      hfk hm huuid
    simp only [hsel, hlen, Bool.false_eq_true, ↓reduceIte, List.nil_append] at hch
    cases hcl : t.client (Spec.resolveModel t.config t.model)
        (rows.map (fun m => ({ Role := m.Role, Content := m.Content } : Message))
          ++ [{ Role := "user", Content := t.message }]) with
    | error err =>
      rw [hcl] at hch
      obtain ⟨data, hd⟩ := hok _ (by simp only [ChatTurn.run]; exact List.mem_cons_self _ _)
      rw [hch] at hd
      exact absurd hd (by simp)
    | ok resp =>
      rw [hcl] at hch
      simp only [ChatTurn.run] at hok ⊢
      generalize OllamaHandler.Chat t.client t.config db t.now uuid
        ⟨"POST", some ⟨t.model, t.message, uuid⟩⟩ = out at hok hch ⊢
      obtain ⟨replies, hl, hr, hi, hs⟩ := ih out.db
        (rows ++ [⟨db.chat_messages_seq + 1, uuid, "user", t.message, t.now 3⟩,
          ⟨db.chat_messages_seq + 2, uuid, "assistant", resp.Message.Content, t.now 5⟩])
        (by rw [hch]; exact hfk) (by rw [hch]; simp [List.filter_append, hrows]) (by simp)
        (by simpa [List.flatMap_cons] using hclock)
        (fun x hx => hmsg x (List.mem_cons_of_mem _ hx))
        (fun o ho => hok o (List.mem_cons_of_mem _ ho))
      refine ⟨(resp.Message.Content, resp.Model) :: replies, by simp [hl], ?_, ?_, ?_⟩
      · simp only [List.map_cons, hr]
        rw [hch]
      · simp only [List.map_cons, hi, List.zip_cons_cons, List.inits_cons,
          List.zipWith_cons_cons, List.zipWith_map_left, List.flatMap_nil, List.append_nil,
          List.flatMap_cons, List.map_append, List.map_nil, List.append_assoc,
          List.cons_append, List.nil_append]
        rw [hch]
      · simp only [hs, List.map_cons, List.zip_cons_cons, List.flatMap_cons, List.map_append,
          List.map_nil, List.append_assoc, List.cons_append, List.nil_append]
theorem history_length (systemPrompt : String) (turns : List (String × String)) :
    (Spec.history systemPrompt turns).length = 1 + 2 * turns.length := by
  unfold Spec.history
  induction turns with
  | nil => rfl
  | cons p rest ih =>
    simp only [List.length_cons, List.flatMap_cons, List.length_append, List.length_nil] at ih ⊢
    omega

/-- C29. A conversation of `n ≥ 1` turns with non-empty messages `u1..un`: the first is
`POST`ed to `Chat` without a session id, each later one with the session id the first
returned.  The store does not enforce foreign keys (as `NewAIDB` leaves it), the
generated session id is not empty and new to the store, every turn answers with a
success, and the timestamps of the inserted messages do not decrease.  Then, with
`a1..an` the reply texts of the responses: every response carries the generated session
id; the k-th inference call receives the resolved model of its turn and exactly
`[system prompt, u1, a1, ..., u(k-1), a(k-1), uk]`; the history stored after the last turn
is `[system prompt, u1, a1, ..., un, an]`, of `1 + 2n` messages.  The system prompt is the
one resolved from the configuration of the first turn, whatever the configuration of the
later turns holds. -/
theorem Chat_conversation (uuid : String) (db : AIDB) (t : ChatTurn) (ts : List ChatTurn)
    (huuid : uuid ≠ "")
    (hfk : db.foreign_keys = false)
    (hfresh : ∀ r ∈ db.chat_sessions, r.SessionID ≠ uuid)
    (hnone : ∀ m ∈ db.chat_messages, m.SessionID ≠ uuid)
    (hmsg : ∀ x ∈ t :: ts, x.message ≠ "")
    (hok : ∀ o ∈ (ChatTurn.conversation uuid db (t :: ts)).1,
      ∃ data, o.response = .success data)
    (hclock : (t.now 1 :: t.now 3 :: t.now 5
        :: ts.flatMap (fun x => [x.now 3, x.now 5])).Pairwise (· ≤ ·)) :
    ∃ replies : List (String × String),
      replies.length = (t :: ts).length
      ∧ (ChatTurn.conversation uuid db (t :: ts)).1.map (fun o => o.response)
          = replies.map (fun r => .success ⟨uuid, r.1, r.2⟩)
      ∧ (ChatTurn.conversation uuid db (t :: ts)).1.map (fun o => o.inference)
          = List.zipWith (fun x msgs => [(Spec.resolveModel x.config x.model, msgs)])
              (t :: ts)
              (Spec.inputs (Spec.resolveSystemPrompt t.config)
                (List.zip ((t :: ts).map (fun x => x.message)) (replies.map Prod.fst)))
      ∧ (ChatStore.GetMessages (ChatTurn.conversation uuid db (t :: ts)).2 uuid).map
          (List.map (fun m => ({ Role := m.Role, Content := m.Content } : Message)))
          = .ok (Spec.history (Spec.resolveSystemPrompt t.config)
              (List.zip ((t :: ts).map (fun x => x.message)) (replies.map Prod.fst)))
      ∧ (Spec.history (Spec.resolveSystemPrompt t.config)
            (List.zip ((t :: ts).map (fun x => x.message)) (replies.map Prod.fst))).length
          = 1 + 2 * (t :: ts).length := by
  have hm : t.message ≠ "" := hmsg t (List.mem_cons_self _ _)
  have hold : db.chat_messages.filter (fun m => m.SessionID == uuid) = [] := by
    rw [List.filter_eq_nil_iff]
    intro m hm
    simpa using hnone m hm
  have hch := Chat_new_eq t.client t.config db t.now uuid ⟨t.model, t.message, ""⟩
    hfk hfresh hm rfl
  simp only [] at hch
  simp only [ChatTurn.conversation] at hok ⊢
  generalize OllamaHandler.Chat t.client t.config db t.now uuid
    ⟨"POST", some ⟨t.model, t.message, ""⟩⟩ = out at hok hch ⊢
  cases hcl : t.client (Spec.resolveModel t.config t.model)
      [{ Role := "system", Content := Spec.resolveSystemPrompt t.config },
       { Role := "user", Content := t.message }] with
  | error err =>
    rw [hcl] at hch
    have hresp : out.response = .error 500 err := by rw [hch]
    simp only [hresp] at hok
    obtain ⟨data, hd⟩ := hok out (List.mem_singleton_self _)
    rw [hresp] at hd
    exact absurd hd (by simp)
  | ok resp =>
    rw [hcl] at hch
    have hresp : out.response = .success ⟨uuid, resp.Message.Content, resp.Model⟩ := by
      rw [hch]
    simp only [hresp] at hok ⊢
    obtain ⟨replies, hl, hr, hi, hs⟩ := run_existing uuid huuid ts out.db
      [⟨db.chat_messages_seq + 1, uuid, "system", Spec.resolveSystemPrompt t.config,
         t.now 1⟩,
       ⟨db.chat_messages_seq + 2, uuid, "user", t.message, t.now 3⟩,
       ⟨db.chat_messages_seq + 3, uuid, "assistant", resp.Message.Content, t.now 5⟩]
      (by rw [hch]; exact hfk) (by rw [hch]; simp [List.filter_append, hold]) (by simp)
      (by simpa using hclock)
      (fun x hx => hmsg x (List.mem_cons_of_mem _ hx))
      (fun o ho => hok o (List.mem_cons_of_mem _ ho))
    refine ⟨(resp.Message.Content, resp.Model) :: replies, by simp [hl], ?_, ?_, ?_, ?_⟩
    · simp only [List.map_cons, hr, hresp]
    · simp only [List.map_cons, hi, Spec.inputs, Spec.history, List.zip_cons_cons,
        List.inits_cons, List.zipWith_cons_cons, List.zipWith_map_left, List.flatMap_nil,
        List.append_nil, List.flatMap_cons, List.map_append, List.map_nil,
        List.append_assoc, List.cons_append, List.nil_append]
      rw [hch]
    · simp only [hs, Spec.history, List.map_cons, List.zip_cons_cons, List.flatMap_cons,
        List.map_append, List.map_nil, List.append_assoc, List.cons_append, List.nil_append]
    · rw [history_length]
      simp [hl]

theorem Chat_conversation_witness :
    ∃ replies : List (String × String),
      replies.length = 2
      ∧ (ChatTurn.conversation "s1" NewAIDB scenarioTurns).1.map (fun o => o.response)
          = replies.map (fun r => .success ⟨"s1", r.1, r.2⟩)
      ∧ (ChatStore.GetMessages (ChatTurn.conversation "s1" NewAIDB scenarioTurns).2 "s1").map
          (List.map (fun m => ({ Role := m.Role, Content := m.Content } : Message)))
          = .ok (Spec.history
              "You are BlueNode Helper, an AI assistant for the BlueNode Server OS."
              (List.zip ["hi", "more"] (replies.map Prod.fst))) :=
  match Chat_conversation "s1" NewAIDB
      { client := scenarioClient, config := New, now := fun k => 100 + k, model := "m1",
        message := "hi" }
      [{ client := scenarioClient,
         config := (ConfigStore.Set New 150 "ollama.system_prompt" "Be brief." "").2,
         now := fun k => 200 + k, model := "m1", message := "more" }]
      (by decide) rfl (by simp [NewAIDB]) (by simp [NewAIDB]) (by simp)
      (fun o ho => by
        have hmem := List.mem_map_of_mem (fun o : Outcome ChatReply => o.response) ho
        have hlist : (ChatTurn.conversation "s1" NewAIDB scenarioTurns).1.map
            (fun o => o.response)
            = [.success ⟨"s1", "hello", "m1"⟩, .success ⟨"s1", "hello", "m1"⟩] := rfl
        rw [show (ChatTurn.conversation "s1" NewAIDB
              [{ client := scenarioClient, config := New, now := fun k => 100 + k,
                 model := "m1", message := "hi" },
               { client := scenarioClient,
                 config := (ConfigStore.Set New 150 "ollama.system_prompt" "Be brief." "").2,
                 now := fun k => 200 + k, model := "m1", message := "more" }]).1.map
              (fun o => o.response)
            = [.success ⟨"s1", "hello", "m1"⟩, .success ⟨"s1", "hello", "m1"⟩] from hlist]
          at hmem
        simp only [List.mem_cons, List.mem_singleton, List.not_mem_nil, or_false,
          or_self] at hmem
        exact ⟨_, hmem⟩)
      (by decide) with
  | ⟨replies, hl, hr, _, hs, _⟩ => ⟨replies, hl, hr, hs⟩

/-- C30. A `POST` to `Chat` whose message is empty, whatever the model field and the
session id hold, on any connection (failing or not): the handler answers
`400 Message is required`, the store is the one before the call (no session created, no
message stored) and the inference capability is not called. -/
theorem Chat_empty_message (fault : Nat → Option String) (client : Client) (config : DB)
    (db : AIDB) (now : Nat → Time) (uuid model sessionID : String) :
    OllamaHandler.Chat client config db now uuid ⟨"POST", some ⟨model, "", sessionID⟩⟩
        = { response := .error 400 "Message is required", db := db, inference := [] }
    ∧ Faulty.OllamaHandler.Chat fault client config db now uuid
          ⟨"POST", some ⟨model, "", sessionID⟩⟩
        = { response := .error 400 "Message is required", db := db, inference := [] } := by
  constructor
  · simp [OllamaHandler.Chat]
  · simp [Faulty.OllamaHandler.Chat]


end BNHelper
